import Mathlib

/-!
# DALI: `Tensor` sharing, slicing and resizing; `BoxEncoder`, `DiceRoll`, `Box`

A shallow embedding of `dali/pipeline/data/tensor.h`.  A `Tensor<Backend>` object is a
record of its data members.  A member function that checks before it assigns becomes a
function from the state of `*this` before the call to `Except String Tensor`: `.error msg`
is a `DALI_ENFORCE` that threw, `.ok r` is the state of `*this` after a normal return.  What
a call that throws leaves behind is read off the list of the statements of the function
(`Stmt.run`).  The `Copy` overloads assign members before a call that may throw; they return
an `Outcome`, the state of `*this` when the call ends together with the exception, if any.
The operators `BoxEncoder` and `DiceRoll` and the geometry of `box.h` follow the tensor; a
`Run` of `DiceRoll` ends as an `Ending`: it returns, throws, or has undefined behaviour.

Numbers: `Index` (`int64_t`) and `size_t` values are unbounded integers (`Int`), so every result is
the C++ result as long as the C++ arithmetic stays in range (signed overflow is undefined in
C++ and is not modelled).  Addresses are integers, `0` is `nullptr`; a `shared_ptr<void>` is
the address it holds.  A pointer argument that may be null is an `Option`.

`buffer.h`, `tensor_list.h`, `types.h`, `meta.h`, `tensor_shape.h` and `util.h` are not part
of the sources at hand; what `tensor.h` uses from them is modelled below and marked so.
-/

namespace dali

/-- Modelled from the spec: `TypeInfo` (`dali/pipeline/data/types.h` is not among the
sources).  A type descriptor identifies an element type and exposes its element byte size;
`NoType` is the "no type" descriptor of an untyped buffer. -/
inductive TypeInfo where
  | NoType : TypeInfo
  | typed (id : Nat) (elem_size : Nat) : TypeInfo
  deriving DecidableEq, Repr

/-- Modelled from the spec: `TypeInfo::size()`, the element byte size; `NoType` has size 0. -/
def TypeInfo.size : TypeInfo → Nat
  | .NoType => 0
  | .typed _ s => s

/-- Modelled from the spec: `IsValidType`, true for every descriptor but `NoType`. -/
def IsValidType (t : TypeInfo) : Bool :=
  decide (t ≠ TypeInfo.NoType)

/-- Modelled from the spec: `DALITensorLayout`, the layout tag of the sample metadata
(`dali/pipeline/data/types.h` is not among the sources). -/
inductive DALITensorLayout where
  | DALI_NCHW | DALI_NHWC | DALI_NFHWC | DALI_NFCHW | DALI_SAME
  deriving DecidableEq, Repr

/-- Modelled from the spec: `DALIMeta` (`dali/pipeline/data/meta.h` is not among the
sources): `{layout, source_info, skip}`. -/
structure DALIMeta where
  layout_ : DALITensorLayout
  source_info_ : String
  skip_sample_ : Bool
  deriving DecidableEq, Repr

/-- The member initialiser `DALIMeta meta_{DALI_NHWC}` of `Tensor`. -/
def DALIMeta.init : DALIMeta :=
  { layout_ := .DALI_NHWC, source_info_ := "", skip_sample_ := false }

/-- Modelled from the spec: the value-initialised `DALIMeta{}` that `meta_ = {}` assigns, the
"cleared" metadata: no source info, skip flag off.  `meta.h` is not among the sources, so the
layout such a value holds is the parameter `cleared_layout`. -/
def DALIMeta.cleared (cleared_layout : DALITensorLayout) : DALIMeta :=
  { layout_ := cleared_layout, source_info_ := "", skip_sample_ := false }

/-- Modelled from the spec: `volume` (`dali/core/util.h` is not among the sources), the
product of the extents.  The volume of the empty shape is 0: `tensor.h` documents that
`ShareData(void *ptr, size_t bytes)`, which passes the shape `{}`, sets the size to 0, and a
default-constructed `Tensor` has the empty shape and size 0. -/
def volume : List Int → Int
  | [] => 0
  | d :: ds => ds.foldl (fun v e => v * e) d

/-- Modelled from the spec: `kernels::TensorShape<>::last(n)`, the last `n` extents
(`dali/kernels/tensor_shape.h` is not among the sources). -/
def TensorShape.last (shape : List Int) (n : Int) : List Int :=
  shape.drop (shape.length - n.toNat)

/-- Modelled from the spec: `kernels::shape_cat(n, shape)`, the shape with `n` put in front. -/
def shape_cat (n : Int) (shape : List Int) : List Int :=
  n :: shape

/-- The data members of `Tensor<Backend>`: `shape_`, `meta_` and the members of
`Buffer<Backend>` named by `USE_BUFFER_MEMBERS()` (`backend_` is a stateless tag object
fixed by the template parameter and carries no data).  `device_` is the optional device id
of the spec. -/
structure Tensor where
  shape_ : List Int
  meta_ : DALIMeta
  type_ : TypeInfo
  data_ : Int
  size_ : Int
  shares_data_ : Bool
  num_bytes_ : Int
  device_ : Option Int
  deriving DecidableEq, Repr

/-- The default-constructed `Tensor()`: empty shape, `meta_{DALI_NHWC}`, and the spec's
empty buffer (no type, no allocation, zero elements, zero bytes, not shared). -/
def Tensor.init : Tensor :=
  { shape_ := [], meta_ := DALIMeta.init, type_ := .NoType, data_ := 0, size_ := 0,
    shares_data_ := false, num_bytes_ := 0, device_ := none }

/-- Modelled from the spec: `TensorList<Backend>` (`dali/pipeline/data/tensor_list.h` is not
among the sources), as far as `tensor.h` reads it: the shapes of the samples, the offset of
every sample in elements from the start of the allocation, the element type, the start of
the allocation, the device and the metadata of every sample. -/
structure TensorList where
  shape_ : List (List Int)
  offsets_ : List Int
  type_ : TypeInfo
  data_ : Int
  device_ : Option Int
  meta_ : List DALIMeta := []
  layout_ : DALITensorLayout := .DALI_NHWC
  deriving DecidableEq, Repr

namespace TensorList

/-- Modelled from the spec: `ntensor()`, the number of samples. -/
def ntensor (tl : TensorList) : Nat :=
  tl.shape_.length

/-- Modelled from the spec: `tensor_shape(idx)`, the shape of sample `idx`. -/
def tensor_shape (tl : TensorList) (idx : Int) : List Int :=
  tl.shape_.getD idx.toNat []

/-- Modelled from the spec: `type()`. -/
def type (tl : TensorList) : TypeInfo :=
  tl.type_

/-- Modelled from the spec: `device_id()`. -/
def device_id (tl : TensorList) : Option Int :=
  tl.device_

/-- Modelled from the spec: `raw_mutable_tensor(idx)`, the address of sample `idx`: the
start of the allocation advanced by the sample's offset in bytes. -/
def raw_mutable_tensor (tl : TensorList) (idx : Int) : Int :=
  tl.data_ + tl.offsets_.getD idx.toNat 0 * tl.type_.size

/-- Modelled from the spec: `shape().num_elements()`, the total element count of the list:
the sum of the volumes of the samples. -/
def num_elements (tl : TensorList) : Int :=
  (tl.shape_.map volume).sum

/-- The samples with shapes `shapes` lie back to back from element offset `off` on. -/
def packedFrom : Int → List (List Int) → List Int → Bool
  | _, [], _ => true
  | _, _ :: _, [] => false
  | off, s :: ss, o :: os => decide (o = off) && packedFrom (off + volume s) ss os

/-- Modelled from the spec: `IsContinuousTensor()`, the list is "physically packed with no
inter-sample padding". -/
def IsContinuousTensor (tl : TensorList) : Bool :=
  packedFrom 0 tl.shape_ tl.offsets_

/-- Modelled from the spec: `IsDenseTensor()`, "all samples are identically shaped and
packed without padding". -/
def IsDenseTensor (tl : TensorList) : Bool :=
  tl.shape_.all (fun s => decide (s = tl.tensor_shape 0)) && tl.IsContinuousTensor

end TensorList

namespace Tensor

/-- The method `ndim()`: `shape_.size()`. -/
def ndim (t : Tensor) : Int :=
  t.shape_.length

/-- The method `dim(idx)`: `shape_[idx]` (the two checks of the debug build never fire where
`tensor.h` calls it: `SubspaceTensor` asks for `dim(0)` after `ndim() > 1`). -/
def dim (t : Tensor) (idx : Int) : Int :=
  t.shape_.getD idx.toNat 0

/-- The method `shape()`. -/
def shape (t : Tensor) : List Int :=
  t.shape_

/-- Modelled from the spec: `Buffer::device_id()`. -/
def device_id (t : Tensor) : Option Int :=
  t.device_

/-- Modelled from the spec: `Buffer::type()`. -/
def type (t : Tensor) : TypeInfo :=
  t.type_

/-- Modelled from the spec: `Buffer::raw_mutable_data()`, the start of the data. -/
def raw_mutable_data (t : Tensor) : Int :=
  t.data_

/-- The method `SubspaceTensor(Index x)` (tensor.h:63-79). -/
def SubspaceTensor (t : Tensor) (x : Int) : Except String Tensor :=
  if ¬ (t.ndim > 1) then
    .error "To obtain subspace tensor, source tensor should have at least 2 dimensions"
  else if ¬ (0 ≤ x ∧ x < t.dim 0) then
    .error "'x' should be valid index to first dimension: [0, dim(0))"
  else
    let view : Tensor := Tensor.init
    let view := { view with shape_ := TensorShape.last t.shape_ (t.ndim - 1) }
    let view := { view with type_ := t.type_ }
    let view := { view with size_ := Int.tdiv t.size_ (t.shape_.getD 0 0) }
    let view := { view with num_bytes_ := view.type_.size * view.size_ }
    let view := { view with data_ := t.raw_mutable_data + x * view.num_bytes_ }
    let view := { view with shares_data_ := true }
    let view := { view with device_ := t.device_ }
    .ok view

/-- Modelled from the spec: `Buffer::ResizeHelper(new_size)` (`buffer.h` is not among the
sources), section 4.1: a shared view whose requested byte footprint differs from the
established one fails; otherwise a footprint above the capacity reallocates (the new
allocation, at address `fresh`, has exactly the new footprint and is owned, not shared), and
any other footprint reuses the allocation and updates the element count only. -/
def ResizeHelper (t : Tensor) (new_size : Int) (fresh : Int) : Except String Tensor :=
  let new_num_bytes : Int := new_size * t.type_.size
  if t.shares_data_ = true ∧ ¬ (new_num_bytes = t.num_bytes_) then
    .error "Buffer that shares data cannot have size different than total underlying allocation"
  else if new_num_bytes > t.num_bytes_ then
    .ok { t with size_ := new_size, data_ := fresh, num_bytes_ := new_num_bytes,
                 shares_data_ := false }
  else
    .ok { t with size_ := new_size }

/-- The method `Resize(shape)` (tensor.h:133-137); `fresh` is the address a reallocation
would return. -/
def Resize (t : Tensor) (shape : List Int) (fresh : Int) : Except String Tensor :=
  let new_size := volume shape
  match t.ResizeHelper new_size fresh with
  | .error msg => .error msg
  | .ok t1 => .ok { t1 with shape_ := shape }

/-- The method `ShareData(TensorList<Backend> *tl, int idx)` (tensor.h:181-201). -/
def ShareData_tl_idx (t : Tensor) (tl : Option TensorList) (idx : Int) : Except String Tensor :=
  match tl with
  | none => .error "Input TensorList is nullptr"
  | some tl =>
    if ¬ (IsValidType tl.type = true) then
      .error "To share data, the input TensorList must have a valid data type."
    else if ¬ (idx ≥ 0) then
      .error "Negative tensor index not supported."
    else if ¬ (idx.toNat < tl.ntensor) then
      .error "Index out of range for TensorList"
    else
      let t := { t with data_ := tl.raw_mutable_tensor idx }
      let t := { t with shape_ := tl.tensor_shape idx }
      let t := { t with size_ := volume t.shape_ }
      let t := { t with type_ := tl.type }
      let t := { t with num_bytes_ := t.type_.size * t.size_ }
      let t := { t with shares_data_ := true }
      let t := { t with device_ := tl.device_id }
      .ok t

/-- The method `ShareData(Tensor<Backend> *t)` (tensor.h:217-234). -/
def ShareData_t (dst : Tensor) (t : Option Tensor) : Except String Tensor :=
  match t with
  | none => .error "Input Tensor is nullptr"
  | some t =>
    if ¬ (IsValidType t.type = true) then
      .error "To share data, the input Tensor must have a valid data type."
    else
      let dst := { dst with data_ := t.data_ }
      let dst := { dst with shape_ := t.shape_ }
      let dst := { dst with size_ := t.size_ }
      let dst := { dst with type_ := t.type_ }
      let dst := { dst with num_bytes_ := t.num_bytes_ }
      let dst := { dst with shares_data_ := if dst.num_bytes_ > 0 then true else false }
      let dst := { dst with device_ := t.device_id }
      .ok dst

/-- The method `ShareData(const shared_ptr<void> &ptr, size_t bytes, const TensorShape<>
&shape)` (tensor.h:253-268). -/
def ShareData_ptr_shape (t : Tensor) (ptr : Int) (bytes : Nat) (shape : List Int) :
    Except String Tensor :=
  if ¬ (ptr ≠ 0) then
    .error "Input pointer must not be nullptr."
  else
    let t := { t with data_ := ptr }
    let t := { t with num_bytes_ := bytes }
    let t := { t with type_ := TypeInfo.NoType }
    let new_size := volume shape
    let t := { t with shape_ := shape }
    let t := { t with size_ := new_size }
    let t := { t with shares_data_ := if t.num_bytes_ > 0 then true else false }
    .ok t

/-- The method `ShareData(void *ptr, size_t bytes, const TensorShape<> &shape)`
(tensor.h:287-289): the pointer is wrapped in a `shared_ptr` with a no-op deleter. -/
def ShareData_rawptr_shape (t : Tensor) (ptr : Int) (bytes : Nat) (shape : List Int) :
    Except String Tensor :=
  t.ShareData_ptr_shape ptr bytes shape

/-- The method `ShareData(void *ptr, size_t bytes)` (tensor.h:308-310). -/
def ShareData_rawptr (t : Tensor) (ptr : Int) (bytes : Nat) : Except String Tensor :=
  t.ShareData_rawptr_shape ptr bytes []

/-- The method `ShareDataReshape(TensorList<Backend> *tl, const TensorShape<> &new_shape)`
(tensor.h:320-339). -/
def ShareDataReshape (t : Tensor) (tl : Option TensorList) (new_shape : List Int) :
    Except String Tensor :=
  match tl with
  | none => .error "Input TensorList is nullptr"
  | some tl =>
    if ¬ (tl.ntensor > 0) then
      .error "Input TensorList has 0 elements!"
    else if ¬ (IsValidType tl.type = true) then
      .error "To share data, the input TensorList must have a valid data type."
    else if ¬ (tl.IsContinuousTensor = true) then
      .error "All tensors in the input TensorList must be continuous in memory."
    else
      let product := tl.num_elements
      if ¬ (product = volume new_shape) then
        .error "Requested shape need to have the same volume as the tensor list."
      else
        let t := { t with data_ := tl.raw_mutable_tensor 0 }
        let t := { t with shape_ := new_shape }
        let t := { t with size_ := volume t.shape_ }
        let t := { t with type_ := tl.type }
        let t := { t with num_bytes_ := t.type_.size * t.size_ }
        let t := { t with device_ := tl.device_id }
        let t := { t with shares_data_ := true }
        .ok t

/-- The method `ShareData(TensorList<Backend> *tl)` (tensor.h:349-365). -/
def ShareData_tl (t : Tensor) (tl : Option TensorList) : Except String Tensor :=
  match tl with
  | none => .error "Input TensorList is nullptr"
  | some tl =>
    if ¬ (tl.ntensor > 0) then
      .error "Input TensorList has 0 elements!"
    else if ¬ (IsValidType tl.type = true) then
      .error "To share data, the input TensorList must have a valid data type."
    else if ¬ (tl.IsDenseTensor = true) then
      .error "All tensors in the input TensorList must have the same shape and be densely packed."
    else
      let t := { t with data_ := tl.raw_mutable_tensor 0 }
      let t := { t with shape_ := shape_cat tl.ntensor (tl.tensor_shape 0) }
      let t := { t with size_ := volume t.shape_ }
      let t := { t with type_ := tl.type }
      let t := { t with num_bytes_ := t.type_.size * t.size_ }
      let t := { t with device_ := tl.device_id }
      let t := { t with shares_data_ := true }
      .ok t

/-- Modelled from the spec: `Buffer::reset()` (`buffer.h` is not among the sources): "drops
the allocation reference, clears element_count, type becomes no type"; the buffer is the
empty buffer again (not shared, zero bytes). -/
def reset (t : Tensor) : Tensor :=
  { t with type_ := TypeInfo.NoType, data_ := 0, size_ := 0, shares_data_ := false,
           num_bytes_ := 0 }

/-- The method `Reset()` (tensor.h:367-371). -/
def Reset (t : Tensor) (cleared_layout : DALITensorLayout) : Tensor :=
  let t := t.reset
  let t := { t with shape_ := [] }
  let t := { t with meta_ := DALIMeta.cleared cleared_layout }
  t

/-- The method `Squeeze()` (tensor.h:402-409). -/
def Squeeze (t : Tensor) : Tensor :=
  let shape := t.shape_
  let shape := shape.filter (fun e => e ≠ 1)
  let shape := if shape.isEmpty then shape ++ [1] else shape
  { t with shape_ := shape }

/-- The methods `GetLayout()`, `GetSourceInfo()`, `ShouldSkipSample()` (tensor.h:482-504). -/
def GetLayout (t : Tensor) : DALITensorLayout :=
  t.meta_.layout_

def GetSourceInfo (t : Tensor) : String :=
  t.meta_.source_info_

def ShouldSkipSample (t : Tensor) : Bool :=
  t.meta_.skip_sample_

/-- The methods `SetLayout`, `SetSourceInfo`, `SetSkipSample` (tensor.h:486-500). -/
def SetLayout (t : Tensor) (layout : DALITensorLayout) : Tensor :=
  { t with meta_ := { t.meta_ with layout_ := layout } }

def SetSourceInfo (t : Tensor) (source_info : String) : Tensor :=
  { t with meta_ := { t.meta_ with source_info_ := source_info } }

def SetSkipSample (t : Tensor) (skip_sample : Bool) : Tensor :=
  { t with meta_ := { t.meta_ with skip_sample_ := skip_sample } }

/-- The move constructor `Tensor(Tensor &&t)` (tensor.h:428-448): the new tensor and the
state of `t` afterwards. -/
def move_construct (t : Tensor) (cleared_layout : DALITensorLayout) : Tensor × Tensor :=
  let self : Tensor :=
    { shape_ := t.shape_, type_ := t.type_, data_ := t.data_, size_ := t.size_,
      shares_data_ := t.shares_data_, num_bytes_ := t.num_bytes_, device_ := t.device_,
      meta_ := t.meta_ }
  let t := { t with shape_ := [] }
  let t := { t with type_ := TypeInfo.NoType }
  let t := { t with data_ := 0 }
  let t := { t with size_ := 0 }
  let t := { t with shares_data_ := false }
  let t := { t with num_bytes_ := 0 }
  let t := { t with meta_ := DALIMeta.cleared cleared_layout }
  (self, t)

/-- The move assignment `operator=(Tensor &&t)` (tensor.h:450-472): the state of `*this`
and of `t` afterwards; `same_object` says that `&t == this`. -/
def move_assign (self t : Tensor) (same_object : Bool) (cleared_layout : DALITensorLayout) :
    Tensor × Tensor :=
  if same_object = false then
    let self := { self with shape_ := t.shape_ }
    let self := { self with type_ := t.type_ }
    let self := { self with data_ := t.data_ }
    let self := { self with size_ := t.size_ }
    let self := { self with shares_data_ := t.shares_data_ }
    let self := { self with num_bytes_ := t.num_bytes_ }
    let self := { self with device_ := t.device_ }
    let self := { self with meta_ := t.meta_ }
    let t := { t with shape_ := [] }
    let t := { t with type_ := TypeInfo.NoType }
    let t := { t with data_ := 0 }
    let t := { t with size_ := 0 }
    let t := { t with shares_data_ := false }
    let t := { t with num_bytes_ := 0 }
    let t := { t with meta_ := DALIMeta.cleared cleared_layout }
    (self, t)
  else
    (self, self)

end Tensor

/-- The outcome of a member function that may throw after it has assigned members: the state
of `*this` when the call ends, and the message of the exception if it threw. -/
structure Outcome where
  state : Tensor
  error : Option String

/-- The bytes of the memory, by address (one address space for both backends). -/
abbrev Memory := Int → Nat

/-- Modelled from the spec: `TypeInfo::Copy<DstBackend, SrcBackend>(dst, src, n, stream)`
(`types.h` is not among the sources), "copy N elements from a source backend/address to a
destination backend/address": the memory once the transfer is complete. -/
def TypeInfo.Copy (ty : TypeInfo) (mem : Memory) (dst src : Int) (n : Int) : Memory :=
  fun a => if dst ≤ a ∧ a < dst + n * ty.size then mem (src + (a - dst)) else mem a

namespace TensorList

/-- Modelled from the spec: `raw_tensor(idx)`, the address of sample `idx`. -/
def raw_tensor (tl : TensorList) (idx : Int) : Int :=
  tl.raw_mutable_tensor idx

/-- Modelled from the spec: `GetLayout()`, `GetSourceInfo(idx)`, `ShouldSkipSample(idx)`: the
layout of the list and the metadata of sample `idx`. -/
def GetLayout (tl : TensorList) : DALITensorLayout :=
  tl.layout_

def GetSourceInfo (tl : TensorList) (idx : Int) : String :=
  (tl.meta_.getD idx.toNat DALIMeta.init).source_info_

def ShouldSkipSample (tl : TensorList) (idx : Int) : Bool :=
  (tl.meta_.getD idx.toNat DALIMeta.init).skip_sample_

end TensorList

namespace Tensor

/-- Modelled from the spec: `Buffer::raw_data()`, the start of the data. -/
def raw_data (t : Tensor) : Int :=
  t.data_

/-- Modelled from the spec: `Buffer::size()`, the element count. -/
def size (t : Tensor) : Int :=
  t.size_

/-- Modelled from the spec: `Buffer::set_type(new_type)` (`buffer.h` is not among the
sources), section 4.1 with the element count kept: a shared view whose byte footprint under
the new type differs from the established one fails; otherwise a footprint above the
capacity reallocates at `fresh`, and any other footprint updates the type only. -/
def set_type (t : Tensor) (new_type : TypeInfo) (fresh : Int) : Except String Tensor :=
  let new_num_bytes : Int := t.size_ * new_type.size
  if t.shares_data_ = true ∧ ¬ (new_num_bytes = t.num_bytes_) then
    .error "Buffer that shares data cannot have size different than total underlying allocation"
  else if new_num_bytes > t.num_bytes_ then
    .ok { t with type_ := new_type, data_ := fresh, num_bytes_ := new_num_bytes,
                 shares_data_ := false }
  else
    .ok { t with type_ := new_type }

/-- The method `ResizeLike(other)` (tensor.h:122-125). -/
def ResizeLike (t other : Tensor) (fresh : Int) : Except String Tensor :=
  t.Resize other.shape fresh

/-- The method `Copy(const Tensor<InBackend> &other, cudaStream_t stream)`
(tensor.h:95-104): the outcome for `*this` and the memory afterwards.  `fresh1` and `fresh2`
are the addresses that a reallocation in `set_type` and in `ResizeLike` would return. -/
def Copy (t other : Tensor) (mem : Memory) (fresh1 fresh2 : Int) : Outcome × Memory :=
  match t.set_type other.type fresh1 with
  | .error msg => ({ state := t, error := some msg }, mem)
  | .ok t =>
    let t := t.SetLayout other.GetLayout
    let t := t.SetSourceInfo other.GetSourceInfo
    let t := t.SetSkipSample other.ShouldSkipSample
    match t.ResizeLike other fresh2 with
    | .error msg => ({ state := t, error := some msg }, mem)
    | .ok t =>
      ({ state := t, error := none },
        t.type_.Copy mem t.raw_mutable_data other.raw_data t.size)

/-- The method `Copy(const TensorList<InBackend> &other, int idx, cudaStream_t stream)`
(tensor.h:109-120). -/
def Copy_tl_idx (t : Tensor) (other : TensorList) (idx : Int) (mem : Memory)
    (fresh1 fresh2 : Int) : Outcome × Memory :=
  let t := { t with shape_ := other.tensor_shape idx }
  let t := { t with device_ := other.device_id }
  match t.set_type other.type fresh1 with
  | .error msg => ({ state := t, error := some msg }, mem)
  | .ok t =>
    let t := t.SetLayout other.GetLayout
    let t := t.SetSourceInfo (other.GetSourceInfo idx)
    let t := t.SetSkipSample (other.ShouldSkipSample idx)
    match t.Resize t.shape_ fresh2 with
    | .error msg => ({ state := t, error := some msg }, mem)
    | .ok t =>
      ({ state := t, error := none },
        t.type_.Copy mem t.raw_mutable_data (other.raw_tensor idx) t.size)

/-- The method `Copy(const vector<T> &data, cudaStream_t stream)` (tensor.h:84-90): `T` is
the type descriptor of the vector's elements, `data_size` is `data.size()` and `data_ptr`
is `data.data()`.  `mutable_data<T>()` (`buffer.h`) is modelled from the spec as setting the
type to `T`. -/
def Copy_vector (t : Tensor) (T : TypeInfo) (data_ptr : Int) (data_size : Nat) (mem : Memory)
    (fresh1 fresh2 : Int) : Outcome × Memory :=
  match t.set_type T fresh1 with
  | .error msg => ({ state := t, error := some msg }, mem)
  | .ok t =>
    match t.Resize [(data_size : Int)] fresh2 with
    | .error msg => ({ state := t, error := some msg }, mem)
    | .ok t =>
      ({ state := t, error := none },
        t.type_.Copy mem t.raw_mutable_data data_ptr t.size)

end Tensor

/-! ### Sample states used by the concrete checks -/

namespace Sample

/-- A tensor that owns 24 bytes at address 4096: 2 x 3 elements of a 4-byte type, layout NCHW,
source info `a.jpg`, skip flag set. -/
def owner23 : Tensor :=
  { shape_ := [2, 3], meta_ := { layout_ := .DALI_NCHW, source_info_ := "a.jpg",
                                 skip_sample_ := true },
    type_ := .typed 1 4, data_ := 4096, size_ := 6, shares_data_ := false, num_bytes_ := 24,
    device_ := some 0 }

/-- The same 2 x 3 tensor as a shared view of its 24 bytes. -/
def view23 : Tensor :=
  { owner23 with shares_data_ := true }

/-- A tensor with metadata of its own: layout NFHWC, source info `b.png`. -/
def tagged : Tensor :=
  { Tensor.init with meta_ := { layout_ := .DALI_NFHWC, source_info_ := "b.png",
                                skip_sample_ := false } }

/-- A list of one sample of shape `(5)` of the same 4-byte type, at address 8192. -/
def list5 : TensorList :=
  { shape_ := [[5]], offsets_ := [0], type_ := .typed 1 4, data_ := 8192, device_ := some 0 }

/-- A memory that holds the byte `a % 256` at every address `a`. -/
def ramp : Memory :=
  fun a => (a % 256).toNat

end Sample

set_option linter.dupNamespace false

/-! ## Operators: `BoxEncoder` (construction) and `DiceRoll`

Embedded from `box_encoder.h`, `dice_roll.h` and `dice_roll.cc`.  `OpSpec`, `Operator`, the
workspace and `BoundingBox` are not among the sources and are modelled as far as the two
operators use them. -/

/-- Modelled from the spec: a `float` value: not a number, an infinity, or a finite value
(`-0` and `0` are one value, as they are for `==`).  The operators compare floats; the
volume of a `Box<ndims, float>` subtracts and multiplies them, with the rounding of IEEE 754
binary32 (`round` below). -/
inductive F32 where
  | nan : F32
  | ninf : F32
  | pinf : F32
  | fin (q : Rat) : F32
  deriving DecidableEq

namespace F32

/-- The comparison `a <= b` of two floats: false when either is not a number. -/
def le : F32 → F32 → Bool
  | nan, _ => false
  | _, nan => false
  | ninf, _ => true
  | _, pinf => true
  | pinf, _ => false
  | _, ninf => false
  | fin a, fin b => decide (a ≤ b)

/-- The comparison `a >= b`. -/
def ge (a b : F32) : Bool :=
  le b a

/-- The comparison `a == b` of two floats: false when either is not a number. -/
def eq : F32 → F32 → Bool
  | nan, _ => false
  | _, nan => false
  | ninf, ninf => true
  | pinf, pinf => true
  | fin a, fin b => decide (a = b)
  | _, _ => false

/-- The literals `0.f` and `1.f`. -/
def zero : F32 := fin 0

def one : F32 := fin 1

/-- The rational number `2 ^ e`. -/
def pow2 (e : Int) : Rat :=
  if 0 ≤ e then ((2 ^ e.toNat : Nat) : Rat) else 1 / ((2 ^ (-e).toNat : Nat) : Rat)

/-- The binary exponent under which a positive rational `a` is rounded to binary32: the
largest `e` with `2 ^ e <= a`, kept between -126 (the exponent of the subnormal numbers)
and 127 (the largest exponent): -126 plus the number of the powers `2 ^ -125, ..., 2 ^ 127`
that are at most `a`. -/
def exponent (a : Rat) : Int :=
  -126 + ((List.range 253).filter (fun k => decide (pow2 (-125 + (k : Int)) ≤ a))).length

/-- The natural number nearest to a rational `x >= 0`, the even one of two that are equally
near. -/
def round_even (x : Rat) : Nat :=
  let f := (Rat.floor x).toNat
  let r := x - f
  if r < 1 / 2 then f else if 1 / 2 < r then f + 1 else if f % 2 = 0 then f else f + 1

/-- The binary32 value of a real result `q` (round to nearest, ties to even): the magnitude
is rounded to a multiple of `2 ^ (e - 23)`, `e` its exponent, so that 24 significant bits
are kept (fewer for a subnormal result, and a magnitude of at most `2 ^ -150` becomes 0:
underflow); a rounded magnitude of `2 ^ 128` or more is an infinity (overflow). -/
def round (q : Rat) : F32 :=
  let a := if q < 0 then -q else q
  if a = 0 then fin 0 else
    let e := exponent a
    let quantum := pow2 (e - 23)
    let m := (round_even (a / quantum) : Rat) * quantum
    if pow2 128 ≤ m then (if q < 0 then ninf else pinf)
    else fin (if q < 0 then -m else m)

/-- The product `a * b` of two floats. -/
def mul : F32 → F32 → F32
  | nan, _ => nan
  | _, nan => nan
  | fin a, fin b => round (a * b)
  | fin a, pinf => if a = 0 then nan else if a < 0 then ninf else pinf
  | fin a, ninf => if a = 0 then nan else if a < 0 then pinf else ninf
  | pinf, fin b => if b = 0 then nan else if b < 0 then ninf else pinf
  | ninf, fin b => if b = 0 then nan else if b < 0 then pinf else ninf
  | pinf, pinf => pinf
  | ninf, ninf => pinf
  | pinf, ninf => ninf
  | ninf, pinf => ninf

/-- The difference `a - b` of two floats. -/
def sub : F32 → F32 → F32
  | nan, _ => nan
  | _, nan => nan
  | fin a, fin b => round (a - b)
  | fin _, pinf => ninf
  | fin _, ninf => pinf
  | pinf, fin _ => pinf
  | ninf, fin _ => ninf
  | pinf, pinf => nan
  | ninf, ninf => nan
  | pinf, ninf => pinf
  | ninf, pinf => ninf

end F32

/-- The operators `<=`, `*`, `-` and the value `0` of `float`, for `Box<ndims, float>`. -/
instance : LE F32 := ⟨fun a b => F32.le a b = true⟩

instance : DecidableRel (fun a b : F32 => a ≤ b) :=
  fun a b => inferInstanceAs (Decidable (F32.le a b = true))

instance : Mul F32 := ⟨F32.mul⟩

instance : Sub F32 := ⟨F32.sub⟩

instance : Zero F32 := ⟨F32.zero⟩

/-- Modelled from the spec: `BoundingBox` (`bounding_box.h` is not among the sources), "four
floats", with `kSize == 4`. -/
structure BoundingBox where
  c0 : F32
  c1 : F32
  c2 : F32
  c3 : F32
  deriving DecidableEq

def BoundingBox.kSize : Nat := 4

/-- Modelled from the spec: the `OpSpec` of a `BoxEncoder`, an "already-validated argument
bag": every argument the constructor reads is present and has its type. -/
structure BoxEncoderSpec where
  criteria : F32
  offset : Bool
  scale : F32
  anchors : List F32
  means : List F32
  stds : List F32

/-- The data members of `BoxEncoder<CPUBackend>` (box_encoder.h:74-80). -/
structure BoxEncoder where
  criteria_ : F32
  anchors_ : List BoundingBox
  offset_ : Bool
  means_ : List F32
  stds_ : List F32
  scale_ : F32

namespace BoxEncoder

/-- Modelled from the spec: `ReadBoxesFromInput(in_boxes, num_boxes)` (declared in
box_encoder.h:86, defined in a file that is not among the sources): the first `num_boxes`
"flattened 4-tuples" as boxes. -/
def ReadBoxesFromInput : List F32 → Nat → List BoundingBox
  | a :: b :: c :: d :: rest, n + 1 =>
    { c0 := a, c1 := b, c2 := c, c3 := d } :: ReadBoxesFromInput rest n
  | _, _ => []

/-- The constructor `BoxEncoder(const OpSpec &spec)` (box_encoder.h:35-63). -/
def BoxEncoder (spec : BoxEncoderSpec) : Except String BoxEncoder :=
  let criteria_ := spec.criteria
  let offset_ := spec.offset
  let scale_ := spec.scale
  if ¬ (F32.ge criteria_ F32.zero = true) then
    .error "Expected criteria >= 0"
  else if ¬ (F32.le criteria_ F32.one = true) then
    .error "Expected criteria <= 1"
  else
    let anchors := spec.anchors
    if ¬ (anchors.length % BoundingBox.kSize = 0) then
      .error "Anchors size must be divisible by 4"
    else
      let anchors_ := ReadBoxesFromInput anchors (anchors.length / BoundingBox.kSize)
      let means_ := spec.means
      if ¬ (means_.length = 4) then
        .error "means size must be a list of 4 values."
      else
        let stds_ := spec.stds
        if ¬ (stds_.length = 4) then
          .error "stds size must be a list of 4 values."
        else if ¬ (stds_.find? (fun v => F32.eq v F32.zero) = none) then
          .error "stds values must be != 0."
        else
          .ok { criteria_ := criteria_, anchors_ := anchors_, offset_ := offset_,
                means_ := means_, stds_ := stds_, scale_ := scale_ }

end BoxEncoder

/-- Modelled from the spec: the `OpSpec` of a `DiceRoll` with the batch size that
`Operator` reads from it. -/
structure DiceRollSpec where
  seed : Int
  face_values : List F32
  face_probs : List F32
  batch_wise : Bool
  batch_size : Int

/-- Modelled from the spec: the state of the `std::mt19937` engine `rng_`: the seed it was
constructed with and the number of times the distribution has sampled it so far. -/
structure Engine where
  seed : Int
  calls : Nat
  deriving DecidableEq

/-- The data members of `DiceRoll` (dice_roll.h:56-59) and `batch_size_` of `Operator`.
The distribution `dis_` is the list of weights it was constructed from. -/
structure DiceRoll where
  dis_ : List F32
  rng_ : Engine
  values_ : List F32
  batch_wise_ : Bool
  batch_size_ : Int

namespace DiceRoll

/-- The constructor `DiceRoll(const OpSpec &spec)` (dice_roll.h:28-39). -/
def DiceRoll (spec : DiceRollSpec) : DiceRoll :=
  let rng_ : Engine := { seed := spec.seed, calls := 0 }
  let values_ := spec.face_values
  let batch_wise_ := spec.batch_wise
  let num_faces := values_.length
  let probs := spec.face_probs
  let probs :=
    if probs.length = 0 then List.replicate num_faces (F32.fin (1 / (num_faces : Rat)))
    else probs
  { dis_ := probs, rng_ := rng_, values_ := values_, batch_wise_ := batch_wise_,
    batch_size_ := spec.batch_size }

/-- The call `dis_(rng_)`: the face drawn and the engine afterwards.  The C++ library is not
among the sources: `draw w seed k` is the value that a `std::discrete_distribution<int>`
with weights `w` returns on sample number `k` of an engine seeded with `seed`. -/
def sample (draw : List F32 → Int → Nat → Int) (dis_ : List F32) (rng_ : Engine) :
    Int × Engine :=
  (draw dis_ rng_.seed rng_.calls, { rng_ with calls := rng_.calls + 1 })

/-- The read `values_[face]` of a `std::vector<float>`: the element when `face` is an index
into the vector.  For any other `face` the read has undefined behaviour and there is no
value (`none`). -/
def read (values_ : List F32) (face : Int) : Option F32 :=
  if face < 0 then none else values_.get? face.toNat

/-- The loop of `RunImpl` (dice_roll.cc:27-31) from index `i` on, with `n` iterations left:
the values written to `out_data[i], out_data[i + 1], ...` and the engine afterwards.  The
loop has no result (`none`) when an iteration reads `values_[face]` outside the vector: the
behaviour of the program is undefined from there on. -/
def RunImpl_loop (draw : List F32 → Int → Nat → Int) (op : dali.DiceRoll) :
    Nat → Int → Int → Engine → Option (List F32 × Engine)
  | 0, _, _, rng_ => some ([], rng_)
  | n + 1, i, face, rng_ =>
    let drawn := if (!op.batch_wise_ || i == 0) then sample draw op.dis_ rng_ else (face, rng_)
    let face := drawn.1
    match read op.values_ face with
    | none => none
    | some value =>
      match RunImpl_loop draw op n (i + 1) face drawn.2 with
      | none => none
      | some rest => some (value :: rest.1, rest.2)

/-- Modelled from the spec: `TypeInfo::Create<float>()`, a valid descriptor of 4-byte
elements. -/
def float_type : TypeInfo := TypeInfo.typed 0 4

end DiceRoll

/-- How a call ends: it returns, it throws (a `DALI_ENFORCE` that failed), or it runs into
undefined behaviour and has no defined result. -/
inductive Ending (α : Type) where
  | returns (a : α) : Ending α
  | throws (msg : String) : Ending α
  | undefined : Ending α

namespace DiceRoll

/-- The method `RunImpl(SupportWorkspace *ws)` (dice_roll.cc:21-32) on the output tensor
`output` of the workspace: the output tensor, the values written to `out_data[0 ..
batch_size_)` and the operator afterwards.  `mutable_data<float>()` (`buffer.h`) is
modelled from the spec as setting the type to `float`. -/
def RunImpl (op : dali.DiceRoll) (draw : List F32 → Int → Nat → Int) (output : Tensor)
    (fresh1 fresh2 : Int) : Ending (Tensor × List F32 × dali.DiceRoll) :=
  match output.Resize [op.batch_size_] fresh1 with
  | .error msg => .throws msg
  | .ok output =>
    match output.set_type float_type fresh2 with
    | .error msg => .throws msg
    | .ok output =>
      let face : Int := 0
      match RunImpl_loop draw op op.batch_size_.toNat 0 face op.rng_ with
      | none => .undefined
      | some r => .returns (output, r.1, { op with rng_ := r.2 })

end DiceRoll

/-! ## `Box` (`dali/core/geom/box.h`) -/

/-- The struct `Box<ndims, CoordinateType>` (box.h:23-94); a corner `vec<ndims,
CoordinateType>` (`vec.h` is not among the sources) is the function from the coordinate
index to the coordinate. -/
structure Box (ndims : Nat) (α : Type) where
  lo : Fin ndims → α
  hi : Fin ndims → α

/-- Modelled from the spec: `any_coord(v)` for a vector of booleans: true when some
coordinate is true. -/
def any_coord {ndims : Nat} (v : Fin ndims → Bool) : Bool :=
  (List.finRange ndims).any v

namespace Box

variable {ndims : Nat} {α : Type}

/-- The constructor `Box() = default`, value-initialised: all coordinates are zero. -/
def Box [Zero α] : Box ndims α :=
  { lo := fun _ => 0, hi := fun _ => 0 }

/-- The method `extent()` (box.h:46-48). -/
def extent [Sub α] (b : dali.Box ndims α) : Fin ndims → α :=
  fun i => b.hi i - b.lo i

/-- The method `contains(const corner_t &point)` (box.h:54-60). -/
def contains_point [LinearOrder α] (b : dali.Box ndims α) (point : Fin ndims → α) : Bool :=
  (List.finRange ndims).all (fun i => decide (point i ≥ b.lo i ∧ point i < b.hi i))

/-- The method `contains(const Box &other)` (box.h:66-72). -/
def contains [LinearOrder α] (b other : dali.Box ndims α) : Bool :=
  (List.finRange ndims).all (fun i => decide (other.lo i ≥ b.lo i ∧ other.hi i ≤ b.hi i))

/-- The method `overlaps(const Box &other)` (box.h:78-84). -/
def overlaps [LinearOrder α] (b other : dali.Box ndims α) : Bool :=
  (List.finRange ndims).all (fun i => decide (b.lo i < other.hi i ∧ b.hi i > other.lo i))

/-- The method `empty()` (box.h:90-92). -/
def empty [LE α] [DecidableRel (fun a b : α => a ≤ b)] (b : dali.Box ndims α) : Bool :=
  any_coord (fun i => decide (b.hi i ≤ b.lo i))

end Box

/-- The function `intersection(lhs, rhs)` (box.h:109-114). -/
def intersection {ndims : Nat} {α : Type} [LinearOrder α] [Zero α] (lhs rhs : Box ndims α) :
    Box ndims α :=
  let tmp : Box ndims α :=
    { lo := fun i => max (lhs.lo i) (rhs.lo i), hi := fun i => min (lhs.hi i) (rhs.hi i) }
  if any_coord (fun i => decide (tmp.hi i ≤ tmp.lo i)) = true then Box.Box else tmp

/-- Modelled from the spec: `dali::volume(v)` of a vector (`vec.h` and `util.h` are not
among the sources), "the product of its extents"; as for a shape, no coordinate at all gives
0. -/
def vec_volume {ndims : Nat} {α : Type} [Mul α] [Zero α] (v : Fin ndims → α) : α :=
  match List.ofFn v with
  | [] => 0
  | d :: ds => ds.foldl (fun p e => p * e) d

/-- The function `volume(const Box &box)` (box.h:100-102). -/
def Box.volume {ndims : Nat} {α : Type} [Mul α] [Zero α] [Sub α] (box : dali.Box ndims α) : α :=
  vec_volume box.extent

/-! ## Member functions, statement by statement

To tell what a call that throws leaves behind, the body of a member function is also given
as the list of its statements in source order, and run on the objects it can assign to. -/

/-- One statement of the body of a member function over the objects `σ` that the body can
assign to: a `DALI_ENFORCE(cond, msg)`, an assignment, or a call of a function that may
throw. -/
inductive Stmt (σ : Type) where
  | enforce (cond : σ → Bool) (msg : String) : Stmt σ
  | assign (f : σ → σ) : Stmt σ
  | call (f : σ → Except String σ) : Stmt σ

namespace Stmt

variable {σ : Type}

/-- Runs the statements in order: the objects when the call ends and the message of the
exception, if one was thrown.  A failed `DALI_ENFORCE` ends the call with the objects as the
statements before it left them; so does a callee that throws (the callees are the modelled
`Buffer` helpers, which throw before they change anything). -/
def run : List (Stmt σ) → σ → σ × Option String
  | [], s => (s, none)
  | enforce cond msg :: rest, s => if cond s = true then run rest s else (s, some msg)
  | assign f :: rest, s => run rest (f s)
  | call f :: rest, s =>
    match f s with
    | .error msg => (s, some msg)
    | .ok s1 => run rest s1

/-- Whether the statement is an assignment. -/
def is_assign : Stmt σ → Bool
  | assign _ => true
  | _ => false

/-- Whether every statement that can throw comes before every statement that changes an
object: checks first, then at most one call, then assignments only. -/
def checks_first : List (Stmt σ) → Bool
  | [] => true
  | enforce _ _ :: rest => checks_first rest
  | assign _ :: rest => rest.all is_assign
  | call _ :: rest => rest.all is_assign

/-- Whether the statement, on a pair of objects, leaves the first object alone. -/
def keeps_first {α β : Type} : Stmt (α × β) → Prop
  | enforce _ _ => True
  | assign f => ∀ s, (f s).1 = s.1
  | call f => ∀ s s1, f s = .ok s1 → s1.1 = s.1

end Stmt

namespace Tensor

/-- The body of `ShareData(TensorList<Backend> *tl, int idx)` (tensor.h:181-201), on `*this`.
The statements after the first check dereference `tl`; for a null `tl` the first check is
the statement that ends the call. -/
def ShareData_tl_idx_body (tl : Option TensorList) (idx : Int) : List (Stmt Tensor) :=
  match tl with
  | none => [.enforce (fun _ => false) "Input TensorList is nullptr"]
  | some tl =>
    [ .enforce (fun _ => true) "Input TensorList is nullptr",
      .enforce (fun _ => IsValidType tl.type)
        "To share data, the input TensorList must have a valid data type.",
      .enforce (fun _ => decide (idx ≥ 0)) "Negative tensor index not supported.",
      .enforce (fun _ => decide (idx.toNat < tl.ntensor)) "Index out of range for TensorList",
      .assign (fun t => { t with data_ := tl.raw_mutable_tensor idx }),
      .assign (fun t => { t with shape_ := tl.tensor_shape idx }),
      .assign (fun t => { t with size_ := volume t.shape_ }),
      .assign (fun t => { t with type_ := tl.type }),
      .assign (fun t => { t with num_bytes_ := t.type_.size * t.size_ }),
      .assign (fun t => { t with shares_data_ := true }),
      .assign (fun t => { t with device_ := tl.device_id }) ]

/-- The body of `ShareData(Tensor<Backend> *t)` (tensor.h:217-234), on `*this`. -/
def ShareData_t_body (t : Option Tensor) : List (Stmt Tensor) :=
  match t with
  | none => [.enforce (fun _ => false) "Input Tensor is nullptr"]
  | some t =>
    [ .enforce (fun _ => true) "Input Tensor is nullptr",
      .enforce (fun _ => IsValidType t.type)
        "To share data, the input Tensor must have a valid data type.",
      .assign (fun dst => { dst with data_ := t.data_ }),
      .assign (fun dst => { dst with shape_ := t.shape_ }),
      .assign (fun dst => { dst with size_ := t.size_ }),
      .assign (fun dst => { dst with type_ := t.type_ }),
      .assign (fun dst => { dst with num_bytes_ := t.num_bytes_ }),
      .assign (fun dst => { dst with shares_data_ := if dst.num_bytes_ > 0 then true else false }),
      .assign (fun dst => { dst with device_ := t.device_id }) ]

/-- The body of `ShareData(const shared_ptr<void> &ptr, size_t bytes, const TensorShape<>
&shape)` (tensor.h:253-268), on `*this`. -/
def ShareData_ptr_shape_body (ptr : Int) (bytes : Nat) (shape : List Int) :
    List (Stmt Tensor) :=
  [ .enforce (fun _ => decide (ptr ≠ 0)) "Input pointer must not be nullptr.",
    .assign (fun t => { t with data_ := ptr }),
    .assign (fun t => { t with num_bytes_ := bytes }),
    .assign (fun t => { t with type_ := TypeInfo.NoType }),
    .assign (fun t => { t with shape_ := shape }),
    .assign (fun t => { t with size_ := volume shape }),
    .assign (fun t => { t with shares_data_ := if t.num_bytes_ > 0 then true else false }) ]

/-- The body of `ShareData(void *ptr, size_t bytes, const TensorShape<> &shape)`
(tensor.h:287-289): the one call of the `shared_ptr` overload. -/
def ShareData_rawptr_shape_body (ptr : Int) (bytes : Nat) (shape : List Int) :
    List (Stmt Tensor) :=
  ShareData_ptr_shape_body ptr bytes shape

/-- The body of `ShareData(void *ptr, size_t bytes)` (tensor.h:308-310): the one call of
`ShareData(ptr, bytes, {})`. -/
def ShareData_rawptr_body (ptr : Int) (bytes : Nat) : List (Stmt Tensor) :=
  ShareData_rawptr_shape_body ptr bytes []

/-- The body of `ShareDataReshape(TensorList<Backend> *tl, const TensorShape<> &new_shape)`
(tensor.h:320-339), on `*this`. -/
def ShareDataReshape_body (tl : Option TensorList) (new_shape : List Int) :
    List (Stmt Tensor) :=
  match tl with
  | none => [.enforce (fun _ => false) "Input TensorList is nullptr"]
  | some tl =>
    [ .enforce (fun _ => true) "Input TensorList is nullptr",
      .enforce (fun _ => decide (tl.ntensor > 0)) "Input TensorList has 0 elements!",
      .enforce (fun _ => IsValidType tl.type)
        "To share data, the input TensorList must have a valid data type.",
      .enforce (fun _ => tl.IsContinuousTensor)
        "All tensors in the input TensorList must be continuous in memory.",
      .enforce (fun _ => decide (tl.num_elements = volume new_shape))
        "Requested shape need to have the same volume as the tensor list.",
      .assign (fun t => { t with data_ := tl.raw_mutable_tensor 0 }),
      .assign (fun t => { t with shape_ := new_shape }),
      .assign (fun t => { t with size_ := volume t.shape_ }),
      .assign (fun t => { t with type_ := tl.type }),
      .assign (fun t => { t with num_bytes_ := t.type_.size * t.size_ }),
      .assign (fun t => { t with device_ := tl.device_id }),
      .assign (fun t => { t with shares_data_ := true }) ]

/-- The body of `ShareData(TensorList<Backend> *tl)` (tensor.h:349-365), on `*this`. -/
def ShareData_tl_body (tl : Option TensorList) : List (Stmt Tensor) :=
  match tl with
  | none => [.enforce (fun _ => false) "Input TensorList is nullptr"]
  | some tl =>
    [ .enforce (fun _ => true) "Input TensorList is nullptr",
      .enforce (fun _ => decide (tl.ntensor > 0)) "Input TensorList has 0 elements!",
      .enforce (fun _ => IsValidType tl.type)
        "To share data, the input TensorList must have a valid data type.",
      .enforce (fun _ => tl.IsDenseTensor)
        "All tensors in the input TensorList must have the same shape and be densely packed.",
      .assign (fun t => { t with data_ := tl.raw_mutable_tensor 0 }),
      .assign (fun t => { t with shape_ := shape_cat tl.ntensor (tl.tensor_shape 0) }),
      .assign (fun t => { t with size_ := volume t.shape_ }),
      .assign (fun t => { t with type_ := tl.type }),
      .assign (fun t => { t with num_bytes_ := t.type_.size * t.size_ }),
      .assign (fun t => { t with device_ := tl.device_id }),
      .assign (fun t => { t with shares_data_ := true }) ]

/-- The body of `SubspaceTensor(Index x)` (tensor.h:63-79) on the pair of `*this` and the
local `view`, which the method returns. -/
def SubspaceTensor_body (x : Int) : List (Stmt (Tensor × Tensor)) :=
  [ .enforce (fun s => decide (s.1.ndim > 1))
      "To obtain subspace tensor, source tensor should have at least 2 dimensions",
    .enforce (fun s => decide (0 ≤ x ∧ x < s.1.dim 0))
      "'x' should be valid index to first dimension: [0, dim(0))",
    .assign (fun s => (s.1, Tensor.init)),
    .assign (fun s => (s.1, { s.2 with shape_ := TensorShape.last s.1.shape_ (s.1.ndim - 1) })),
    .assign (fun s => (s.1, { s.2 with type_ := s.1.type_ })),
    .assign (fun s => (s.1, { s.2 with size_ := Int.tdiv s.1.size_ (s.1.shape_.getD 0 0) })),
    .assign (fun s => (s.1, { s.2 with num_bytes_ := s.2.type_.size * s.2.size_ })),
    .assign (fun s => (s.1, { s.2 with data_ := s.1.raw_mutable_data + x * s.2.num_bytes_ })),
    .assign (fun s => (s.1, { s.2 with shares_data_ := true })),
    .assign (fun s => (s.1, { s.2 with device_ := s.1.device_ })) ]

/-- The body of `Resize(shape)` (tensor.h:133-137), on `*this`: the call of `ResizeHelper`,
then the assignment of the shape. -/
def Resize_body (shape : List Int) (fresh : Int) : List (Stmt Tensor) :=
  [ .call (fun t => t.ResizeHelper (volume shape) fresh),
    .assign (fun t => { t with shape_ := shape }) ]

end Tensor

/-- A sequence of Runs of one operator, one for every output tensor of the list (each with
the two addresses a reallocation would return): the values written by every Run, in order,
and the operator afterwards. -/
def DiceRoll.Runs (draw : List F32 → Int → Nat → Int) :
    dali.DiceRoll → List (Tensor × Int × Int) → Ending (List (List F32) × dali.DiceRoll)
  | op, [] => .returns ([], op)
  | op, (output, fresh1, fresh2) :: rest =>
    match op.RunImpl draw output fresh1 fresh2 with
    | .throws msg => .throws msg
    | .undefined => .undefined
    | .returns (_, vals, op1) =>
      match DiceRoll.Runs draw op1 rest with
      | .throws msg => .throws msg
      | .undefined => .undefined
      | .returns (more, op2) => .returns (vals :: more, op2)

/-! ### The claim about the number of draws, in its own words -/

namespace Claimed

/-- The number of times one Run samples the engine, as claimed: not at all when the batch
size is 0 (or less), once when `batch_wise` is set, `batch_size` times otherwise. -/
def draws_per_Run (op : DiceRoll) : Nat :=
  if op.batch_size_ ≤ 0 then 0 else if op.batch_wise_ = true then 1 else op.batch_size_.toNat

/-- The faces behind the outputs of one Run that starts at draw number `start` of the
engine, as claimed: with `batch_wise` the face of that one draw for every sample, otherwise
the face of draw number `start + i` for sample `i`. -/
def faces_of_Run (draw : List F32 → Int → Nat → Int) (op : DiceRoll) (start : Nat) :
    List Int :=
  if op.batch_wise_ = true then
    List.replicate op.batch_size_.toNat (draw op.dis_ op.rng_.seed start)
  else
    (List.range op.batch_size_.toNat).map (fun i => draw op.dis_ op.rng_.seed (start + i))

end Claimed

namespace Sample

/-- The faces that a `std::discrete_distribution<int>` with two weights draws from
`std::mt19937(7)` when the weights are equal: 0, 0, 1 (then 0, 0, 0, 0, 0); a distribution
with fewer than two weights draws face 0. -/
def draws_of_seed_7 : List F32 → Int → Nat → Int :=
  fun w _ k => if k = 2 ∧ 2 ≤ w.length then 1 else 0

/-- A dice with the faces 1 and 2, no probabilities given and seed 7. -/
def dice (batch_wise : Bool) (batch_size : Int) : DiceRollSpec :=
  { seed := 7, face_values := [F32.fin 1, F32.fin 2], face_probs := [],
    batch_wise := batch_wise, batch_size := batch_size }

/-- A distribution that puts all the probability on the last face (on face 0 for an empty
list of weights, as `std::discrete_distribution` does). -/
def last_face : List F32 → Int → Nat → Int :=
  fun w _ _ => ((w.length - 1 : Nat) : Int)

/-- The box `[lo0, hi0) x [lo1, hi1)` with integer corners. -/
def box2 (lo0 lo1 hi0 hi1 : Int) : Box 2 Int :=
  { lo := ![lo0, lo1], hi := ![hi0, hi1] }

/-- The `Box<2, float>` with the corners `(0, 0)` and `(2 ^ -100, 2 ^ -100)`. -/
def tiny_box : Box 2 F32 :=
  { lo := ![F32.fin 0, F32.fin 0], hi := ![F32.fin (F32.pow2 (-100)), F32.fin (F32.pow2 (-100))] }

/-- The `Box<2, uint32_t>` with the corners `(0, 0)` and `(65536, 65536)`; the arithmetic of
`uint32_t` is that of the integers modulo `2 ^ 32`. -/
def wide_box : Box 2 (Fin 4294967296) :=
  { lo := ![0, 0], hi := ![65536, 65536] }

end Sample

end dali

namespace dali

/-! ## Facts about the modelled helpers -/

theorem foldl_mul_left (r : List Int) (a b : Int) :
    r.foldl (fun v e => v * e) (a * b) = a * r.foldl (fun v e => v * e) b := by
  induction r generalizing b with
  | nil => rfl
  | cons c r ih => simp only [List.foldl_cons]; rw [mul_assoc]; exact ih (b * c)

theorem volume_cons_cons (d e : Int) (r : List Int) :
    volume (d :: e :: r) = d * volume (e :: r) := by
  simp only [volume, List.foldl_cons]
  exact foldl_mul_left r d e

theorem last_tail (d : Int) (ds : List Int) :
    TensorShape.last (d :: ds) (((d :: ds).length : Int) - 1) = ds := by
  simp [TensorShape.last]

/-! ## SubspaceTensor -/

/-- C1: on a Tensor of shape `(d0, d1, ..., dn)` (rank at least 2) that satisfies the Tensor
invariant `size_ == volume(shape_)`, for every `x` with `0 <= x < d0`, `SubspaceTensor(x)`
returns a view of shape `(d1, ..., dn)` and of the source's type whose data starts
`x * volume(d1..dn) * element_size` bytes after the start of the source's data. -/
theorem SubspaceTensor_view (t : Tensor) (d0 d1 : Int) (ds : List Int) (x : Int)
    (hshape : t.shape_ = d0 :: d1 :: ds) (hinv : t.size_ = volume t.shape_)
    (hx0 : 0 ≤ x) (hx1 : x < d0) :
    ∃ view, t.SubspaceTensor x = .ok view ∧ view.shape_ = d1 :: ds ∧ view.type_ = t.type_ ∧
      view.data_ = t.data_ + x * volume (d1 :: ds) * t.type_.size := by
  have hd0 : d0 ≠ 0 := by omega
  have hsz : Int.tdiv t.size_ d0 = volume (d1 :: ds) := by
    rw [hinv, hshape, volume_cons_cons]
    exact Int.mul_tdiv_cancel_left _ hd0
  have hlast : TensorShape.last t.shape_ (t.ndim - 1) = d1 :: ds := by
    rw [Tensor.ndim, hshape]; exact last_tail d0 (d1 :: ds)
  have hnd : t.ndim > 1 := by
    simp only [Tensor.ndim, hshape, List.length_cons]; omega
  have hdim : t.dim 0 = d0 := by simp [Tensor.dim, hshape]
  have hget : t.shape_.getD 0 0 = d0 := by simp [hshape]
  unfold Tensor.SubspaceTensor
  rw [if_neg (not_not.mpr hnd), if_neg (not_not.mpr ⟨hx0, hdim.symm ▸ hx1⟩)]
  refine ⟨_, rfl, ?_, ?_, ?_⟩
  · exact hlast
  · rfl
  · simp only [Tensor.raw_mutable_data, hget, hsz]
    ring

/-- Witness for C1: the second row of a 2 x 3 tensor of 4-byte elements at address 1000. -/
theorem SubspaceTensor_view_witness :
    ∃ view, ({ Tensor.init with shape_ := [2, 3], size_ := 6, type_ := .typed 1 4,
                                num_bytes_ := 24, data_ := 1000 } : Tensor).SubspaceTensor 1
        = .ok view ∧ view.shape_ = [3] ∧ view.type_ = .typed 1 4 ∧
      view.data_ = 1000 + 1 * volume [3] * (TypeInfo.typed 1 4).size :=
  SubspaceTensor_view { Tensor.init with shape_ := [2, 3], size_ := 6, type_ := .typed 1 4,
                                         num_bytes_ := 24, data_ := 1000 }
    2 3 [] 1 rfl rfl (by decide) (by decide)

/-- C2: `SubspaceTensor(x)` fails exactly when the source has rank below 2, or `x < 0`, or
`x >= dim(0)`; in every other case it returns a view. -/
theorem SubspaceTensor_fails_iff (t : Tensor) (x : Int) :
    ((∃ msg, t.SubspaceTensor x = .error msg) ↔ (t.ndim < 2 ∨ x < 0 ∨ x ≥ t.dim 0)) ∧
    ((∃ view, t.SubspaceTensor x = .ok view) ↔ ¬ (t.ndim < 2 ∨ x < 0 ∨ x ≥ t.dim 0)) := by
  unfold Tensor.SubspaceTensor
  by_cases hnd : t.ndim > 1
  · by_cases hx : 0 ≤ x ∧ x < t.dim 0
    · rw [if_neg (not_not.mpr hnd), if_neg (not_not.mpr hx)]
      constructor
      · constructor
        · rintro ⟨msg, h⟩; cases h
        · intro h; omega
      · constructor
        · intro _; omega
        · intro _; exact ⟨_, rfl⟩
    · rw [if_neg (not_not.mpr hnd), if_pos hx]
      constructor
      · constructor
        · intro _; right; by_contra hc; apply hx; omega
        · intro _; exact ⟨_, rfl⟩
      · constructor
        · rintro ⟨v, h⟩; cases h
        · intro h; exfalso; apply hx; omega
  · rw [if_pos hnd]
    constructor
    · constructor
      · intro _; left; omega
      · intro _; exact ⟨_, rfl⟩
    · constructor
      · rintro ⟨v, h⟩; cases h
      · intro h; exfalso; apply h; left; omega

/-! ## The sharing primitives -/

/-- C3: the shared-view flag after a successful share is not always `num_bytes_ > 0`:
`ShareData(tl, 0)` on a typed list whose only sample has shape `(0)`, and
`ShareDataReshape(tl, (0))` on the same list, both succeed with `num_bytes_ == 0` and
`shares_data_ == true`, where `ShareData(Tensor*)` and `ShareData(ptr, bytes, shape)` clear
the flag for zero bytes. -/
theorem ShareData_zero_volume_sample_marked_shared :
    (∃ r, Tensor.init.ShareData_tl_idx
        (some { shape_ := [[0]], offsets_ := [0], type_ := .typed 1 4, data_ := 4096,
                device_ := none }) 0 = .ok r ∧ r.num_bytes_ = 0 ∧ r.shares_data_ = true) ∧
    (∃ r, Tensor.init.ShareDataReshape
        (some { shape_ := [[0]], offsets_ := [0], type_ := .typed 1 4, data_ := 4096,
                device_ := none }) [0] = .ok r ∧ r.num_bytes_ = 0 ∧ r.shares_data_ = true) :=
  ⟨⟨_, rfl, rfl, rfl⟩, ⟨_, rfl, rfl, rfl⟩⟩

/-- The two overloads that test the byte count: after `ShareData(Tensor*)` and after
`ShareData(ptr, bytes, shape)` the shared-view flag is true exactly when `num_bytes_ > 0`. -/
theorem ShareData_flag_of_byte_count (dst s : Tensor) (ptr : Int) (bytes : Nat)
    (shape : List Int) (r : Tensor)
    (h : dst.ShareData_t (some s) = .ok r ∨ dst.ShareData_ptr_shape ptr bytes shape = .ok r) :
    r.shares_data_ = true ↔ r.num_bytes_ > 0 := by
  rcases h with h | h
  · unfold Tensor.ShareData_t at h
    by_cases h1 : IsValidType s.type = true
    · simp only [if_neg (not_not.mpr h1)] at h
      cases h
      by_cases hb : s.num_bytes_ > 0 <;> simp [hb]
    · simp only [if_pos h1] at h
      cases h
  · unfold Tensor.ShareData_ptr_shape at h
    by_cases hp : ptr ≠ 0
    · simp only [if_neg (not_not.mpr hp)] at h
      cases h
      by_cases hb : (bytes : Int) > 0 <;> simp [hb]
    · simp only [if_pos hp] at h
      cases h

/-- C4: `ShareData(tl, idx)` fails exactly when `tl` is null, or `tl` has no valid type, or
`idx < 0`, or `idx >= tl->ntensor()`; in every other case it succeeds and the tensor has the
shape of sample `idx`, the volume of that shape as element count, and the type and device
of `tl`. -/
theorem ShareData_tl_idx_spec (t : Tensor) (tl : Option TensorList) (idx : Int) :
    ((∃ msg, t.ShareData_tl_idx tl idx = .error msg) ↔
      (tl = none ∨ ∃ l, tl = some l ∧
        (IsValidType l.type_ = false ∨ idx < 0 ∨ idx ≥ l.ntensor))) ∧
    ((∃ l r, tl = some l ∧ t.ShareData_tl_idx tl idx = .ok r ∧
        r.shape_ = l.tensor_shape idx ∧ r.size_ = volume (l.tensor_shape idx) ∧
        r.type_ = l.type_ ∧ r.device_ = l.device_) ↔
      ¬ (tl = none ∨ ∃ l, tl = some l ∧
        (IsValidType l.type_ = false ∨ idx < 0 ∨ idx ≥ l.ntensor))) := by
  cases tl with
  | none => simp [Tensor.ShareData_tl_idx]
  | some l =>
    unfold Tensor.ShareData_tl_idx
    by_cases h1 : IsValidType l.type = true
    · by_cases h2 : idx ≥ 0
      · by_cases h3 : idx.toNat < l.ntensor
        · have hlt : idx < l.ntensor := by omega
          have hv : ¬ IsValidType l.type_ = false := by
            simpa [TensorList.type] using h1
          simp only [if_neg (not_not.mpr h1), if_neg (not_not.mpr h2), if_neg (not_not.mpr h3)]
          constructor
          · constructor
            · rintro ⟨msg, h⟩; cases h
            · rintro (h | ⟨l2, hl, h⟩)
              · cases h
              · cases hl; rcases h with h | h | h
                · exact absurd h hv
                · omega
                · omega
          · constructor
            · rintro _ (h | ⟨l2, hl, h⟩)
              · cases h
              · cases hl; rcases h with h | h | h
                · exact absurd h hv
                · omega
                · omega
            · intro _
              exact ⟨l, _, rfl, rfl, rfl, rfl, rfl, rfl⟩
        · have hge : idx ≥ l.ntensor := by omega
          simp only [if_neg (not_not.mpr h1), if_neg (not_not.mpr h2), if_pos h3]
          constructor
          · constructor
            · intro _; exact Or.inr ⟨l, rfl, Or.inr (Or.inr hge)⟩
            · intro _; exact ⟨_, rfl⟩
          · constructor
            · rintro ⟨l2, r, _, h, _⟩; cases h
            · intro h; exact absurd (Or.inr ⟨l, rfl, Or.inr (Or.inr hge)⟩) h
      · have hneg : idx < 0 := by omega
        simp only [if_neg (not_not.mpr h1), if_pos h2]
        constructor
        · constructor
          · intro _; exact Or.inr ⟨l, rfl, Or.inr (Or.inl hneg)⟩
          · intro _; exact ⟨_, rfl⟩
        · constructor
          · rintro ⟨l2, r, _, h, _⟩; cases h
          · intro h; exact absurd (Or.inr ⟨l, rfl, Or.inr (Or.inl hneg)⟩) h
    · have hv : IsValidType l.type_ = false := by
        simpa [TensorList.type] using h1
      simp only [if_pos h1]
      constructor
      · constructor
        · intro _; exact Or.inr ⟨l, rfl, Or.inl hv⟩
        · intro _; exact ⟨_, rfl⟩
      · constructor
        · rintro ⟨l2, r, _, h, _⟩; cases h
        · intro h; exact absurd (Or.inr ⟨l, rfl, Or.inl hv⟩) h

/-- C5: `ShareData(t)` fails exactly when `t` is null or has no valid type; in every other
case it succeeds and the destination has the shape, element count, type, byte footprint,
device and data handle of `t`, and is not marked as a shared view when `t` carries zero
bytes. -/
theorem ShareData_t_spec (dst : Tensor) (t : Option Tensor) :
    ((∃ msg, dst.ShareData_t t = .error msg) ↔
      (t = none ∨ ∃ s, t = some s ∧ IsValidType s.type_ = false)) ∧
    ((∃ s r, t = some s ∧ dst.ShareData_t t = .ok r ∧
        r.shape_ = s.shape_ ∧ r.size_ = s.size_ ∧ r.type_ = s.type_ ∧
        r.num_bytes_ = s.num_bytes_ ∧ r.device_ = s.device_ ∧ r.data_ = s.data_ ∧
        (s.num_bytes_ = 0 → r.shares_data_ = false)) ↔
      ¬ (t = none ∨ ∃ s, t = some s ∧ IsValidType s.type_ = false)) := by
  cases t with
  | none => simp [Tensor.ShareData_t]
  | some s =>
    unfold Tensor.ShareData_t
    by_cases h1 : IsValidType s.type = true
    · have hv : ¬ IsValidType s.type_ = false := by
        simpa [Tensor.type] using h1
      simp only [if_neg (not_not.mpr h1)]
      constructor
      · constructor
        · rintro ⟨msg, h⟩; cases h
        · rintro (h | ⟨s2, hs, h⟩)
          · cases h
          · cases hs; exact absurd h hv
      · constructor
        · rintro _ (h | ⟨s2, hs, h⟩)
          · cases h
          · cases hs; exact absurd h hv
        · intro _
          refine ⟨s, _, rfl, rfl, rfl, rfl, rfl, rfl, rfl, rfl, ?_⟩
          intro hz
          simp [hz]
    · have hv : IsValidType s.type_ = false := by
        simpa [Tensor.type] using h1
      simp only [if_pos h1]
      constructor
      · constructor
        · intro _; exact Or.inr ⟨s, rfl, hv⟩
        · intro _; exact ⟨_, rfl⟩
      · constructor
        · rintro ⟨s2, r, _, h, _⟩; cases h
        · intro h; exact absurd (Or.inr ⟨s, rfl, hv⟩) h

/-- C6: `ShareData(ptr, bytes, shape)`, with a `shared_ptr` or with a raw pointer, fails
exactly when `ptr` is null; in every other case, whatever the previous state of the tensor,
it succeeds with type `NoType`, byte footprint `bytes`, shape `shape` and element count
`volume(shape)`. -/
theorem ShareData_ptr_shape_spec (t : Tensor) (ptr : Int) (bytes : Nat) (shape : List Int) :
    ((∃ msg, t.ShareData_ptr_shape ptr bytes shape = .error msg) ↔ ptr = 0) ∧
    ((∃ r, t.ShareData_ptr_shape ptr bytes shape = .ok r ∧ r.type_ = TypeInfo.NoType ∧
        r.num_bytes_ = bytes ∧ r.shape_ = shape ∧ r.size_ = volume shape) ↔ ptr ≠ 0) ∧
    ((∃ msg, t.ShareData_rawptr_shape ptr bytes shape = .error msg) ↔ ptr = 0) ∧
    ((∃ r, t.ShareData_rawptr_shape ptr bytes shape = .ok r ∧ r.type_ = TypeInfo.NoType ∧
        r.num_bytes_ = bytes ∧ r.shape_ = shape ∧ r.size_ = volume shape) ↔ ptr ≠ 0) := by
  unfold Tensor.ShareData_rawptr_shape Tensor.ShareData_ptr_shape
  by_cases hp : ptr ≠ 0
  · simp only [if_neg (not_not.mpr hp)]
    refine ⟨⟨?_, fun h => absurd h hp⟩, ⟨fun _ => hp, fun _ => ⟨_, rfl, rfl, rfl, rfl, rfl⟩⟩,
      ⟨?_, fun h => absurd h hp⟩, ⟨fun _ => hp, fun _ => ⟨_, rfl, rfl, rfl, rfl, rfl⟩⟩⟩
    · rintro ⟨msg, h⟩; cases h
    · rintro ⟨msg, h⟩; cases h
  · simp only [if_pos hp]
    have hz : ptr = 0 := not_not.mp hp
    refine ⟨⟨fun _ => hz, fun _ => ⟨_, rfl⟩⟩, ⟨?_, fun h => absurd hz h⟩,
      ⟨fun _ => hz, fun _ => ⟨_, rfl⟩⟩, ⟨?_, fun h => absurd hz h⟩⟩
    · rintro ⟨r, h, _⟩; cases h
    · rintro ⟨r, h, _⟩; cases h

/-- C7, as stated, fails: `ShareData(ptr, 0, (2, 3))` with a non-null `ptr` succeeds and
leaves the shape `(2, 3)` and 6 elements, which is not the empty state. -/
theorem ShareData_zero_bytes_not_empty_state :
    ∃ r, Tensor.init.ShareData_rawptr_shape 4096 0 [2, 3] = .ok r ∧
      r.shape_ = [2, 3] ∧ r.size_ = 6 ∧
      ¬ (r.size_ = 0 ∧ r.shape_ = [] ∧ r.type_ = TypeInfo.NoType ∧ r.num_bytes_ = 0 ∧
          r.shares_data_ = false) :=
  ⟨_, rfl, rfl, rfl, by decide⟩

/-- C7, amended: for every non-null pointer and every shape, `ShareData(ptr, 0, shape)`
leaves the tensor with no type, zero bytes and not marked as sharing data, with the shape
`shape` and `volume(shape)` elements; and `ShareData(ptr, bytes)` without a shape sets the
size to 0 and the shape to the empty shape. -/
theorem ShareData_zero_bytes_state (t : Tensor) (ptr : Int) (bytes : Nat) (shape : List Int)
    (hptr : ptr ≠ 0) :
    (∃ r, t.ShareData_rawptr_shape ptr 0 shape = .ok r ∧ r.type_ = TypeInfo.NoType ∧
      r.num_bytes_ = 0 ∧ r.shares_data_ = false ∧ r.shape_ = shape ∧
      r.size_ = volume shape) ∧
    (∃ r, t.ShareData_rawptr ptr bytes = .ok r ∧ r.size_ = 0 ∧ r.shape_ = []) := by
  unfold Tensor.ShareData_rawptr Tensor.ShareData_rawptr_shape Tensor.ShareData_ptr_shape
  simp only [if_neg (not_not.mpr hptr)]
  exact ⟨⟨_, rfl, rfl, rfl, rfl, rfl, rfl⟩, ⟨_, rfl, rfl, rfl⟩⟩

/-- Witness for C7 (amended): a default tensor wrapping address 4096 with shape `(2, 3)`, and
16 bytes at that address without a shape. -/
theorem ShareData_zero_bytes_state_witness :
    (4096 : Int) ≠ 0 ∧
    (∃ r, Tensor.init.ShareData_rawptr_shape 4096 0 [2, 3] = .ok r ∧
      r.type_ = TypeInfo.NoType ∧ r.num_bytes_ = 0 ∧ r.shares_data_ = false ∧
      r.shape_ = [2, 3] ∧ r.size_ = volume [2, 3]) ∧
    (∃ r, Tensor.init.ShareData_rawptr 4096 16 = .ok r ∧ r.size_ = 0 ∧ r.shape_ = []) :=
  ⟨by decide, ShareData_zero_bytes_state Tensor.init 4096 16 [2, 3] (by decide)⟩

/-- C8: for a non-null, non-empty, validly typed, continuous TensorList `tl` and every
`new_shape`, `ShareDataReshape(tl, new_shape)` fails exactly when `volume(new_shape)`
differs from the total element count of `tl`; when the two agree it succeeds with shape
`new_shape`, the list's total element count as element count, and element size times that
count as byte footprint. -/
theorem ShareDataReshape_spec (t : Tensor) (tl : TensorList) (new_shape : List Int)
    (hn : tl.ntensor > 0) (hty : IsValidType tl.type_ = true)
    (hc : tl.IsContinuousTensor = true) :
    ((∃ msg, t.ShareDataReshape (some tl) new_shape = .error msg) ↔
      volume new_shape ≠ tl.num_elements) ∧
    ((∃ r, t.ShareDataReshape (some tl) new_shape = .ok r ∧ r.shape_ = new_shape ∧
        r.size_ = tl.num_elements ∧ r.num_bytes_ = tl.type_.size * tl.num_elements) ↔
      volume new_shape = tl.num_elements) := by
  have hty2 : IsValidType tl.type = true := hty
  unfold Tensor.ShareDataReshape
  simp only [if_neg (not_not.mpr hn), if_neg (not_not.mpr hty2), if_neg (not_not.mpr hc)]
  by_cases hv : tl.num_elements = volume new_shape
  · simp only [if_neg (not_not.mpr hv)]
    constructor
    · constructor
      · rintro ⟨msg, h⟩; cases h
      · intro h; exact absurd hv.symm h
    · constructor
      · intro _; exact hv.symm
      · intro _
        refine ⟨_, rfl, rfl, hv.symm, ?_⟩
        show (tl.type_.size : Int) * volume new_shape = tl.type_.size * tl.num_elements
        rw [hv]
  · simp only [if_pos hv]
    constructor
    · constructor
      · intro _ h; exact hv h.symm
      · intro _; exact ⟨_, rfl⟩
    · constructor
      · rintro ⟨r, h, _⟩; cases h
      · intro h; exact absurd h.symm hv

/-- Witness for C8: two packed samples of shape `(3)` of 4-byte elements, reshaped to
`(2, 3)`. -/
theorem ShareDataReshape_spec_witness :
    ((∃ msg, Tensor.init.ShareDataReshape
        (some { shape_ := [[3], [3]], offsets_ := [0, 3], type_ := .typed 1 4, data_ := 4096,
                device_ := some 0 }) [2, 3] = .error msg) ↔
      volume [2, 3] ≠ TensorList.num_elements
        { shape_ := [[3], [3]], offsets_ := [0, 3], type_ := .typed 1 4, data_ := 4096,
          device_ := some 0 }) ∧
    ((∃ r, Tensor.init.ShareDataReshape
        (some { shape_ := [[3], [3]], offsets_ := [0, 3], type_ := .typed 1 4, data_ := 4096,
                device_ := some 0 }) [2, 3] = .ok r ∧ r.shape_ = [2, 3] ∧
        r.size_ = TensorList.num_elements
          { shape_ := [[3], [3]], offsets_ := [0, 3], type_ := .typed 1 4, data_ := 4096,
            device_ := some 0 } ∧
        r.num_bytes_ = (TypeInfo.typed 1 4).size * TensorList.num_elements
          { shape_ := [[3], [3]], offsets_ := [0, 3], type_ := .typed 1 4, data_ := 4096,
            device_ := some 0 }) ↔
      volume [2, 3] = TensorList.num_elements
        { shape_ := [[3], [3]], offsets_ := [0, 3], type_ := .typed 1 4, data_ := 4096,
          device_ := some 0 }) :=
  ShareDataReshape_spec Tensor.init
    { shape_ := [[3], [3]], offsets_ := [0, 3], type_ := .typed 1 4, data_ := 4096,
      device_ := some 0 } [2, 3] (by decide) rfl rfl

/-- C9: for a dense, validly typed TensorList `tl` of `n >= 1` samples that all have the
shape `(s1, ..., sk)`, `ShareData(tl)` succeeds and gives the tensor the shape
`(n, s1, ..., sk)`, `n * volume(s1..sk)` elements and element size times that count as byte
footprint; and `ShareData(tl)` fails when `tl` is null, empty, untyped or not dense. -/
theorem ShareData_tl_spec (t : Tensor) (tl : TensorList) (s1 : Int) (ss : List Int)
    (hn : tl.ntensor ≥ 1) (hty : IsValidType tl.type_ = true)
    (hdense : tl.IsDenseTensor = true) (hsame : ∀ s ∈ tl.shape_, s = s1 :: ss) :
    (∃ r, t.ShareData_tl (some tl) = .ok r ∧ r.shape_ = (tl.ntensor : Int) :: s1 :: ss ∧
      r.size_ = tl.ntensor * volume (s1 :: ss) ∧
      r.num_bytes_ = tl.type_.size * (tl.ntensor * volume (s1 :: ss))) ∧
    (∃ msg, t.ShareData_tl none = .error msg) ∧
    (∀ l : TensorList, l.ntensor = 0 ∨ IsValidType l.type_ = false ∨ l.IsDenseTensor = false →
      ∃ msg, t.ShareData_tl (some l) = .error msg) := by
  have hty2 : IsValidType tl.type = true := hty
  have hn2 : tl.ntensor > 0 := hn
  have h0 : tl.tensor_shape 0 = s1 :: ss := by
    unfold TensorList.tensor_shape
    unfold TensorList.ntensor at hn
    cases hsh : tl.shape_ with
    | nil => rw [hsh] at hn; simp at hn
    | cons a rest =>
      have := hsame a (by rw [hsh]; exact List.mem_cons_self a rest)
      simpa using this
  refine ⟨?_, ⟨_, rfl⟩, ?_⟩
  · unfold Tensor.ShareData_tl
    simp only [if_neg (not_not.mpr hn2), if_neg (not_not.mpr hty2),
      if_neg (not_not.mpr hdense)]
    refine ⟨_, rfl, ?_, ?_, ?_⟩
    · show shape_cat (tl.ntensor : Int) (tl.tensor_shape 0) = _
      rw [h0]; rfl
    · show volume (shape_cat (tl.ntensor : Int) (tl.tensor_shape 0)) = _
      rw [h0]; exact volume_cons_cons _ _ _
    · show (tl.type_.size : Int) * volume (shape_cat (tl.ntensor : Int) (tl.tensor_shape 0)) = _
      rw [h0, shape_cat, volume_cons_cons]
  · intro l hl
    unfold Tensor.ShareData_tl
    by_cases g1 : l.ntensor > 0
    · by_cases g2 : IsValidType l.type = true
      · by_cases g3 : l.IsDenseTensor = true
        · rcases hl with h | h | h
          · omega
          · rw [show IsValidType l.type_ = IsValidType l.type from rfl, g2] at h; cases h
          · rw [g3] at h; cases h
        · simp only [if_neg (not_not.mpr g1), if_neg (not_not.mpr g2), if_pos g3]
          exact ⟨_, rfl⟩
      · simp only [if_neg (not_not.mpr g1), if_pos g2]
        exact ⟨_, rfl⟩
    · simp only [if_pos g1]
      exact ⟨_, rfl⟩

/-- Witness for C9: two packed samples of shape `(3)` of 4-byte elements. -/
theorem ShareData_tl_spec_witness :
    ∃ r, Tensor.init.ShareData_tl
        (some { shape_ := [[3], [3]], offsets_ := [0, 3], type_ := .typed 1 4, data_ := 4096,
                device_ := some 0 }) = .ok r ∧ r.shape_ = [2, 3] ∧ r.size_ = 6 ∧
      r.num_bytes_ = 24 :=
  (ShareData_tl_spec Tensor.init
    { shape_ := [[3], [3]], offsets_ := [0, 3], type_ := .typed 1 4, data_ := 4096,
      device_ := some 0 } 3 [] (by decide) rfl rfl (by decide)).1

/-! ## Resize -/

/-- Resize succeeds exactly when the tensor is not a shared view or the requested byte
footprint is the established one. -/
theorem Resize_ok_iff (t : Tensor) (S : List Int) (fresh : Int) :
    (∃ r, t.Resize S fresh = .ok r) ↔
      (t.shares_data_ = false ∨ volume S * t.type_.size = t.num_bytes_) := by
  unfold Tensor.Resize Tensor.ResizeHelper
  by_cases hs : t.shares_data_ = true ∧ ¬ (volume S * (t.type_.size : Int) = t.num_bytes_)
  · simp only [if_pos hs]
    constructor
    · rintro ⟨r, h⟩; cases h
    · rintro (h | h)
      · rw [hs.1] at h; cases h
      · exact absurd h hs.2
  · simp only [if_neg hs]
    constructor
    · intro _
      by_cases hsh : t.shares_data_ = true
      · exact Or.inr (not_not.mp (fun hc => hs ⟨hsh, hc⟩))
      · left; simpa using hsh
    · intro _
      by_cases hg : volume S * (t.type_.size : Int) > t.num_bytes_
      · simp only [if_pos hg]; exact ⟨_, rfl⟩
      · simp only [if_neg hg]; exact ⟨_, rfl⟩

/-- C10: for every shape `S` and every tensor on which `Resize(S)` succeeds, afterwards
`shape() == S` and the element count is `volume(S)`. -/
theorem Resize_shape_and_size (t : Tensor) (S : List Int) (fresh : Int) (r : Tensor)
    (h : t.Resize S fresh = .ok r) :
    r.shape = S ∧ r.size_ = volume S := by
  unfold Tensor.Resize Tensor.ResizeHelper at h
  by_cases hs : t.shares_data_ = true ∧
      ¬ (volume S * (t.type_.size : Int) = t.num_bytes_)
  · simp only [if_pos hs] at h
    cases h
  · by_cases hg : volume S * (t.type_.size : Int) > t.num_bytes_
    · simp only [if_neg hs, if_pos hg] at h
      cases h; exact ⟨rfl, rfl⟩
    · simp only [if_neg hs, if_neg hg] at h
      cases h; exact ⟨rfl, rfl⟩

/-- Witness for C10: a default tensor resized to `(2, 3)`. -/
theorem Resize_shape_and_size_witness :
    Tensor.init.Resize [2, 3] 4096 = .ok { Tensor.init with shape_ := [2, 3], size_ := 6 } ∧
    Tensor.shape { Tensor.init with shape_ := [2, 3], size_ := 6 } = [2, 3] ∧
    Tensor.size_ { Tensor.init with shape_ := [2, 3], size_ := 6 } = volume [2, 3] :=
  ⟨rfl, Resize_shape_and_size Tensor.init [2, 3] 4096 _ rfl⟩

/-! ## Statement lists: what a call that throws leaves behind -/

/-- A list of assignments cannot throw. -/
theorem Stmt.run_assigns {σ : Type} (l : List (Stmt σ)) (s : σ)
    (h : l.all Stmt.is_assign = true) : (Stmt.run l s).2 = none := by
  induction l generalizing s with
  | nil => rfl
  | cons a rest ih =>
    rw [List.all_cons, Bool.and_eq_true] at h
    cases a with
    | enforce cond msg => cases h.1
    | assign f => exact ih (f s) h.2
    | call f => cases h.1

/-- When every statement that can throw comes before every assignment, a call that throws
leaves the objects as they were. -/
theorem Stmt.run_atomic {σ : Type} (l : List (Stmt σ)) (s : σ)
    (h : Stmt.checks_first l = true) (hfail : (Stmt.run l s).2 ≠ none) :
    (Stmt.run l s).1 = s := by
  induction l with
  | nil => rfl
  | cons a rest ih =>
    cases a with
    | enforce cond msg =>
      unfold Stmt.run at hfail ⊢
      by_cases hc : cond s = true
      · rw [if_pos hc] at hfail ⊢
        exact ih h hfail
      · rw [if_neg hc]
    | assign f =>
      exact absurd (Stmt.run_assigns rest (f s) h) hfail
    | call f =>
      unfold Stmt.run at hfail ⊢
      cases hf : f s with
      | error msg => rfl
      | ok s1 =>
        rw [hf] at hfail
        exact absurd (Stmt.run_assigns rest s1 h) hfail

/-- The property is one of the order of the statements: an assignment before a check that
fails is kept. -/
theorem Stmt.run_not_atomic_in_general :
    Stmt.run [Stmt.assign (fun n : Nat => n + 1), Stmt.enforce (fun _ => false) "check"] 0 =
      (1, some "check") :=
  rfl

/-- When no statement assigns to the first of two objects, the first object is the same when
the call ends, thrown or not. -/
theorem Stmt.run_keeps_first {α β : Type} (l : List (Stmt (α × β))) (s : α × β)
    (h : ∀ a ∈ l, Stmt.keeps_first a) : (Stmt.run l s).1.1 = s.1 := by
  induction l generalizing s with
  | nil => rfl
  | cons a rest ih =>
    have hrest : ∀ b ∈ rest, Stmt.keeps_first b := fun b hb => h b (List.mem_cons_of_mem a hb)
    have ha : Stmt.keeps_first a := h a (List.mem_cons_self a rest)
    cases a with
    | enforce cond msg =>
      unfold Stmt.run
      by_cases hc : cond s = true
      · rw [if_pos hc]; exact ih s hrest
      · rw [if_neg hc]
    | assign f =>
      unfold Stmt.run
      rw [ih (f s) hrest]
      exact ha s
    | call f =>
      unfold Stmt.run
      cases hf : f s with
      | error msg => rfl
      | ok s1 =>
        show (Stmt.run rest s1).1.1 = s.1
        rw [ih s1 hrest]
        exact ha s s1 hf

/-- The statement list of `Resize` is the method `Resize`: it returns the same state, and it
throws with the same message. -/
theorem Resize_body_agrees (t : Tensor) (S : List Int) (fresh : Int) :
    (∀ r, t.Resize S fresh = .ok r ↔ Stmt.run (Tensor.Resize_body S fresh) t = (r, none)) ∧
    (∀ msg, t.Resize S fresh = .error msg ↔
      (Stmt.run (Tensor.Resize_body S fresh) t).2 = some msg) := by
  unfold Tensor.Resize Tensor.Resize_body
  simp only [Stmt.run]
  cases t.ResizeHelper (volume S) fresh with
  | error m => simp
  | ok t1 => simp

/-! ## Resize of a shared view, Reset -/

/-- C11: on a tensor that shares data (a shared view), a `Resize` whose byte footprint
differs from the shared footprint throws and leaves the tensor, its shape included, as it
was; after `Reset()`, `Resize` to any shape succeeds, whatever type is set in between. -/
theorem Resize_shared_view_mismatch (t : Tensor) (S : List Int) (fresh : Int)
    (hsh : t.shares_data_ = true) (hne : volume S * t.type_.size ≠ t.num_bytes_) :
    (∃ msg, t.Resize S fresh = .error msg ∧
      Stmt.run (Tensor.Resize_body S fresh) t = (t, some msg)) ∧
    (Stmt.run (Tensor.Resize_body S fresh) t).1.shape_ = t.shape_ ∧
    (∀ (cleared_layout : DALITensorLayout) (S2 : List Int) (fresh2 : Int),
      ∃ r, (t.Reset cleared_layout).Resize S2 fresh2 = .ok r ∧ r.shape_ = S2 ∧
        r.size_ = volume S2) ∧
    (∀ (cleared_layout : DALITensorLayout) (ty : TypeInfo) (fresh1 : Int) (S2 : List Int)
        (fresh2 : Int),
      ∃ u r, (t.Reset cleared_layout).set_type ty fresh1 = .ok u ∧ u.type_ = ty ∧
        u.Resize S2 fresh2 = .ok r ∧ r.shape_ = S2 ∧ r.size_ = volume S2) := by
  have hs : t.shares_data_ = true ∧ ¬ (volume S * (t.type_.size : Int) = t.num_bytes_) :=
    ⟨hsh, hne⟩
  have hhelp : t.ResizeHelper (volume S) fresh = .error
      "Buffer that shares data cannot have size different than total underlying allocation" := by
    unfold Tensor.ResizeHelper
    simp only [if_pos hs]
  have hfail : t.Resize S fresh = .error
      "Buffer that shares data cannot have size different than total underlying allocation" := by
    simp only [Tensor.Resize, hhelp]
  have hrun : Stmt.run (Tensor.Resize_body S fresh) t = (t, some
      "Buffer that shares data cannot have size different than total underlying allocation") := by
    unfold Tensor.Resize_body
    simp only [Stmt.run, hhelp]
  have hfree : ∀ (u : Tensor) (S2 : List Int) (fresh2 : Int), u.shares_data_ = false →
      ∃ r, u.Resize S2 fresh2 = .ok r ∧ r.shape_ = S2 ∧ r.size_ = volume S2 := by
    intro u S2 fresh2 hu
    obtain ⟨r, hr⟩ := (Resize_ok_iff u S2 fresh2).mpr (Or.inl hu)
    refine ⟨r, hr, ?_⟩
    unfold Tensor.Resize Tensor.ResizeHelper at hr
    have hns : ¬ (u.shares_data_ = true ∧ ¬ (volume S2 * (u.type_.size : Int) = u.num_bytes_)) := by
      rw [hu]; simp
    by_cases hg : volume S2 * (u.type_.size : Int) > u.num_bytes_
    · simp only [if_neg hns, if_pos hg] at hr
      cases hr; exact ⟨rfl, rfl⟩
    · simp only [if_neg hns, if_neg hg] at hr
      cases hr; exact ⟨rfl, rfl⟩
  refine ⟨⟨_, hfail, hrun⟩, ?_, ?_, ?_⟩
  · rw [hrun]
  · intro cleared_layout S2 fresh2
    exact hfree _ S2 fresh2 rfl
  · intro cleared_layout ty fresh1 S2 fresh2
    have hset : (t.Reset cleared_layout).set_type ty fresh1 =
        .ok { (t.Reset cleared_layout) with type_ := ty } := by
      unfold Tensor.set_type Tensor.Reset Tensor.reset
      simp
    obtain ⟨r, hr⟩ := hfree { (t.Reset cleared_layout) with type_ := ty } S2 fresh2 rfl
    exact ⟨_, r, hset, rfl, hr⟩

/-- Witness for C11: a default tensor that shares the 24 bytes of a 2 x 3 tensor is a shared
view; resized to `(5)`, 20 bytes, and to `(0)`, no bytes, it throws and stays as it was. -/
theorem Resize_shared_view_mismatch_witness :
    (∃ t, Tensor.init.ShareData_t (some Sample.owner23) = .ok t ∧ t.shares_data_ = true ∧
      t.num_bytes_ = 24 ∧ Stmt.run (Tensor.Resize_body [0] 8192) t = (t, some
        "Buffer that shares data cannot have size different than total underlying allocation")) ∧
    Sample.view23.shares_data_ = true ∧
    Stmt.run (Tensor.Resize_body [0] 8192) Sample.view23 = (Sample.view23, some
      "Buffer that shares data cannot have size different than total underlying allocation") ∧
    ((∃ msg, Sample.view23.Resize [5] 8192 = .error msg ∧
      Stmt.run (Tensor.Resize_body [5] 8192) Sample.view23 = (Sample.view23, some msg)) ∧
    (Stmt.run (Tensor.Resize_body [5] 8192) Sample.view23).1.shape_ = Sample.view23.shape_ ∧
    (∀ (cleared_layout : DALITensorLayout) (S2 : List Int) (fresh2 : Int),
      ∃ r, (Sample.view23.Reset cleared_layout).Resize S2 fresh2 = .ok r ∧ r.shape_ = S2 ∧
        r.size_ = volume S2) ∧
    (∀ (cleared_layout : DALITensorLayout) (ty : TypeInfo) (fresh1 : Int) (S2 : List Int)
        (fresh2 : Int),
      ∃ u r, (Sample.view23.Reset cleared_layout).set_type ty fresh1 = .ok u ∧ u.type_ = ty ∧
        u.Resize S2 fresh2 = .ok r ∧ r.shape_ = S2 ∧ r.size_ = volume S2)) :=
  ⟨⟨_, rfl, rfl, rfl, rfl⟩, rfl, rfl,
    Resize_shared_view_mismatch Sample.view23 [5] 8192 rfl (by decide)⟩

/-- A tensor that wrapped a source of zero bytes is not marked as a shared view, and a later
`Resize` to another footprint succeeds. -/
theorem ShareData_empty_source_then_Resize :
    ∃ t r, Tensor.init.ShareData_t
        (some { Tensor.init with shape_ := [0], type_ := .typed 1 4 }) = .ok t ∧
      t.shares_data_ = false ∧ t.Resize [2, 3] 8192 = .ok r ∧ r.num_bytes_ = 24 :=
  ⟨_, _, rfl, rfl, rfl, rfl⟩

/-- C16: `Reset()` cannot fail (it is a total function of the state) and, from every state,
leaves the tensor with no allocation, element count 0, type `NoType`, zero bytes, the empty
shape and cleared metadata, and not marked as a shared view. -/
theorem Reset_spec (t : Tensor) (cleared_layout : DALITensorLayout) :
    (t.Reset cleared_layout).data_ = 0 ∧ (t.Reset cleared_layout).size_ = 0 ∧
    (t.Reset cleared_layout).type_ = TypeInfo.NoType ∧
    (t.Reset cleared_layout).num_bytes_ = 0 ∧ (t.Reset cleared_layout).shape_ = [] ∧
    (t.Reset cleared_layout).meta_ = DALIMeta.cleared cleared_layout ∧
    (t.Reset cleared_layout).GetSourceInfo = "" ∧
    (t.Reset cleared_layout).ShouldSkipSample = false ∧
    (t.Reset cleared_layout).shares_data_ = false :=
  ⟨rfl, rfl, rfl, rfl, rfl, rfl, rfl, rfl, rfl⟩

/-! ## Metadata -/

/-- C13, as stated, fails: a default tensor that shares the data of a tensor with layout
NCHW, source info `a.jpg` and the skip flag set keeps its own metadata (NHWC, no source
info, skip flag off). -/
theorem ShareData_does_not_copy_meta :
    ∃ r, Tensor.init.ShareData_t (some Sample.owner23) = .ok r ∧
      r.GetLayout = .DALI_NHWC ∧ r.GetSourceInfo = "" ∧ r.ShouldSkipSample = false ∧
      Sample.owner23.GetLayout = .DALI_NCHW ∧ Sample.owner23.GetSourceInfo = "a.jpg" ∧
      Sample.owner23.ShouldSkipSample = true ∧ r.meta_ ≠ Sample.owner23.meta_ :=
  ⟨_, rfl, rfl, rfl, rfl, rfl, rfl, rfl, by decide⟩

/-- C13, amended: sharing does not touch the metadata: after `ShareData(Tensor*)` and
`ShareData(TensorList*, index)` the tensor has the metadata it had before the call, and the
view returned by `SubspaceTensor(x)` has the metadata of a default-constructed tensor. -/
theorem sharing_keeps_own_meta (dst src : Tensor) (tl : Option TensorList) (idx x : Int) :
    (∀ r, dst.ShareData_t (some src) = .ok r → r.meta_ = dst.meta_) ∧
    (∀ r, dst.ShareData_tl_idx tl idx = .ok r → r.meta_ = dst.meta_) ∧
    (∀ view, src.SubspaceTensor x = .ok view → view.meta_ = DALIMeta.init) := by
  refine ⟨?_, ?_, ?_⟩
  · intro r h
    unfold Tensor.ShareData_t at h
    by_cases h1 : IsValidType src.type = true
    · simp only [if_neg (not_not.mpr h1)] at h
      cases h; rfl
    · simp only [if_pos h1] at h
      cases h
  · intro r h
    cases tl with
    | none => cases h
    | some l =>
      unfold Tensor.ShareData_tl_idx at h
      by_cases h1 : IsValidType l.type = true
      · by_cases h2 : idx ≥ 0
        · by_cases h3 : idx.toNat < l.ntensor
          · simp only [if_neg (not_not.mpr h1), if_neg (not_not.mpr h2),
              if_neg (not_not.mpr h3)] at h
            cases h; rfl
          · simp only [if_neg (not_not.mpr h1), if_neg (not_not.mpr h2), if_pos h3] at h
            cases h
        · simp only [if_neg (not_not.mpr h1), if_pos h2] at h
          cases h
      · simp only [if_pos h1] at h
        cases h
  · intro view h
    unfold Tensor.SubspaceTensor at h
    by_cases h1 : src.ndim > 1
    · by_cases h2 : 0 ≤ x ∧ x < src.dim 0
      · simp only [if_neg (not_not.mpr h1), if_neg (not_not.mpr h2)] at h
        cases h; rfl
      · simp only [if_neg (not_not.mpr h1), if_pos h2] at h
        cases h
    · simp only [if_pos h1] at h
      cases h

/-- Witness for C13 (amended): a tensor with source info `b.png` shares the data of a 2 x 3
tensor with source info `a.jpg`, and the second row of that tensor is taken. -/
theorem sharing_keeps_own_meta_witness :
    (∃ r, Sample.tagged.ShareData_t (some Sample.owner23) = .ok r ∧
      r.meta_ = Sample.tagged.meta_) ∧
    (∃ view, Sample.owner23.SubspaceTensor 1 = .ok view ∧ view.meta_ = DALIMeta.init) :=
  ⟨⟨_, rfl, (sharing_keeps_own_meta Sample.tagged Sample.owner23 none 0 1).1 _ rfl⟩,
   ⟨_, rfl, (sharing_keeps_own_meta Sample.tagged Sample.owner23 none 0 1).2.2 _ rfl⟩⟩

/-! ## Copy -/

/-- What a successful `Resize` leaves: the new shape and element count, and the type,
metadata and device of before. -/
theorem Resize_ok_fields (t : Tensor) (S : List Int) (fresh : Int) (r : Tensor)
    (h : t.Resize S fresh = .ok r) :
    r.shape_ = S ∧ r.size_ = volume S ∧ r.type_ = t.type_ ∧ r.meta_ = t.meta_ ∧
      r.device_ = t.device_ := by
  unfold Tensor.Resize Tensor.ResizeHelper at h
  by_cases hs : t.shares_data_ = true ∧
      ¬ (volume S * (t.type_.size : Int) = t.num_bytes_)
  · simp only [if_pos hs] at h
    cases h
  · by_cases hg : volume S * (t.type_.size : Int) > t.num_bytes_
    · simp only [if_neg hs, if_pos hg] at h
      cases h; exact ⟨rfl, rfl, rfl, rfl, rfl⟩
    · simp only [if_neg hs, if_neg hg] at h
      cases h; exact ⟨rfl, rfl, rfl, rfl, rfl⟩

/-- What a successful `set_type` leaves: the new type, and the shape, element count,
metadata and device of before. -/
theorem set_type_ok_fields (t : Tensor) (ty : TypeInfo) (fresh : Int) (r : Tensor)
    (h : t.set_type ty fresh = .ok r) :
    r.type_ = ty ∧ r.shape_ = t.shape_ ∧ r.size_ = t.size_ ∧ r.meta_ = t.meta_ ∧
      r.device_ = t.device_ := by
  unfold Tensor.set_type at h
  by_cases hs : t.shares_data_ = true ∧
      ¬ (t.size_ * (ty.size : Int) = t.num_bytes_)
  · simp only [if_pos hs] at h
    cases h
  · by_cases hg : t.size_ * (ty.size : Int) > t.num_bytes_
    · simp only [if_neg hs, if_pos hg] at h
      cases h; exact ⟨rfl, rfl, rfl, rfl, rfl⟩
    · simp only [if_neg hs, if_neg hg] at h
      cases h; exact ⟨rfl, rfl, rfl, rfl, rfl⟩

/-- C12: when `B.Copy(A, stream)` returns normally, for a source `A` that satisfies the
Tensor invariant, `B` has the shape and the type of `A`, the layout, source info and skip
flag of `A`, the element count of `A`, and every byte of `B`'s data is the byte that `A`
held at the same offset when `Copy` was called; where `A`'s bytes are not overwritten by the
transfer (`B` starts where `A` starts, or the two byte ranges do not meet) the contents of
`B` and of `A` are equal afterwards. -/
theorem Copy_spec (B A : Tensor) (mem : Memory) (fresh1 fresh2 : Int)
    (hinv : A.size_ = volume A.shape_)
    (hok : (B.Copy A mem fresh1 fresh2).1.error = none) :
    ∃ B1 mem1, B.Copy A mem fresh1 fresh2 = ({ state := B1, error := none }, mem1) ∧
      B1.shape = A.shape ∧ B1.type = A.type ∧ B1.GetLayout = A.GetLayout ∧
      B1.GetSourceInfo = A.GetSourceInfo ∧ B1.ShouldSkipSample = A.ShouldSkipSample ∧
      B1.size = A.size ∧
      (∀ i : Int, 0 ≤ i → i < A.size * A.type.size →
        mem1 (B1.raw_data + i) = mem (A.raw_data + i)) ∧
      ((B1.raw_data = A.raw_data ∨ A.raw_data + A.size * A.type.size ≤ B1.raw_data ∨
          B1.raw_data + A.size * A.type.size ≤ A.raw_data) →
        ∀ i : Int, 0 ≤ i → i < A.size * A.type.size →
          mem1 (B1.raw_data + i) = mem1 (A.raw_data + i)) := by
  unfold Tensor.Copy at hok ⊢
  cases hst : B.set_type A.type fresh1 with
  | error msg => rw [hst] at hok; cases hok
  | ok t1 =>
    obtain ⟨hty, _, _, _, _⟩ := set_type_ok_fields B A.type fresh1 t1 hst
    rw [hst] at hok
    simp only at hok ⊢
    cases hrs : Tensor.ResizeLike
        (((t1.SetLayout A.GetLayout).SetSourceInfo A.GetSourceInfo).SetSkipSample
          A.ShouldSkipSample) A fresh2 with
    | error msg => rw [hrs] at hok; cases hok
    | ok t2 =>
      obtain ⟨hsh, hsz, hty2, hmeta, _⟩ := Resize_ok_fields _ A.shape fresh2 t2 hrs
      have hsize : t2.size_ = A.size_ := by rw [hsz, hinv]; rfl
      have htype : t2.type_ = A.type_ := by rw [hty2]; exact hty
      have hfirst : ∀ i : Int, 0 ≤ i → i < A.size * A.type.size →
          TypeInfo.Copy t2.type_ mem t2.raw_mutable_data A.raw_data t2.size (t2.raw_data + i)
            = mem (A.raw_data + i) := by
        intro i h0 h1
        have hin : t2.data_ ≤ t2.data_ + i ∧
            t2.data_ + i < t2.data_ + t2.size_ * (t2.type_.size : Int) := by
          rw [hsize, htype]
          exact ⟨by omega, by simpa [Tensor.size, Tensor.type] using h1⟩
        simp only [TypeInfo.Copy, Tensor.raw_data, Tensor.raw_mutable_data, Tensor.size]
        rw [if_pos hin]
        congr 1
        ring
      refine ⟨t2, _, rfl, hsh, htype, ?_, ?_, ?_, hsize, hfirst, ?_⟩
      · show t2.meta_.layout_ = A.meta_.layout_
        rw [hmeta]; rfl
      · show t2.meta_.source_info_ = A.meta_.source_info_
        rw [hmeta]; rfl
      · show t2.meta_.skip_sample_ = A.meta_.skip_sample_
        rw [hmeta]; rfl
      · intro hpos i h0 h1
        rw [hfirst i h0 h1]
        rcases hpos with hsame | hdisj
        · have hb := hfirst i h0 h1
          rw [hsame] at hb
          exact hb.symm
        · have hout : ¬ (t2.data_ ≤ A.data_ + i ∧
              A.data_ + i < t2.data_ + t2.size_ * (t2.type_.size : Int)) := by
            rw [hsize, htype]
            simp only [Tensor.raw_data, Tensor.size, Tensor.type] at hdisj h1
            omega
          simp only [TypeInfo.Copy, Tensor.raw_data, Tensor.raw_mutable_data, Tensor.size]
          rw [if_neg hout]

/-- Witness for C12: the default tensor copies the 2 x 3 tensor at address 4096 into a new
allocation at address 16384. -/
theorem Copy_spec_witness :
    ∃ B1 mem1, Tensor.init.Copy Sample.owner23 Sample.ramp 12288 16384
        = ({ state := B1, error := none }, mem1) ∧
      B1.shape = [2, 3] ∧ B1.GetSourceInfo = "a.jpg" ∧ B1.raw_data = 16384 ∧
      (∀ i : Int, 0 ≤ i → i < 24 → mem1 (16384 + i) = Sample.ramp (4096 + i)) := by
  obtain ⟨B1, mem1, h, hsh, _, _, hsi, _, _, hc, _⟩ :=
    Copy_spec Tensor.init Sample.owner23 Sample.ramp 12288 16384 rfl rfl
  have hB : B1 = (Tensor.init.Copy Sample.owner23 Sample.ramp 12288 16384).1.state := by
    rw [h]
  have hd : B1.raw_data = 16384 := by rw [hB]; rfl
  refine ⟨B1, mem1, h, hsh, hsi, hd, ?_⟩
  intro i h0 h1
  have := hc i h0 h1
  rw [hd] at this
  exact this

/-! ## The invariants `size_ == volume(shape_)` and `num_bytes_ >= size_ * type_.size()` -/

/-- C14: the invariant `size_ == volume(shape_)` is not preserved by every operation.  A
shared view of 24 bytes with shape `(2, 3)` satisfies it; `Copy(tl, 0, stream)` from a list
whose sample 0 has shape `(5)` assigns `shape_` first and then throws in `Resize`, and the
tensor is left with shape `(5)` and 6 elements.  The default tensor satisfies it, and
`Squeeze()` leaves it with shape `(1)` and 0 elements. -/
theorem Copy_tl_idx_failure_breaks_invariant :
    Sample.view23.size_ = volume Sample.view23.shape_ ∧
    (Sample.view23.Copy_tl_idx Sample.list5 0 Sample.ramp 12288 16384).1.error.isSome = true ∧
    (Sample.view23.Copy_tl_idx Sample.list5 0 Sample.ramp 12288 16384).1.state.shape_ = [5] ∧
    (Sample.view23.Copy_tl_idx Sample.list5 0 Sample.ramp 12288 16384).1.state.size_ = 6 ∧
    (Sample.view23.Copy_tl_idx Sample.list5 0 Sample.ramp 12288 16384).1.state.size_ ≠
      volume (Sample.view23.Copy_tl_idx Sample.list5 0 Sample.ramp 12288 16384).1.state.shape_ ∧
    Tensor.init.size_ = volume Tensor.init.shape_ ∧
    Tensor.init.Squeeze.shape_ = [1] ∧ Tensor.init.Squeeze.size_ = 0 ∧
    Tensor.init.Squeeze.size_ ≠ volume Tensor.init.Squeeze.shape_ :=
  ⟨rfl, rfl, rfl, rfl, by decide, rfl, rfl, rfl, by decide⟩

/-- C15: after every sharing operation that succeeds the tensor satisfies
`num_bytes_ >= size_ * type_.size()`: for `ShareData(tl, idx)`, `ShareData(t)` from a source
that satisfies it, `ShareData(ptr, bytes, shape)` with a `shared_ptr` or a raw pointer,
`ShareData(ptr, bytes)`, `ShareDataReshape`, `ShareData(tl)`, and for the view returned by
`SubspaceTensor`. -/
theorem sharing_capacity_invariant (t src : Tensor) (tl : Option TensorList) (idx ptr : Int)
    (bytes : Nat) (shape new_shape : List Int) (x : Int) (r : Tensor)
    (hsrc : src.num_bytes_ ≥ src.size_ * src.type_.size)
    (h : t.ShareData_tl_idx tl idx = .ok r ∨ t.ShareData_t (some src) = .ok r ∨
      t.ShareData_ptr_shape ptr bytes shape = .ok r ∨
      t.ShareData_rawptr_shape ptr bytes shape = .ok r ∨
      t.ShareData_rawptr ptr bytes = .ok r ∨ t.ShareDataReshape tl new_shape = .ok r ∨
      t.ShareData_tl tl = .ok r ∨ src.SubspaceTensor x = .ok r) :
    r.num_bytes_ ≥ r.size_ * r.type_.size := by
  have hraw : ∀ sh, t.ShareData_ptr_shape ptr bytes sh = .ok r →
      r.num_bytes_ ≥ r.size_ * r.type_.size := by
    intro sh h
    unfold Tensor.ShareData_ptr_shape at h
    by_cases hp : ptr ≠ 0
    · simp only [if_neg (not_not.mpr hp)] at h
      cases h
      show ((bytes : Nat) : Int) ≥ volume sh * ((TypeInfo.NoType.size : Nat) : Int)
      simp [TypeInfo.size]
    · simp only [if_pos hp] at h
      cases h
  rcases h with h | h | h | h | h | h | h | h
  · cases tl with
    | none => cases h
    | some l =>
      unfold Tensor.ShareData_tl_idx at h
      by_cases h1 : IsValidType l.type = true
      · by_cases h2 : idx ≥ 0
        · by_cases h3 : idx.toNat < l.ntensor
          · simp only [if_neg (not_not.mpr h1), if_neg (not_not.mpr h2),
              if_neg (not_not.mpr h3)] at h
            cases h
            show (l.type.size : Int) * volume (l.tensor_shape idx) ≥
              volume (l.tensor_shape idx) * l.type.size
            rw [mul_comm]
          · simp only [if_neg (not_not.mpr h1), if_neg (not_not.mpr h2), if_pos h3] at h
            cases h
        · simp only [if_neg (not_not.mpr h1), if_pos h2] at h
          cases h
      · simp only [if_pos h1] at h
        cases h
  · unfold Tensor.ShareData_t at h
    by_cases h1 : IsValidType src.type = true
    · simp only [if_neg (not_not.mpr h1)] at h
      cases h
      exact hsrc
    · simp only [if_pos h1] at h
      cases h
  · exact hraw shape h
  · exact hraw shape h
  · exact hraw [] h
  · cases tl with
    | none => cases h
    | some l =>
      unfold Tensor.ShareDataReshape at h
      by_cases h1 : l.ntensor > 0
      · by_cases h2 : IsValidType l.type = true
        · by_cases h3 : l.IsContinuousTensor = true
          · by_cases h4 : l.num_elements = volume new_shape
            · simp only [if_neg (not_not.mpr h1), if_neg (not_not.mpr h2),
                if_neg (not_not.mpr h3), if_neg (not_not.mpr h4)] at h
              cases h
              show (l.type.size : Int) * volume new_shape ≥ volume new_shape * l.type.size
              rw [mul_comm]
            · simp only [if_neg (not_not.mpr h1), if_neg (not_not.mpr h2),
                if_neg (not_not.mpr h3), if_pos h4] at h
              cases h
          · simp only [if_neg (not_not.mpr h1), if_neg (not_not.mpr h2), if_pos h3] at h
            cases h
        · simp only [if_neg (not_not.mpr h1), if_pos h2] at h
          cases h
      · simp only [if_pos h1] at h
        cases h
  · cases tl with
    | none => cases h
    | some l =>
      unfold Tensor.ShareData_tl at h
      by_cases h1 : l.ntensor > 0
      · by_cases h2 : IsValidType l.type = true
        · by_cases h3 : l.IsDenseTensor = true
          · simp only [if_neg (not_not.mpr h1), if_neg (not_not.mpr h2),
              if_neg (not_not.mpr h3)] at h
            cases h
            show (l.type.size : Int) * volume (shape_cat l.ntensor (l.tensor_shape 0)) ≥
              volume (shape_cat l.ntensor (l.tensor_shape 0)) * l.type.size
            rw [mul_comm]
          · simp only [if_neg (not_not.mpr h1), if_neg (not_not.mpr h2), if_pos h3] at h
            cases h
        · simp only [if_neg (not_not.mpr h1), if_pos h2] at h
          cases h
      · simp only [if_pos h1] at h
        cases h
  · unfold Tensor.SubspaceTensor at h
    by_cases h1 : src.ndim > 1
    · by_cases h2 : 0 ≤ x ∧ x < src.dim 0
      · simp only [if_neg (not_not.mpr h1), if_neg (not_not.mpr h2)] at h
        cases h
        show (src.type_.size : Int) * Int.tdiv src.size_ (src.shape_.getD 0 0) ≥
          Int.tdiv src.size_ (src.shape_.getD 0 0) * src.type_.size
        rw [mul_comm]
      · simp only [if_neg (not_not.mpr h1), if_pos h2] at h
        cases h
    · simp only [if_pos h1] at h
      cases h

/-- Witness for C15: the second row of the 2 x 3 tensor of 24 bytes: 12 bytes for 3 elements
of 4 bytes. -/
theorem sharing_capacity_invariant_witness :
    ∃ view, Sample.owner23.SubspaceTensor 1 = .ok view ∧ view.num_bytes_ = 12 ∧
      view.size_ = 3 ∧ view.num_bytes_ ≥ view.size_ * view.type_.size :=
  ⟨_, rfl, rfl, rfl,
    sharing_capacity_invariant Tensor.init Sample.owner23 none 0 0 0 [] [] 1 _ (by decide)
      (Or.inr (Or.inr (Or.inr (Or.inr (Or.inr (Or.inr (Or.inr rfl)))))))⟩

/-! ### Where the invariant `size_ == volume(shape_)` is preserved -/

theorem foldl_mul_eq_prod (ds : List Int) (d : Int) :
    ds.foldl (fun v e => v * e) d = d * ds.prod := by
  induction ds generalizing d with
  | nil => simp
  | cons e r ih => simp only [List.foldl_cons, List.prod_cons]; rw [ih, mul_assoc]

theorem volume_eq_prod (s : List Int) (hs : s ≠ []) : volume s = s.prod := by
  cases s with
  | nil => exact absurd rfl hs
  | cons d ds => simp only [volume, List.prod_cons]; exact foldl_mul_eq_prod ds d

theorem prod_filter_ne_one (s : List Int) : (s.filter (fun e => e ≠ 1)).prod = s.prod := by
  induction s with
  | nil => rfl
  | cons e r ih =>
    by_cases he : e = 1
    · have hp : ¬ ((fun e : Int => decide (e ≠ 1)) e = true) := by simp [he]
      rw [@List.filter_cons_of_neg _ (fun e : Int => decide (e ≠ 1)) e r hp, ih,
        List.prod_cons, he, one_mul]
    · have hp : (fun e : Int => decide (e ≠ 1)) e = true := by simp [he]
      rw [@List.filter_cons_of_pos _ (fun e : Int => decide (e ≠ 1)) e r hp, List.prod_cons,
        List.prod_cons, ih]

/-- Squeeze keeps the volume of every shape but the empty one. -/
theorem Squeeze_keeps_volume (t : Tensor) (hs : t.shape_ ≠ []) :
    volume t.Squeeze.shape_ = volume t.shape_ ∧ t.Squeeze.size_ = t.size_ := by
  refine ⟨?_, rfl⟩
  unfold Tensor.Squeeze
  simp only
  by_cases he : (t.shape_.filter (fun e => e ≠ 1)).isEmpty = true
  · rw [if_pos he]
    have hnil : t.shape_.filter (fun e => e ≠ 1) = [] := List.isEmpty_iff.mp he
    rw [hnil, volume_eq_prod _ hs, ← prod_filter_ne_one, hnil]
    rfl
  · rw [if_neg he]
    have hne : t.shape_.filter (fun e => e ≠ 1) ≠ [] := fun h => he (List.isEmpty_iff.mpr h)
    rw [volume_eq_prod _ hne, volume_eq_prod _ hs, prod_filter_ne_one]

/-- The invariant holds after `Resize` (whether it returns or throws), `Reset`, the two
moves (for the destination and for the moved-from tensor) and, on a non-empty shape,
`Squeeze`. -/
theorem invariant_after_Resize_Reset_move (t src : Tensor) (S : List Int) (fresh : Int)
    (cleared_layout : DALITensorLayout) (same_object : Bool)
    (hinv : t.size_ = volume t.shape_) (hsrc : src.size_ = volume src.shape_) :
    (Stmt.run (Tensor.Resize_body S fresh) t).1.size_ =
      volume (Stmt.run (Tensor.Resize_body S fresh) t).1.shape_ ∧
    (t.Reset cleared_layout).size_ = volume (t.Reset cleared_layout).shape_ ∧
    (src.move_construct cleared_layout).1.size_ =
      volume (src.move_construct cleared_layout).1.shape_ ∧
    (src.move_construct cleared_layout).2.size_ =
      volume (src.move_construct cleared_layout).2.shape_ ∧
    (t.move_assign src same_object cleared_layout).1.size_ =
      volume (t.move_assign src same_object cleared_layout).1.shape_ ∧
    (t.move_assign src same_object cleared_layout).2.size_ =
      volume (t.move_assign src same_object cleared_layout).2.shape_ ∧
    (t.shape_ ≠ [] → t.Squeeze.size_ = volume t.Squeeze.shape_) := by
  refine ⟨?_, rfl, hsrc, rfl, ?_, ?_, ?_⟩
  · cases hr : t.Resize S fresh with
    | error msg =>
      have h2 := ((Resize_body_agrees t S fresh).2 msg).mp hr
      rw [Stmt.run_atomic (Tensor.Resize_body S fresh) t rfl (by rw [h2]; simp)]
      exact hinv
    | ok r =>
      obtain ⟨hsh, hsz, _⟩ := Resize_ok_fields t S fresh r hr
      rw [((Resize_body_agrees t S fresh).1 r).mp hr]
      show r.size_ = volume r.shape_
      rw [hsh, hsz]
  · cases same_object with
    | false => exact hsrc
    | true => exact hinv
  · cases same_object with
    | false => rfl
    | true => exact hinv
  · intro hs
    obtain ⟨hv, hz⟩ := Squeeze_keeps_volume t hs
    rw [hv, hz]; exact hinv

/-- The invariant holds after every sharing operation that succeeds (for `ShareData(t)`,
from a source that satisfies it) and for the view returned by `SubspaceTensor`. -/
theorem invariant_after_sharing (t src : Tensor) (tl : Option TensorList) (idx ptr : Int)
    (bytes : Nat) (shape new_shape : List Int) (x : Int) (r : Tensor)
    (hsrc : src.size_ = volume src.shape_)
    (h : t.ShareData_tl_idx tl idx = .ok r ∨ t.ShareData_t (some src) = .ok r ∨
      t.ShareData_ptr_shape ptr bytes shape = .ok r ∨
      t.ShareData_rawptr_shape ptr bytes shape = .ok r ∨
      t.ShareData_rawptr ptr bytes = .ok r ∨ t.ShareDataReshape tl new_shape = .ok r ∨
      t.ShareData_tl tl = .ok r ∨ src.SubspaceTensor x = .ok r) :
    r.size_ = volume r.shape_ := by
  have hraw : ∀ sh, t.ShareData_ptr_shape ptr bytes sh = .ok r → r.size_ = volume r.shape_ := by
    intro sh h
    unfold Tensor.ShareData_ptr_shape at h
    by_cases hp : ptr ≠ 0
    · simp only [if_neg (not_not.mpr hp)] at h
      cases h; rfl
    · simp only [if_pos hp] at h
      cases h
  rcases h with h | h | h | h | h | h | h | h
  · cases tl with
    | none => cases h
    | some l =>
      unfold Tensor.ShareData_tl_idx at h
      by_cases h1 : IsValidType l.type = true
      · by_cases h2 : idx ≥ 0
        · by_cases h3 : idx.toNat < l.ntensor
          · simp only [if_neg (not_not.mpr h1), if_neg (not_not.mpr h2),
              if_neg (not_not.mpr h3)] at h
            cases h; rfl
          · simp only [if_neg (not_not.mpr h1), if_neg (not_not.mpr h2), if_pos h3] at h
            cases h
        · simp only [if_neg (not_not.mpr h1), if_pos h2] at h
          cases h
      · simp only [if_pos h1] at h
        cases h
  · unfold Tensor.ShareData_t at h
    by_cases h1 : IsValidType src.type = true
    · simp only [if_neg (not_not.mpr h1)] at h
      cases h
      exact hsrc
    · simp only [if_pos h1] at h
      cases h
  · exact hraw shape h
  · exact hraw shape h
  · exact hraw [] h
  · cases tl with
    | none => cases h
    | some l =>
      unfold Tensor.ShareDataReshape at h
      by_cases h1 : l.ntensor > 0
      · by_cases h2 : IsValidType l.type = true
        · by_cases h3 : l.IsContinuousTensor = true
          · by_cases h4 : l.num_elements = volume new_shape
            · simp only [if_neg (not_not.mpr h1), if_neg (not_not.mpr h2),
                if_neg (not_not.mpr h3), if_neg (not_not.mpr h4)] at h
              cases h; rfl
            · simp only [if_neg (not_not.mpr h1), if_neg (not_not.mpr h2),
                if_neg (not_not.mpr h3), if_pos h4] at h
              cases h
          · simp only [if_neg (not_not.mpr h1), if_neg (not_not.mpr h2), if_pos h3] at h
            cases h
        · simp only [if_neg (not_not.mpr h1), if_pos h2] at h
          cases h
      · simp only [if_pos h1] at h
        cases h
  · cases tl with
    | none => cases h
    | some l =>
      unfold Tensor.ShareData_tl at h
      by_cases h1 : l.ntensor > 0
      · by_cases h2 : IsValidType l.type = true
        · by_cases h3 : l.IsDenseTensor = true
          · simp only [if_neg (not_not.mpr h1), if_neg (not_not.mpr h2),
              if_neg (not_not.mpr h3)] at h
            cases h; rfl
          · simp only [if_neg (not_not.mpr h1), if_neg (not_not.mpr h2), if_pos h3] at h
            cases h
        · simp only [if_neg (not_not.mpr h1), if_pos h2] at h
          cases h
      · simp only [if_pos h1] at h
        cases h
  · unfold Tensor.SubspaceTensor at h
    by_cases h1 : src.ndim > 1
    · by_cases h2 : 0 ≤ x ∧ x < src.dim 0
      · simp only [if_neg (not_not.mpr h1), if_neg (not_not.mpr h2)] at h
        cases h
        show Int.tdiv src.size_ (src.shape_.getD 0 0) =
          volume (TensorShape.last src.shape_ (src.ndim - 1))
        cases hsh : src.shape_ with
        | nil => simp [Tensor.ndim, hsh] at h1
        | cons d0 rest =>
          cases rest with
          | nil => simp [Tensor.ndim, hsh] at h1
          | cons d1 ds =>
            have hd0 : d0 ≠ 0 := by
              have : src.dim 0 = d0 := by simp [Tensor.dim, hsh]
              rw [this] at h2
              omega
            rw [hsrc, hsh, Tensor.ndim, hsh, last_tail, volume_cons_cons]
            simp only [List.getD_cons_zero]
            exact Int.mul_tdiv_cancel_left _ hd0
      · simp only [if_neg (not_not.mpr h1), if_pos h2] at h
        cases h
    · simp only [if_pos h1] at h
      cases h

/-- The invariant holds after `Copy(other, stream)` and `Copy(data, stream)` whether they
return or throw, and after `Copy(tl, idx, stream)` when it returns. -/
theorem invariant_after_Copy (t A : Tensor) (tl : TensorList) (idx : Int) (T : TypeInfo)
    (data_ptr : Int) (data_size : Nat) (mem : Memory) (fresh1 fresh2 : Int)
    (hinv : t.size_ = volume t.shape_) :
    (t.Copy A mem fresh1 fresh2).1.state.size_ =
      volume (t.Copy A mem fresh1 fresh2).1.state.shape_ ∧
    (t.Copy_vector T data_ptr data_size mem fresh1 fresh2).1.state.size_ =
      volume (t.Copy_vector T data_ptr data_size mem fresh1 fresh2).1.state.shape_ ∧
    ((t.Copy_tl_idx tl idx mem fresh1 fresh2).1.error = none →
      (t.Copy_tl_idx tl idx mem fresh1 fresh2).1.state.size_ =
        volume (t.Copy_tl_idx tl idx mem fresh1 fresh2).1.state.shape_) := by
  refine ⟨?_, ?_, ?_⟩
  · unfold Tensor.Copy
    cases hst : t.set_type A.type fresh1 with
    | error msg => exact hinv
    | ok t1 =>
      obtain ⟨_, hsh1, hsz1, _, _⟩ := set_type_ok_fields t A.type fresh1 t1 hst
      simp only
      cases hrs : Tensor.ResizeLike
          (((t1.SetLayout A.GetLayout).SetSourceInfo A.GetSourceInfo).SetSkipSample
            A.ShouldSkipSample) A fresh2 with
      | error msg =>
        show t1.size_ = volume t1.shape_
        rw [hsh1, hsz1]; exact hinv
      | ok t2 =>
        obtain ⟨hsh, hsz, _⟩ := Resize_ok_fields _ A.shape fresh2 t2 hrs
        show t2.size_ = volume t2.shape_
        rw [hsh, hsz]
  · unfold Tensor.Copy_vector
    cases hst : t.set_type T fresh1 with
    | error msg => exact hinv
    | ok t1 =>
      obtain ⟨_, hsh1, hsz1, _, _⟩ := set_type_ok_fields t T fresh1 t1 hst
      simp only
      cases hrs : t1.Resize [(data_size : Int)] fresh2 with
      | error msg =>
        show t1.size_ = volume t1.shape_
        rw [hsh1, hsz1]; exact hinv
      | ok t2 =>
        obtain ⟨hsh, hsz, _⟩ := Resize_ok_fields _ _ fresh2 t2 hrs
        show t2.size_ = volume t2.shape_
        rw [hsh, hsz]
  · unfold Tensor.Copy_tl_idx
    simp only
    cases hst : Tensor.set_type
        { t with shape_ := tl.tensor_shape idx, device_ := tl.device_id } tl.type fresh1 with
    | error msg => intro h; cases h
    | ok t1 =>
      simp only
      cases hrs : Tensor.Resize
          (((t1.SetLayout tl.GetLayout).SetSourceInfo (tl.GetSourceInfo idx)).SetSkipSample
            (tl.ShouldSkipSample idx))
          (((t1.SetLayout tl.GetLayout).SetSourceInfo (tl.GetSourceInfo idx)).SetSkipSample
            (tl.ShouldSkipSample idx)).shape_ fresh2 with
      | error msg => intro h; cases h
      | ok t2 =>
        intro _
        obtain ⟨hsh, hsz, _⟩ := Resize_ok_fields _ _ fresh2 t2 hrs
        show t2.size_ = volume t2.shape_
        rw [hsh, hsz]

/-! ## BoxEncoder: construction -/

/-- C17: the constructor of `BoxEncoder` succeeds exactly when `0 <= criteria <= 1`, the
length of `anchors` is divisible by 4, `means` has exactly 4 values, `stds` has exactly 4
values and no value of `stds` equals 0; for every other configuration it fails. -/
theorem BoxEncoder_construction_iff (spec : BoxEncoderSpec) :
    ((∃ op, BoxEncoder.BoxEncoder spec = .ok op) ↔
      (F32.le F32.zero spec.criteria = true ∧ F32.le spec.criteria F32.one = true ∧
        spec.anchors.length % 4 = 0 ∧ spec.means.length = 4 ∧ spec.stds.length = 4 ∧
        ∀ v ∈ spec.stds, F32.eq v F32.zero = false)) ∧
    ((∃ msg, BoxEncoder.BoxEncoder spec = .error msg) ↔
      ¬ (F32.le F32.zero spec.criteria = true ∧ F32.le spec.criteria F32.one = true ∧
        spec.anchors.length % 4 = 0 ∧ spec.means.length = 4 ∧ spec.stds.length = 4 ∧
        ∀ v ∈ spec.stds, F32.eq v F32.zero = false)) := by
  have hfind : spec.stds.find? (fun v => F32.eq v F32.zero) = none ↔
      ∀ v ∈ spec.stds, F32.eq v F32.zero = false := by
    rw [List.find?_eq_none]
    constructor
    · intro h v hv; simpa using h v hv
    · intro h v hv; simpa using h v hv
  unfold BoxEncoder.BoxEncoder
  simp only [F32.ge, BoundingBox.kSize]
  by_cases h1 : F32.le F32.zero spec.criteria = true
  · by_cases h2 : F32.le spec.criteria F32.one = true
    · by_cases h3 : spec.anchors.length % 4 = 0
      · by_cases h4 : spec.means.length = 4
        · by_cases h5 : spec.stds.length = 4
          · by_cases h6 : spec.stds.find? (fun v => F32.eq v F32.zero) = none
            · simp only [if_neg (not_not.mpr h1), if_neg (not_not.mpr h2),
                if_neg (not_not.mpr h3), if_neg (not_not.mpr h4), if_neg (not_not.mpr h5),
                if_neg (not_not.mpr h6)]
              have hall := hfind.mp h6
              refine ⟨⟨fun _ => ⟨h1, h2, h3, h4, h5, hall⟩, fun _ => ⟨_, rfl⟩⟩, ⟨?_, ?_⟩⟩
              · rintro ⟨msg, h⟩; cases h
              · intro h; exact absurd ⟨h1, h2, h3, h4, h5, hall⟩ h
            · simp only [if_neg (not_not.mpr h1), if_neg (not_not.mpr h2),
                if_neg (not_not.mpr h3), if_neg (not_not.mpr h4), if_neg (not_not.mpr h5),
                if_pos h6]
              refine ⟨⟨?_, fun h => absurd (hfind.mpr h.2.2.2.2.2) h6⟩,
                ⟨fun _ h => h6 (hfind.mpr h.2.2.2.2.2), fun _ => ⟨_, rfl⟩⟩⟩
              rintro ⟨op, h⟩; cases h
          · simp only [if_neg (not_not.mpr h1), if_neg (not_not.mpr h2),
              if_neg (not_not.mpr h3), if_neg (not_not.mpr h4), if_pos h5]
            refine ⟨⟨?_, fun h => absurd h.2.2.2.2.1 h5⟩,
              ⟨fun _ h => h5 h.2.2.2.2.1, fun _ => ⟨_, rfl⟩⟩⟩
            rintro ⟨op, h⟩; cases h
        · simp only [if_neg (not_not.mpr h1), if_neg (not_not.mpr h2),
            if_neg (not_not.mpr h3), if_pos h4]
          refine ⟨⟨?_, fun h => absurd h.2.2.2.1 h4⟩,
            ⟨fun _ h => h4 h.2.2.2.1, fun _ => ⟨_, rfl⟩⟩⟩
          rintro ⟨op, h⟩; cases h
      · simp only [if_neg (not_not.mpr h1), if_neg (not_not.mpr h2), if_pos h3]
        refine ⟨⟨?_, fun h => absurd h.2.2.1 h3⟩, ⟨fun _ h => h3 h.2.2.1, fun _ => ⟨_, rfl⟩⟩⟩
        rintro ⟨op, h⟩; cases h
    · simp only [if_neg (not_not.mpr h1), if_pos h2]
      refine ⟨⟨?_, fun h => absurd h.2.1 h2⟩, ⟨fun _ h => h2 h.2.1, fun _ => ⟨_, rfl⟩⟩⟩
      rintro ⟨op, h⟩; cases h
  · simp only [if_pos h1]
    refine ⟨⟨?_, fun h => absurd h.1 h1⟩, ⟨fun _ h => h1 h.1, fun _ => ⟨_, rfl⟩⟩⟩
    rintro ⟨op, h⟩; cases h

/-! ## Box: intersection -/

theorem any_coord_iff {ndims : Nat} (v : Fin ndims → Bool) :
    any_coord v = true ↔ ∃ i, v i = true := by
  simp [any_coord, List.any_eq_true]

theorem contains_point_iff {ndims : Nat} {α : Type} [LinearOrder α] (b : Box ndims α)
    (p : Fin ndims → α) :
    b.contains_point p = true ↔ ∀ i, b.lo i ≤ p i ∧ p i < b.hi i := by
  simp [Box.contains_point, List.all_eq_true]

/-- C20: over a linearly ordered coordinate type, `intersection(a, b)` is the box with
`lo = max(a.lo, b.lo)` and `hi = min(a.hi, b.hi)`, coordinate by coordinate, when that box
has `hi > lo` in every coordinate, and it is the default box, all zero, in every other
case; the other case is the one where `a` and `b` are disjoint: no point lies in both. -/
theorem intersection_spec {ndims : Nat} {α : Type} [LinearOrder α] [Zero α]
    (a b : Box ndims α) :
    ((∀ i, min (a.hi i) (b.hi i) > max (a.lo i) (b.lo i)) →
      intersection a b =
        { lo := fun i => max (a.lo i) (b.lo i), hi := fun i => min (a.hi i) (b.hi i) }) ∧
    ((¬ ∃ p, a.contains_point p = true ∧ b.contains_point p = true) →
      intersection a b = { lo := fun _ => 0, hi := fun _ => 0 }) ∧
    ((¬ ∃ p, a.contains_point p = true ∧ b.contains_point p = true) ↔
      ¬ ∀ i, min (a.hi i) (b.hi i) > max (a.lo i) (b.lo i)) := by
  have hdisj : (¬ ∃ p, a.contains_point p = true ∧ b.contains_point p = true) ↔
      ¬ ∀ i, min (a.hi i) (b.hi i) > max (a.lo i) (b.lo i) := by
    rw [not_iff_not]
    constructor
    · rintro ⟨p, ha, hb⟩ i
      have ha := (contains_point_iff a p).mp ha i
      have hb := (contains_point_iff b p).mp hb i
      exact lt_of_le_of_lt (max_le ha.1 hb.1) (lt_min ha.2 hb.2)
    · intro h
      refine ⟨fun i => max (a.lo i) (b.lo i), ?_, ?_⟩
      · rw [contains_point_iff]
        intro i
        exact ⟨le_max_left _ _, lt_of_lt_of_le (h i) (min_le_left _ _)⟩
      · rw [contains_point_iff]
        intro i
        exact ⟨le_max_right _ _, lt_of_lt_of_le (h i) (min_le_right _ _)⟩
  have hany : any_coord (fun i => decide (min (a.hi i) (b.hi i) ≤ max (a.lo i) (b.lo i)))
      = true ↔ ¬ ∀ i, min (a.hi i) (b.hi i) > max (a.lo i) (b.lo i) := by
    rw [any_coord_iff]
    simp only [decide_eq_true_eq, not_forall, gt_iff_lt, not_lt]
  refine ⟨?_, ?_, hdisj⟩
  · intro h
    unfold intersection
    simp only
    rw [if_neg (fun hc => (hany.mp hc) h)]
  · intro h
    unfold intersection
    simp only
    rw [if_pos (hany.mpr (hdisj.mp h))]
    rfl

/-- Witness for C20: `[0, 4) x [0, 4)` and `[2, 6) x [1, 3)` meet in `[2, 4) x [1, 3)`;
`[0, 4) x [0, 4)` and `[4, 6) x [1, 3)` are disjoint. -/
theorem intersection_spec_witness :
    intersection (Sample.box2 0 0 4 4) (Sample.box2 2 1 6 3) =
      { lo := fun i => max ((Sample.box2 0 0 4 4).lo i) ((Sample.box2 2 1 6 3).lo i),
        hi := fun i => min ((Sample.box2 0 0 4 4).hi i) ((Sample.box2 2 1 6 3).hi i) } ∧
    intersection (Sample.box2 0 0 4 4) (Sample.box2 4 1 6 3) =
      { lo := fun _ => 0, hi := fun _ => 0 } :=
  ⟨(intersection_spec (Sample.box2 0 0 4 4) (Sample.box2 2 1 6 3)).1 (by decide),
   (intersection_spec (Sample.box2 0 0 4 4) (Sample.box2 4 1 6 3)).2.1
     ((intersection_spec (Sample.box2 0 0 4 4) (Sample.box2 4 1 6 3)).2.2.mpr (by decide))⟩

/-! ## DiceRoll -/

/-- On a tensor that is not a shared view `Resize` succeeds, and the result is not a shared
view either. -/
theorem Resize_unshared (t : Tensor) (S : List Int) (fresh : Int)
    (h : t.shares_data_ = false) :
    ∃ r, t.Resize S fresh = .ok r ∧ r.shape_ = S ∧ r.size_ = volume S ∧
      r.shares_data_ = false := by
  have hs : ¬ (t.shares_data_ = true ∧
      ¬ (volume S * (t.type_.size : Int) = t.num_bytes_)) := by
    rw [h]; simp
  unfold Tensor.Resize Tensor.ResizeHelper
  by_cases hg : volume S * (t.type_.size : Int) > t.num_bytes_
  · simp only [if_neg hs, if_pos hg]
    exact ⟨_, rfl, rfl, rfl, rfl⟩
  · simp only [if_neg hs, if_neg hg]
    exact ⟨_, rfl, rfl, rfl, h⟩

/-- On a tensor that is not a shared view `set_type` succeeds and keeps shape and size. -/
theorem set_type_unshared (t : Tensor) (ty : TypeInfo) (fresh : Int)
    (h : t.shares_data_ = false) :
    ∃ r, t.set_type ty fresh = .ok r ∧ r.shape_ = t.shape_ ∧ r.size_ = t.size_ ∧
      r.type_ = ty := by
  have hs : ¬ (t.shares_data_ = true ∧
      ¬ (t.size_ * (ty.size : Int) = t.num_bytes_)) := by
    rw [h]; simp
  unfold Tensor.set_type
  by_cases hg : t.size_ * (ty.size : Int) > t.num_bytes_
  · simp only [if_neg hs, if_pos hg]
    exact ⟨_, rfl, rfl, rfl, rfl⟩
  · simp only [if_neg hs, if_neg hg]
    exact ⟨_, rfl, rfl, rfl, rfl⟩

/-- With `batch_wise_` set, the iterations after the first draw nothing: they write the
value of the face that is carried along and leave the engine as it is. -/
theorem RunImpl_loop_batch_wise (draw : List F32 → Int → Nat → Int) (op : DiceRoll)
    (hbw : op.batch_wise_ = true) (n : Nat) (i face : Int) (rng : Engine) (hi : 0 < i)
    (value : F32) (hv : DiceRoll.read op.values_ face = some value) :
    DiceRoll.RunImpl_loop draw op n i face rng = some (List.replicate n value, rng) := by
  induction n generalizing i with
  | zero => rfl
  | succ n ih =>
    have hne : (i == 0) = false := by
      simp only [beq_eq_false_iff_ne, ne_eq]; omega
    simp only [DiceRoll.RunImpl_loop, hbw, hne, Bool.not_true, Bool.or_self,
      Bool.false_eq_true, if_false, hv]
    rw [ih (i + 1) (by omega)]
    rfl

/-- The first iteration draws, whatever `batch_wise_` is; when the face drawn is not an
index into `values_`, the loop has no result. -/
theorem RunImpl_loop_first_read_outside (draw : List F32 → Int → Nat → Int) (op : DiceRoll)
    (n : Nat) (face : Int) (rng : Engine)
    (hv : DiceRoll.read op.values_ (draw op.dis_ rng.seed rng.calls) = none) :
    DiceRoll.RunImpl_loop draw op (n + 1) 0 face rng = none := by
  simp only [DiceRoll.RunImpl_loop, beq_self_eq_true, Bool.or_true, if_true, DiceRoll.sample,
    hv]

/-- What `RunImpl` does on an output tensor that is not a shared view: it does not throw;
it resizes the output to `(batch_size_)`, and returns the values written by the loop and the
engine after the loop, unless the loop reads outside `values_`. -/
theorem RunImpl_unshared (op : DiceRoll) (draw : List F32 → Int → Nat → Int)
    (output : Tensor) (fresh1 fresh2 : Int) (hout : output.shares_data_ = false) :
    ∃ out, out.shape_ = [op.batch_size_] ∧ out.size_ = op.batch_size_ ∧
      op.RunImpl draw output fresh1 fresh2 =
        match DiceRoll.RunImpl_loop draw op op.batch_size_.toNat 0 0 op.rng_ with
        | none => Ending.undefined
        | some r => Ending.returns (out, r.1, { op with rng_ := r.2 }) := by
  obtain ⟨r1, h1, hsh1, hsz1, hun1⟩ := Resize_unshared output [op.batch_size_] fresh1 hout
  obtain ⟨r2, h2, hsh2, hsz2, _⟩ := set_type_unshared r1 DiceRoll.float_type fresh2 hun1
  refine ⟨r2, by rw [hsh2, hsh1], by rw [hsz2, hsz1]; rfl, ?_⟩
  unfold DiceRoll.RunImpl
  rw [h1]
  simp only
  rw [h2]

/-- With `batch_wise_` set and a drawn face that is an index into `values_`, one `Run` (on
an output tensor that is not a shared view) resizes the output to `(batch_size_)` and
writes `batch_size_` values that are all the value of the face of the single draw. -/
theorem RunImpl_batch_wise_identical (op : DiceRoll) (draw : List F32 → Int → Nat → Int)
    (output : Tensor) (fresh1 fresh2 : Int) (hbw : op.batch_wise_ = true)
    (hout : output.shares_data_ = false) (value : F32)
    (hv : DiceRoll.read op.values_ (draw op.dis_ op.rng_.seed op.rng_.calls) = some value) :
    ∃ out op1, op.RunImpl draw output fresh1 fresh2 =
        .returns (out, List.replicate op.batch_size_.toNat value, op1) ∧
      out.shape_ = [op.batch_size_] := by
  obtain ⟨out, hsh, _, hrun⟩ := RunImpl_unshared op draw output fresh1 fresh2 hout
  have hloop : ∀ n : Nat, ∃ rng, DiceRoll.RunImpl_loop draw op n 0 0 op.rng_ =
      some (List.replicate n value, rng) := by
    intro n
    cases n with
    | zero => exact ⟨_, rfl⟩
    | succ n =>
      simp only [DiceRoll.RunImpl_loop, hbw, Bool.not_true, Bool.false_or, beq_self_eq_true,
        if_true, DiceRoll.sample, hv]
      rw [RunImpl_loop_batch_wise draw op hbw n (0 + 1) _ _ (by omega) value hv]
      exact ⟨_, rfl⟩
  obtain ⟨rng, hl⟩ := hloop op.batch_size_.toNat
  rw [hl] at hrun
  exact ⟨out, _, hrun, hsh⟩

/-- A batch of 5 with two faces, the second one drawn: five times the value 2. -/
theorem RunImpl_batch_wise_identical_example :
    ∃ out op1, DiceRoll.RunImpl
        (DiceRoll.DiceRoll { seed := 7, face_values := [F32.fin 1, F32.fin 2],
                             face_probs := [], batch_wise := true, batch_size := 5 })
        Sample.last_face Tensor.init 4096 8192 =
        .returns (out, List.replicate 5 (F32.fin 2), op1) ∧ out.shape_ = [5] :=
  RunImpl_batch_wise_identical
    (DiceRoll.DiceRoll { seed := 7, face_values := [F32.fin 1, F32.fin 2],
                         face_probs := [], batch_wise := true, batch_size := 5 })
    Sample.last_face Tensor.init 4096 8192 rfl rfl (F32.fin 2) rfl

/-- C18 does not hold of the code: a `DiceRoll` with `batch_wise` set and no face values
(whatever the seed, the probabilities and the distribution) does not write `batch_size`
identical values in a `Run` of a batch of at least one sample: the first iteration reads
`values_[face]` of an empty vector, and the `Run` has no defined result. -/
theorem DiceRoll_batch_wise_without_faces (draw : List F32 → Int → Nat → Int)
    (spec : DiceRollSpec) (output : Tensor) (fresh1 fresh2 : Int)
    (hb : 1 ≤ spec.batch_size) (hout : output.shares_data_ = false) :
    (DiceRoll.DiceRoll { spec with batch_wise := true, face_values := [] }).RunImpl
      draw output fresh1 fresh2 = Ending.undefined := by
  obtain ⟨out, _, _, hrun⟩ := RunImpl_unshared
    (DiceRoll.DiceRoll { spec with batch_wise := true, face_values := [] })
    draw output fresh1 fresh2 hout
  obtain ⟨n, hn⟩ : ∃ n, spec.batch_size.toNat = n + 1 := ⟨spec.batch_size.toNat - 1, by omega⟩
  have hsize : (DiceRoll.DiceRoll
      { spec with batch_wise := true, face_values := [] }).batch_size_.toNat = n + 1 := hn
  rw [hrun, hsize, RunImpl_loop_first_read_outside]
  show DiceRoll.read [] _ = none
  unfold DiceRoll.read
  split
  · rfl
  · rfl

/-- Witness for C18: the case of the spec, a batch of 5: with `batch_wise` set and no face
values the `Run` has no defined result. -/
theorem DiceRoll_batch_wise_without_faces_witness :
    DiceRoll.RunImpl
      (DiceRoll.DiceRoll { seed := 7, face_values := [], face_probs := [],
                           batch_wise := true, batch_size := 5 })
      Sample.last_face Tensor.init 4096 8192 = Ending.undefined :=
  DiceRoll_batch_wise_without_faces Sample.last_face
    { seed := 7, face_values := [], face_probs := [], batch_wise := true, batch_size := 5 }
    Tensor.init 4096 8192 (by decide) rfl

/-- C19: the drawn face is not always a valid index into `face_values`.  With no face values
and no probabilities the distribution draws face 0 and `Run` reads `values_[0]` of an empty
vector; with two face values and the probabilities `0, 0, 1` it draws face 2 and reads
`values_[2]`.  Both reads are outside the vector, and the `Run` has no defined result. -/
theorem DiceRoll_reads_outside_face_values :
    (Sample.last_face [] 7 0 = 0 ∧ DiceRoll.read [] 0 = none ∧
      DiceRoll.RunImpl
        (DiceRoll.DiceRoll { seed := 7, face_values := [], face_probs := [],
                             batch_wise := false, batch_size := 1 })
        Sample.last_face Tensor.init 4096 8192 = Ending.undefined) ∧
    (Sample.last_face [F32.fin 0, F32.fin 0, F32.fin 1] 7 0 = 2 ∧
      DiceRoll.read [F32.fin 1, F32.fin 2] 2 = none ∧
      DiceRoll.RunImpl
        (DiceRoll.DiceRoll { seed := 7, face_values := [F32.fin 1, F32.fin 2],
                             face_probs := [F32.fin 0, F32.fin 0, F32.fin 1],
                             batch_wise := false, batch_size := 1 })
        Sample.last_face Tensor.init 4096 8192 = Ending.undefined) :=
  ⟨⟨rfl, rfl, rfl⟩, ⟨rfl, rfl, rfl⟩⟩

/-! ### Where the drawn face is a valid index -/

theorem read_valid (values_ : List F32) (face : Int) (h0 : 0 ≤ face)
    (h1 : face < values_.length) : ∃ x ∈ values_, DiceRoll.read values_ face = some x := by
  have hlt : face.toNat < values_.length := by omega
  refine ⟨values_[face.toNat], List.getElem_mem hlt, ?_⟩
  unfold DiceRoll.read
  rw [if_neg (by omega), List.get?_eq_getElem?, List.getElem?_eq_getElem hlt]

/-- When every draw is a valid index into `values_` and the face carried into the loop is
one too, the loop has a result: it writes `n` values, each the value of a face. -/
theorem RunImpl_loop_valid (draw : List F32 → Int → Nat → Int) (op : DiceRoll)
    (hrange : ∀ seed k, 0 ≤ draw op.dis_ seed k ∧ draw op.dis_ seed k < op.values_.length)
    (n : Nat) (i face : Int) (rng : Engine) (hf : 0 ≤ face ∧ face < op.values_.length) :
    ∃ vals rng1, DiceRoll.RunImpl_loop draw op n i face rng = some (vals, rng1) ∧
      vals.length = n ∧ ∀ v ∈ vals, v ∈ op.values_ := by
  induction n generalizing i face rng with
  | zero => exact ⟨[], rng, rfl, rfl, fun v hv => by cases hv⟩
  | succ n ih =>
    have hface : 0 ≤ (if (!op.batch_wise_ || i == 0) = true
          then DiceRoll.sample draw op.dis_ rng else (face, rng)).1 ∧
        (if (!op.batch_wise_ || i == 0) = true
          then DiceRoll.sample draw op.dis_ rng else (face, rng)).1 < op.values_.length := by
      by_cases hc : (!op.batch_wise_ || i == 0) = true
      · rw [if_pos hc]; exact hrange _ _
      · rw [if_neg hc]; exact hf
    obtain ⟨vals, rng1, hloop, hlen, hall⟩ := ih (i + 1) _
      (if (!op.batch_wise_ || i == 0) = true
        then DiceRoll.sample draw op.dis_ rng else (face, rng)).2 hface
    obtain ⟨x, hx, hr⟩ := read_valid op.values_ _ hface.1 hface.2
    refine ⟨x :: vals, rng1, ?_, by rw [List.length_cons, hlen], ?_⟩
    · simp only [DiceRoll.RunImpl_loop, hr, hloop]
    · intro v hv
      rcases List.mem_cons.mp hv with hv | hv
      · rw [hv]; exact hx
      · exact hall v hv

/-- A configuration with at least one face value and no more probabilities than face values
makes every draw an index into `values_`, when the distribution returns indices of its
weights. -/
theorem DiceRoll_draws_in_range (spec : DiceRollSpec) (draw : List F32 → Int → Nat → Int)
    (hdraw : ∀ w seed k, 0 ≤ draw w seed k ∧ draw w seed k < max 1 w.length)
    (hvalues : spec.face_values ≠ [])
    (hprobs : spec.face_probs.length ≤ spec.face_values.length) :
    ∀ seed k, 0 ≤ draw (DiceRoll.DiceRoll spec).dis_ seed k ∧
      draw (DiceRoll.DiceRoll spec).dis_ seed k < (DiceRoll.DiceRoll spec).values_.length := by
  have hpos : 0 < spec.face_values.length := List.length_pos.mpr hvalues
  have hlen : (DiceRoll.DiceRoll spec).dis_.length ≤ spec.face_values.length := by
    unfold DiceRoll.DiceRoll
    simp only
    by_cases h : spec.face_probs.length = 0
    · rw [if_pos h]; simp
    · rw [if_neg h]; exact hprobs
  intro seed k
  have h := hdraw (DiceRoll.DiceRoll spec).dis_ seed k
  have hv : (DiceRoll.DiceRoll spec).values_.length = spec.face_values.length := rfl
  rw [hv]
  refine ⟨h.1, ?_⟩
  have := h.2
  omega

/-- For a configuration with at least one face value and with no probabilities or as many
probabilities as face values, and a distribution that returns indices of its weights, `Run`
resizes the output to `(batch_size)` and writes `batch_size` values, each the configured
value of a face. -/
theorem DiceRoll_outputs_are_face_values (spec : DiceRollSpec)
    (draw : List F32 → Int → Nat → Int) (output : Tensor) (fresh1 fresh2 : Int)
    (hdraw : ∀ w seed k, 0 ≤ draw w seed k ∧ draw w seed k < max 1 w.length)
    (hvalues : spec.face_values ≠ [])
    (hprobs : spec.face_probs = [] ∨ spec.face_probs.length = spec.face_values.length)
    (hout : output.shares_data_ = false) :
    ∃ out vals op1, (DiceRoll.DiceRoll spec).RunImpl draw output fresh1 fresh2 =
        .returns (out, vals, op1) ∧ out.shape_ = [spec.batch_size] ∧
      vals.length = spec.batch_size.toNat ∧ ∀ v ∈ vals, v ∈ spec.face_values := by
  have hpos : 0 < spec.face_values.length := List.length_pos.mpr hvalues
  have hrange := DiceRoll_draws_in_range spec draw hdraw hvalues (by
    rcases hprobs with h | h
    · rw [h]; exact Nat.zero_le _
    · exact le_of_eq h)
  obtain ⟨out, hsh, _, hrun⟩ :=
    RunImpl_unshared (DiceRoll.DiceRoll spec) draw output fresh1 fresh2 hout
  obtain ⟨vals, rng1, hloop, hl, hall⟩ := RunImpl_loop_valid draw (DiceRoll.DiceRoll spec)
    hrange (DiceRoll.DiceRoll spec).batch_size_.toNat 0 0 (DiceRoll.DiceRoll spec).rng_
    ⟨le_refl 0, by
      have hv : (DiceRoll.DiceRoll spec).values_.length = spec.face_values.length := rfl
      rw [hv]; omega⟩
  rw [hloop] at hrun
  exact ⟨out, vals, _, hrun, hsh, hl, hall⟩

/-! ## Squeeze, move, atomicity of the sharing operations -/

/-- C22: after `Squeeze()` the shape is the sequence of the extents of before that are not
1, in their order, or the shape `(1)` when no extent remains; the element count, the data
handle and every other member are unchanged. -/
theorem Squeeze_spec (t : Tensor) :
    t.Squeeze.shape_ =
      (if t.shape_.filter (fun e => e ≠ 1) = [] then [1]
        else t.shape_.filter (fun e => e ≠ 1)) ∧
    t.Squeeze.size_ = t.size_ ∧ t.Squeeze.data_ = t.data_ ∧
    t.Squeeze.num_bytes_ = t.num_bytes_ ∧ t.Squeeze.type_ = t.type_ ∧
    t.Squeeze.shares_data_ = t.shares_data_ ∧ t.Squeeze.device_ = t.device_ ∧
    t.Squeeze.meta_ = t.meta_ := by
  refine ⟨?_, rfl, rfl, rfl, rfl, rfl, rfl, rfl⟩
  unfold Tensor.Squeeze
  simp only
  by_cases he : t.shape_.filter (fun e => e ≠ 1) = []
  · rw [if_pos he, if_pos (List.isEmpty_iff.mpr he), he]
    rfl
  · rw [if_neg he, if_neg (fun h => he (List.isEmpty_iff.mp h))]

/-- What the two moves do: the destination has every member of the source; the source is
left with the empty shape, no type, no allocation, zero elements, zero bytes, not shared and
cleared metadata, and with the device it had; a move assignment to the same object changes
nothing. -/
theorem move_fields (self t : Tensor) (cleared_layout : DALITensorLayout) :
    (t.move_construct cleared_layout).1 = t ∧
    (self.move_assign t false cleared_layout).1 = t ∧
    (t.move_construct cleared_layout).2 =
      { Tensor.init with device_ := t.device_, meta_ := DALIMeta.cleared cleared_layout } ∧
    (self.move_assign t false cleared_layout).2 =
      { Tensor.init with device_ := t.device_, meta_ := DALIMeta.cleared cleared_layout } ∧
    self.move_assign self true cleared_layout = (self, self) :=
  ⟨rfl, rfl, rfl, rfl, rfl⟩

/-- C23: the moves do not set every member of the source to that of a default-constructed
tensor.  A tensor on device 0, and one on device 1, that are moved from (by construction or
by assignment) still have device 0 and device 1 afterwards; the device of a
default-constructed tensor is not set. -/
theorem move_keeps_device_of_source :
    (Sample.owner23.move_construct .DALI_NHWC).2.device_ = some 0 ∧
    (Tensor.init.move_assign Sample.owner23 false .DALI_NHWC).2.device_ = some 0 ∧
    (Tensor.move_construct { Sample.owner23 with device_ := some 1 } .DALI_NHWC).2.device_
      = some 1 ∧
    Tensor.init.device_ = none ∧
    (Sample.owner23.move_construct .DALI_NHWC).2 ≠ Tensor.init ∧
    (Tensor.init.move_assign Sample.owner23 false .DALI_NHWC).2 ≠ Tensor.init :=
  ⟨rfl, rfl, rfl, rfl, by decide, by decide⟩

/-- The statement list of `ShareData(TensorList*, int)` is the method: it returns the same
state, and it throws with the same message. -/
theorem ShareData_tl_idx_body_agrees (t : Tensor) (tl : Option TensorList) (idx : Int) :
    (∀ r, t.ShareData_tl_idx tl idx = .ok r ↔
      Stmt.run (Tensor.ShareData_tl_idx_body tl idx) t = (r, none)) ∧
    (∀ msg, t.ShareData_tl_idx tl idx = .error msg ↔
      (Stmt.run (Tensor.ShareData_tl_idx_body tl idx) t).2 = some msg) := by
  cases tl with
  | none => simp [Tensor.ShareData_tl_idx, Tensor.ShareData_tl_idx_body, Stmt.run]
  | some l =>
    simp only [Tensor.ShareData_tl_idx, Tensor.ShareData_tl_idx_body, Stmt.run]
    by_cases h1 : IsValidType l.type = true <;> by_cases h2 : idx ≥ 0 <;>
      by_cases h3 : idx.toNat < l.ntensor <;> simp [h1, h2, h3]

/-- The statement list of `ShareData(Tensor*)` is the method. -/
theorem ShareData_t_body_agrees (dst : Tensor) (src : Option Tensor) :
    (∀ r, dst.ShareData_t src = .ok r ↔
      Stmt.run (Tensor.ShareData_t_body src) dst = (r, none)) ∧
    (∀ msg, dst.ShareData_t src = .error msg ↔
      (Stmt.run (Tensor.ShareData_t_body src) dst).2 = some msg) := by
  cases src with
  | none => simp [Tensor.ShareData_t, Tensor.ShareData_t_body, Stmt.run]
  | some s =>
    simp only [Tensor.ShareData_t, Tensor.ShareData_t_body, Stmt.run]
    by_cases h1 : IsValidType s.type = true <;> simp [h1]

/-- The statement list of `ShareData(ptr, bytes, shape)` is the method, for both pointer
overloads and for the overload without a shape. -/
theorem ShareData_ptr_shape_body_agrees (t : Tensor) (ptr : Int) (bytes : Nat)
    (shape : List Int) :
    (∀ r, t.ShareData_ptr_shape ptr bytes shape = .ok r ↔
      Stmt.run (Tensor.ShareData_ptr_shape_body ptr bytes shape) t = (r, none)) ∧
    (∀ msg, t.ShareData_ptr_shape ptr bytes shape = .error msg ↔
      (Stmt.run (Tensor.ShareData_ptr_shape_body ptr bytes shape) t).2 = some msg) := by
  simp only [Tensor.ShareData_ptr_shape, Tensor.ShareData_ptr_shape_body, Stmt.run]
  by_cases h1 : ptr = 0 <;> simp [h1]

/-- The statement list of `ShareDataReshape` is the method. -/
theorem ShareDataReshape_body_agrees (t : Tensor) (tl : Option TensorList)
    (new_shape : List Int) :
    (∀ r, t.ShareDataReshape tl new_shape = .ok r ↔
      Stmt.run (Tensor.ShareDataReshape_body tl new_shape) t = (r, none)) ∧
    (∀ msg, t.ShareDataReshape tl new_shape = .error msg ↔
      (Stmt.run (Tensor.ShareDataReshape_body tl new_shape) t).2 = some msg) := by
  cases tl with
  | none => simp [Tensor.ShareDataReshape, Tensor.ShareDataReshape_body, Stmt.run]
  | some l =>
    simp only [Tensor.ShareDataReshape, Tensor.ShareDataReshape_body, Stmt.run]
    by_cases h1 : l.ntensor > 0 <;> by_cases h2 : IsValidType l.type = true <;>
      by_cases h3 : l.IsContinuousTensor = true <;>
      by_cases h4 : l.num_elements = volume new_shape <;> simp [h1, h2, h3, h4]

/-- The statement list of `ShareData(TensorList*)` is the method. -/
theorem ShareData_tl_body_agrees (t : Tensor) (tl : Option TensorList) :
    (∀ r, t.ShareData_tl tl = .ok r ↔ Stmt.run (Tensor.ShareData_tl_body tl) t = (r, none)) ∧
    (∀ msg, t.ShareData_tl tl = .error msg ↔
      (Stmt.run (Tensor.ShareData_tl_body tl) t).2 = some msg) := by
  cases tl with
  | none => simp [Tensor.ShareData_tl, Tensor.ShareData_tl_body, Stmt.run]
  | some l =>
    simp only [Tensor.ShareData_tl, Tensor.ShareData_tl_body, Stmt.run]
    by_cases h1 : l.ntensor > 0 <;> by_cases h2 : IsValidType l.type = true <;>
      by_cases h3 : l.IsDenseTensor = true <;> simp [h1, h2, h3]

/-- The statement list of `SubspaceTensor` is the method: the local `view` is what the
method returns, whatever the storage of `view` held before its declaration. -/
theorem SubspaceTensor_body_agrees (t view0 : Tensor) (x : Int) :
    (∀ r, t.SubspaceTensor x = .ok r ↔
      (Stmt.run (Tensor.SubspaceTensor_body x) (t, view0)).2 = none ∧
      (Stmt.run (Tensor.SubspaceTensor_body x) (t, view0)).1.2 = r) ∧
    (∀ msg, t.SubspaceTensor x = .error msg ↔
      (Stmt.run (Tensor.SubspaceTensor_body x) (t, view0)).2 = some msg) := by
  simp only [Tensor.SubspaceTensor, Tensor.SubspaceTensor_body, Stmt.run]
  by_cases h1 : t.ndim > 1 <;> by_cases h2 : 0 ≤ x ∧ x < t.dim 0 <;> simp [h1, h2]

/-- C25: a sharing operation that throws leaves the tensor as it was before the call, every
member included: whenever `ShareData` (any overload) or `ShareDataReshape` throws, the run
of its statements ends with `*this` unchanged; and the run of the statements of
`SubspaceTensor` ends with the source unchanged, whether it throws or returns a view. -/
theorem sharing_atomic_on_failure (t view0 : Tensor) (src : Option Tensor)
    (tl : Option TensorList) (idx ptr : Int) (bytes : Nat) (shape new_shape : List Int)
    (x : Int) :
    (∀ msg, t.ShareData_tl_idx tl idx = .error msg →
      Stmt.run (Tensor.ShareData_tl_idx_body tl idx) t = (t, some msg)) ∧
    (∀ msg, t.ShareData_t src = .error msg →
      Stmt.run (Tensor.ShareData_t_body src) t = (t, some msg)) ∧
    (∀ msg, t.ShareData_ptr_shape ptr bytes shape = .error msg →
      Stmt.run (Tensor.ShareData_ptr_shape_body ptr bytes shape) t = (t, some msg)) ∧
    (∀ msg, t.ShareData_rawptr_shape ptr bytes shape = .error msg →
      Stmt.run (Tensor.ShareData_rawptr_shape_body ptr bytes shape) t = (t, some msg)) ∧
    (∀ msg, t.ShareData_rawptr ptr bytes = .error msg →
      Stmt.run (Tensor.ShareData_rawptr_body ptr bytes) t = (t, some msg)) ∧
    (∀ msg, t.ShareDataReshape tl new_shape = .error msg →
      Stmt.run (Tensor.ShareDataReshape_body tl new_shape) t = (t, some msg)) ∧
    (∀ msg, t.ShareData_tl tl = .error msg →
      Stmt.run (Tensor.ShareData_tl_body tl) t = (t, some msg)) ∧
    (Stmt.run (Tensor.SubspaceTensor_body x) (t, view0)).1.1 = t := by
  have key : ∀ (l : List (Stmt Tensor)) (msg : String), Stmt.checks_first l = true →
      (Stmt.run l t).2 = some msg → Stmt.run l t = (t, some msg) := by
    intro l msg hl h
    have h1 : (Stmt.run l t).1 = t := Stmt.run_atomic l t hl (by rw [h]; simp)
    exact Prod.ext h1 h
  have hptr : ∀ sh : List Int,
      Stmt.checks_first (Tensor.ShareData_ptr_shape_body ptr bytes sh) = true := fun _ => rfl
  refine ⟨?_, ?_, ?_, ?_, ?_, ?_, ?_, ?_⟩
  · intro msg h
    refine key _ msg ?_ (((ShareData_tl_idx_body_agrees t tl idx).2 msg).mp h)
    cases tl <;> rfl
  · intro msg h
    refine key _ msg ?_ (((ShareData_t_body_agrees t src).2 msg).mp h)
    cases src <;> rfl
  · intro msg h
    exact key _ msg (hptr shape) (((ShareData_ptr_shape_body_agrees t ptr bytes shape).2 msg).mp h)
  · intro msg h
    exact key _ msg (hptr shape) (((ShareData_ptr_shape_body_agrees t ptr bytes shape).2 msg).mp h)
  · intro msg h
    exact key _ msg (hptr []) (((ShareData_ptr_shape_body_agrees t ptr bytes []).2 msg).mp h)
  · intro msg h
    refine key _ msg ?_ (((ShareDataReshape_body_agrees t tl new_shape).2 msg).mp h)
    cases tl <;> rfl
  · intro msg h
    refine key _ msg ?_ (((ShareData_tl_body_agrees t tl).2 msg).mp h)
    cases tl <;> rfl
  · refine Stmt.run_keeps_first _ (t, view0) ?_
    intro a ha
    simp only [Tensor.SubspaceTensor_body, List.mem_cons, List.mem_singleton,
      List.not_mem_nil, or_false] at ha
    rcases ha with h | h | h | h | h | h | h | h | h | h <;> subst h <;>
      first
        | trivial
        | exact fun _ => rfl

/-- Witness for C25: the 2 x 3 view asked to share sample 7 of a list of one sample, to wrap
a null pointer and to share a null tensor: every call throws and the view is as before;
`SubspaceTensor(5)` throws and `SubspaceTensor(1)` returns a view, the source as before. -/
theorem sharing_atomic_on_failure_witness :
    Sample.view23.ShareData_tl_idx (some Sample.list5) 7 =
      .error "Index out of range for TensorList" ∧
    Stmt.run (Tensor.ShareData_tl_idx_body (some Sample.list5) 7) Sample.view23 =
      (Sample.view23, some "Index out of range for TensorList") ∧
    Stmt.run (Tensor.ShareData_ptr_shape_body 0 16 [4]) Sample.view23 =
      (Sample.view23, some "Input pointer must not be nullptr.") ∧
    Stmt.run (Tensor.ShareData_t_body none) Sample.view23 =
      (Sample.view23, some "Input Tensor is nullptr") ∧
    (Stmt.run (Tensor.SubspaceTensor_body 5) (Sample.view23, Tensor.init)).1.1 =
      Sample.view23 :=
  ⟨rfl,
   (sharing_atomic_on_failure Sample.view23 Tensor.init none (some Sample.list5) 7 0 16 [4]
      [] 5).1 _ rfl,
   (sharing_atomic_on_failure Sample.view23 Tensor.init none (some Sample.list5) 7 0 16 [4]
      [] 5).2.2.1 _ rfl,
   (sharing_atomic_on_failure Sample.view23 Tensor.init none (some Sample.list5) 7 0 16 [4]
      [] 5).2.1 _ rfl,
   (sharing_atomic_on_failure Sample.view23 Tensor.init none (some Sample.list5) 7 0 16 [4]
      [] 5).2.2.2.2.2.2.2⟩

/-- The same run on a method that assigns before it calls: `Copy(const TensorList&, int)`
(tensor.h:109-120) throws on the 2 x 3 view and leaves it with another shape. -/
theorem Copy_tl_idx_not_atomic :
    (Sample.view23.Copy_tl_idx Sample.list5 0 Sample.ramp 12288 16384).1.error ≠ none ∧
    (Sample.view23.Copy_tl_idx Sample.list5 0 Sample.ramp 12288 16384).1.state.shape_ = [5] ∧
    Sample.view23.shape_ = [2, 3] := by
  refine ⟨?_, rfl, rfl⟩
  intro h
  cases h

/-! ## The views of SubspaceTensor tile the data of the parent -/

theorem volume_nonneg (s : List Int) (h : ∀ e ∈ s, 0 ≤ e) : 0 ≤ volume s := by
  cases s with
  | nil => exact le_refl 0
  | cons d ds =>
    rw [volume_eq_prod _ (List.cons_ne_nil d ds)]
    exact List.prod_nonneg h

/-- C24: for a tensor of shape `(d0, d1, ..., dn)` with non-negative extents that satisfies
`size_ == volume(shape_)` and `num_bytes_ >= size_ * type_.size()`, with
`nb = type_.size() * volume(d1..dn)`: for every accepted `x` the divisor `shape_[0]` is not
0 and `SubspaceTensor(x)` returns a view of `nb` bytes that starts `x * nb` bytes into the
data, and the range `[x * nb, (x + 1) * nb)` lies inside the footprint of the parent; the
ranges of two different `x` do not meet; the `d0` ranges have `size_ * type_.size()` bytes
together, and every byte offset below that lies in the range of some `x`. -/
theorem SubspaceTensor_views_tile (t : Tensor) (d0 d1 : Int) (ds : List Int)
    (hshape : t.shape_ = d0 :: d1 :: ds) (hnn : ∀ e ∈ t.shape_, 0 ≤ e)
    (hinv : t.size_ = volume t.shape_) (hcap : t.num_bytes_ ≥ t.size_ * t.type_.size) :
    (∀ x : Int, 0 ≤ x → x < t.dim 0 →
      t.shape_.getD 0 0 ≠ 0 ∧
      ∃ view, t.SubspaceTensor x = .ok view ∧
        view.num_bytes_ = t.type_.size * volume (d1 :: ds) ∧
        view.data_ = t.data_ + x * (t.type_.size * volume (d1 :: ds)) ∧
        0 ≤ x * (t.type_.size * volume (d1 :: ds)) ∧
        (x + 1) * (t.type_.size * volume (d1 :: ds)) ≤ t.num_bytes_) ∧
    (∀ x y : Int, 0 ≤ x → x < y →
      (x + 1) * (t.type_.size * volume (d1 :: ds)) ≤ y * (t.type_.size * volume (d1 :: ds))) ∧
    d0 * (t.type_.size * volume (d1 :: ds)) = t.size_ * t.type_.size ∧
    (∀ o : Int, 0 ≤ o → o < t.size_ * t.type_.size →
      ∃ x : Int, 0 ≤ x ∧ x < d0 ∧ x * (t.type_.size * volume (d1 :: ds)) ≤ o ∧
        o < (x + 1) * (t.type_.size * volume (d1 :: ds))) := by
  have hV : 0 ≤ volume (d1 :: ds) := by
    apply volume_nonneg
    intro e he
    exact hnn e (by rw [hshape]; exact List.mem_cons_of_mem d0 he)
  have hsz : (0 : Int) ≤ (t.type_.size : Int) := Int.ofNat_nonneg _
  have hnb : 0 ≤ (t.type_.size : Int) * volume (d1 :: ds) := mul_nonneg hsz hV
  have htotal : d0 * ((t.type_.size : Int) * volume (d1 :: ds)) = t.size_ * t.type_.size := by
    rw [hinv, hshape, volume_cons_cons]; ring
  have hdim : t.dim 0 = d0 := by simp [Tensor.dim, hshape]
  have hget : t.shape_.getD 0 0 = d0 := by simp [hshape]
  have hnd : t.ndim > 1 := by
    simp only [Tensor.ndim, hshape, List.length_cons]; omega
  refine ⟨?_, ?_, htotal, ?_⟩
  · intro x hx0 hx1
    rw [hdim] at hx1
    have hd0 : d0 ≠ 0 := by omega
    have hdiv : Int.tdiv t.size_ d0 = volume (d1 :: ds) := by
      rw [hinv, hshape, volume_cons_cons]
      exact Int.mul_tdiv_cancel_left _ hd0
    refine ⟨by rw [hget]; exact hd0, ?_⟩
    unfold Tensor.SubspaceTensor
    rw [if_neg (not_not.mpr hnd), if_neg (not_not.mpr ⟨hx0, hdim.symm ▸ hx1⟩)]
    refine ⟨_, rfl, ?_, ?_, mul_nonneg hx0 hnb, ?_⟩
    · show (t.type_.size : Int) * Int.tdiv t.size_ (t.shape_.getD 0 0) = _
      rw [hget, hdiv]
    · show t.data_ + x * ((t.type_.size : Int) * Int.tdiv t.size_ (t.shape_.getD 0 0)) = _
      rw [hget, hdiv]
    · have h1 : (x + 1) * ((t.type_.size : Int) * volume (d1 :: ds)) ≤
          d0 * ((t.type_.size : Int) * volume (d1 :: ds)) :=
        mul_le_mul_of_nonneg_right (by omega) hnb
      rw [htotal] at h1
      exact le_trans h1 hcap
  · intro x y _ hxy
    exact mul_le_mul_of_nonneg_right (by omega) hnb
  · intro o ho0 ho1
    rw [← htotal] at ho1
    have hpos : 0 < (t.type_.size : Int) * volume (d1 :: ds) := by
      rcases lt_or_eq_of_le hnb with h | h
      · exact h
      · rw [← h, mul_zero] at ho1; omega
    refine ⟨o / ((t.type_.size : Int) * volume (d1 :: ds)), ?_, ?_, ?_, ?_⟩
    · exact Int.ediv_nonneg ho0 hnb
    · exact Int.ediv_lt_of_lt_mul hpos ho1
    · exact Int.ediv_mul_le o (ne_of_gt hpos)
    · exact Int.lt_ediv_add_one_mul_self o hpos

/-- Witness for C24: the two rows of the 2 x 3 tensor of 24 bytes at address 4096 are the
byte ranges `[0, 12)` and `[12, 24)`. -/
theorem SubspaceTensor_views_tile_witness :
    (∃ view, Sample.owner23.SubspaceTensor 0 = .ok view ∧ view.num_bytes_ = 12 ∧
      view.data_ = 4096) ∧
    (∃ view, Sample.owner23.SubspaceTensor 1 = .ok view ∧ view.num_bytes_ = 12 ∧
      view.data_ = 4096 + 12) ∧
    (2 : Int) * ((Sample.owner23.type_.size : Int) * volume [3]) =
      Sample.owner23.size_ * Sample.owner23.type_.size :=
  ⟨⟨_, rfl, rfl, rfl⟩, ⟨_, rfl, rfl, rfl⟩,
    (SubspaceTensor_views_tile Sample.owner23 2 3 [] rfl (by decide) rfl (by decide)).2.2.1⟩

/-! ## Box: empty, volume, overlaps -/

theorem foldl_mul_eq_prod_ring {α : Type} [Ring α] (ds : List α) (d : α) :
    ds.foldl (fun p e => p * e) d = d * ds.prod := by
  induction ds generalizing d with
  | nil => simp
  | cons e r ih => simp only [List.foldl_cons, List.prod_cons]; rw [ih, mul_assoc]

theorem vec_volume_eq_prod {ndims : Nat} {α : Type} [Ring α] (v : Fin ndims → α)
    (hd : 0 < ndims) : vec_volume v = (List.ofFn v).prod := by
  unfold vec_volume
  cases h : List.ofFn v with
  | nil =>
    have := congrArg List.length h
    simp at this
    omega
  | cons d ds => simp only [List.prod_cons]; exact foldl_mul_eq_prod_ring ds d

/-- C21, as stated, fails: the `Box<2, float>` with the corners `(0, 0)` and `(2 ^ -100,
2 ^ -100)` has `lo <= hi` in both coordinates and is not empty, both extents are `2 ^ -100`,
and its volume, the float product `2 ^ -100 * 2 ^ -100`, underflows to 0. -/
theorem Box_float_volume_underflows :
    F32.le (Sample.tiny_box.lo 0) (Sample.tiny_box.hi 0) = true ∧
    F32.le (Sample.tiny_box.lo 1) (Sample.tiny_box.hi 1) = true ∧
    Sample.tiny_box.empty = false ∧
    Sample.tiny_box.extent 0 = F32.fin (F32.pow2 (-100)) ∧
    Sample.tiny_box.extent 1 = F32.fin (F32.pow2 (-100)) ∧
    Sample.tiny_box.volume = F32.fin 0 ∧
    F32.eq Sample.tiny_box.volume F32.zero = true := by
  refine ⟨?_, ?_, ?_, ?_, ?_, ?_, ?_⟩ <;> decide!

/-- The same with machine integers: the `Box<2, uint32_t>` with the corners `(0, 0)` and
`(65536, 65536)` is not empty, and its volume `65536 * 65536` wraps to 0. -/
theorem Box_uint32_volume_wraps :
    (∀ i, Sample.wide_box.lo i ≤ Sample.wide_box.hi i) ∧ Sample.wide_box.empty = false ∧
    Sample.wide_box.volume = 0 := by
  refine ⟨?_, ?_, ?_⟩ <;> decide

/-- C21, amended: for a box of at least one dimension over a linearly ordered ring (exact
arithmetic) with `lo <= hi` in every coordinate, `empty()` is true exactly when
`volume(box)`, the product of the extents `hi - lo`, is 0. -/
theorem Box_empty_iff_volume_zero {ndims : Nat} {α : Type} [LinearOrderedRing α]
    (b : Box ndims α) (hd : 0 < ndims) (hle : ∀ i, b.lo i ≤ b.hi i) :
    b.empty = true ↔ b.volume = 0 := by
  unfold Box.volume
  rw [vec_volume_eq_prod _ hd, List.prod_eq_zero_iff, List.mem_ofFn]
  unfold Box.empty
  rw [any_coord_iff]
  simp only [decide_eq_true_eq, Box.extent, Set.mem_range]
  constructor
  · rintro ⟨i, hi⟩
    exact ⟨i, sub_eq_zero.mpr (le_antisymm hi (hle i))⟩
  · rintro ⟨i, hi⟩
    exact ⟨i, le_of_eq (sub_eq_zero.mp hi)⟩

/-- Witness for C21 (amended): `[0, 4) x [2, 2)` is empty and has volume 0. -/
theorem Box_empty_iff_volume_zero_witness :
    ((Sample.box2 0 2 4 2).empty = true ↔ (Sample.box2 0 2 4 2).volume = 0) ∧
    (Sample.box2 0 2 4 2).empty = true ∧ (Sample.box2 0 2 4 2).volume = 0 :=
  ⟨Box_empty_iff_volume_zero (Sample.box2 0 2 4 2) (by decide) (by decide), by decide,
    by decide⟩

theorem overlaps_iff {ndims : Nat} {α : Type} [LinearOrder α] (a b : Box ndims α) :
    a.overlaps b = true ↔ ∀ i, a.lo i < b.hi i ∧ b.lo i < a.hi i := by
  simp [Box.overlaps, List.all_eq_true]

theorem contains_iff {ndims : Nat} {α : Type} [LinearOrder α] (a b : Box ndims α) :
    a.contains b = true ↔ ∀ i, a.lo i ≤ b.lo i ∧ b.hi i ≤ a.hi i := by
  simp [Box.contains, List.all_eq_true]

/-- The intersection is empty exactly when the box of the coordinate-wise maxima of `lo` and
minima of `hi` has `hi <= lo` in some coordinate. -/
theorem intersection_empty_iff {ndims : Nat} {α : Type} [LinearOrder α] [Zero α]
    (a b : Box ndims α) :
    (intersection a b).empty = true ↔ ∃ i, min (a.hi i) (b.hi i) ≤ max (a.lo i) (b.lo i) := by
  have hany : any_coord (fun i => decide (min (a.hi i) (b.hi i) ≤ max (a.lo i) (b.lo i)))
      = true ↔ ∃ i, min (a.hi i) (b.hi i) ≤ max (a.lo i) (b.lo i) := by
    rw [any_coord_iff]; simp only [decide_eq_true_eq]
  unfold intersection
  simp only
  by_cases hc : any_coord (fun i => decide (min (a.hi i) (b.hi i) ≤ max (a.lo i) (b.lo i)))
      = true
  · rw [if_pos hc]
    obtain ⟨i, _⟩ := hany.mp hc
    constructor
    · intro _; exact hany.mp hc
    · intro _
      unfold Box.empty
      rw [any_coord_iff]
      exact ⟨i, by simp [Box.Box]⟩
  · rw [if_neg hc]
    unfold Box.empty
    exact ⟨fun h => absurd h hc, fun h => absurd (hany.mpr h) hc⟩

/-- C26: for two boxes with `lo < hi` in every coordinate, `a.overlaps(b)` is true exactly
when `intersection(a, b)` is not empty; `overlaps` is symmetric, `intersection` is
commutative, and an intersection that is not empty is contained in `a` and in `b`. -/
theorem Box_overlaps_intersection {ndims : Nat} {α : Type} [LinearOrder α] [Zero α]
    (a b : Box ndims α) (ha : ∀ i, a.lo i < a.hi i) (hb : ∀ i, b.lo i < b.hi i) :
    (a.overlaps b = true ↔ (intersection a b).empty = false) ∧
    a.overlaps b = b.overlaps a ∧
    intersection a b = intersection b a ∧
    ((intersection a b).empty = false →
      a.contains (intersection a b) = true ∧ b.contains (intersection a b) = true) := by
  have hne : (intersection a b).empty = false ↔
      ∀ i, max (a.lo i) (b.lo i) < min (a.hi i) (b.hi i) := by
    rw [← Bool.not_eq_true, intersection_empty_iff]
    simp only [not_exists, not_le]
  refine ⟨?_, ?_, ?_, ?_⟩
  · rw [overlaps_iff, hne]
    constructor
    · intro h i
      exact max_lt (lt_min (ha i) (h i).1) (lt_min (h i).2 (hb i))
    · intro h i
      have := h i
      rw [max_lt_iff, lt_min_iff, lt_min_iff] at this
      exact ⟨this.1.2, this.2.1⟩
  · rw [Bool.eq_iff_iff, overlaps_iff, overlaps_iff]
    exact ⟨fun h i => ⟨(h i).2, (h i).1⟩, fun h i => ⟨(h i).2, (h i).1⟩⟩
  · have h1 : (fun i => max (a.lo i) (b.lo i)) = fun i => max (b.lo i) (a.lo i) :=
      funext fun i => max_comm _ _
    have h2 : (fun i => min (a.hi i) (b.hi i)) = fun i => min (b.hi i) (a.hi i) :=
      funext fun i => min_comm _ _
    have h3 : (fun i => decide (min (a.hi i) (b.hi i) ≤ max (a.lo i) (b.lo i))) =
        fun i => decide (min (b.hi i) (a.hi i) ≤ max (b.lo i) (a.lo i)) :=
      funext fun i => by rw [max_comm, min_comm]
    have hcond : any_coord (fun i => decide (min (a.hi i) (b.hi i) ≤ max (a.lo i) (b.lo i))) =
        any_coord (fun i => decide (min (b.hi i) (a.hi i) ≤ max (b.lo i) (a.lo i))) :=
      congrArg any_coord h3
    unfold intersection
    simp only
    by_cases hc : any_coord (fun i => decide (min (a.hi i) (b.hi i) ≤ max (a.lo i) (b.lo i)))
        = true
    · rw [if_pos hc, if_pos (hcond ▸ hc)]
    · rw [if_neg hc, if_neg (hcond ▸ hc), h1, h2]
  · intro h
    have hall := hne.mp h
    have hc : ¬ (any_coord (fun i => decide (min (a.hi i) (b.hi i) ≤ max (a.lo i) (b.lo i)))
        = true) := by
      rw [any_coord_iff]
      simp only [decide_eq_true_eq, not_exists, not_le]
      exact hall
    have hint : intersection a b =
        { lo := fun i => max (a.lo i) (b.lo i), hi := fun i => min (a.hi i) (b.hi i) } := by
      unfold intersection
      simp only
      rw [if_neg hc]
    rw [hint, contains_iff, contains_iff]
    exact ⟨fun i => ⟨le_max_left _ _, min_le_left _ _⟩,
      fun i => ⟨le_max_right _ _, min_le_right _ _⟩⟩

/-- Witness for C26: `[0, 4) x [0, 4)` and `[2, 6) x [1, 3)` overlap, and their
intersection is not empty. -/
theorem Box_overlaps_intersection_witness :
    ((Sample.box2 0 0 4 4).overlaps (Sample.box2 2 1 6 3) = true ↔
      (intersection (Sample.box2 0 0 4 4) (Sample.box2 2 1 6 3)).empty = false) ∧
    (Sample.box2 0 0 4 4).overlaps (Sample.box2 2 1 6 3) = true ∧
    intersection (Sample.box2 0 0 4 4) (Sample.box2 2 1 6 3) =
      intersection (Sample.box2 2 1 6 3) (Sample.box2 0 0 4 4) :=
  ⟨(Box_overlaps_intersection (Sample.box2 0 0 4 4) (Sample.box2 2 1 6 3) (by decide)
      (by decide)).1, by decide,
   (Box_overlaps_intersection (Sample.box2 0 0 4 4) (Sample.box2 2 1 6 3) (by decide)
      (by decide)).2.2.1⟩

/-! ## DiceRoll: the number of draws, determinism -/

/-- Without `batch_wise_` every iteration draws: when the faces drawn are indices into
`values_`, the values written are those of the draws number `calls`, `calls + 1`, ... of the
engine, in order, and the engine has been sampled `n` more times. -/
theorem RunImpl_loop_per_sample (draw : List F32 → Int → Nat → Int) (op : DiceRoll)
    (hbw : op.batch_wise_ = false)
    (hvalid : ∀ seed k, ∃ v, DiceRoll.read op.values_ (draw op.dis_ seed k) = some v)
    (n : Nat) (i face : Int) (rng : Engine) :
    ∃ vals, DiceRoll.RunImpl_loop draw op n i face rng =
        some (vals, { rng with calls := rng.calls + n }) ∧
      vals.map some = (List.range n).map (fun j => DiceRoll.read op.values_
          (draw op.dis_ rng.seed (rng.calls + j))) := by
  induction n generalizing i face rng with
  | zero => exact ⟨[], rfl, rfl⟩
  | succ n ih =>
    obtain ⟨v, hv⟩ := hvalid rng.seed rng.calls
    obtain ⟨vals, hl, hm⟩ := ih (i + 1) (draw op.dis_ rng.seed rng.calls)
      { rng with calls := rng.calls + 1 }
    refine ⟨v :: vals, ?_, ?_⟩
    · simp only [DiceRoll.RunImpl_loop, hbw, Bool.not_false, Bool.true_or, if_true,
        DiceRoll.sample, hv, hl]
      rw [show rng.calls + 1 + n = rng.calls + (n + 1) by omega]
    · rw [List.map_cons, hm, List.range_succ_eq_map, List.map_cons, List.map_map]
      simp only [Nat.add_zero, hv, List.cons.injEq, true_and]
      apply List.map_congr_left
      intro j _
      simp only [Function.comp, Nat.succ_eq_add_one]
      rw [show rng.calls + 1 + j = rng.calls + (j + 1) by omega]

/-- With `batch_wise_` set and at least one iteration, the loop from index 0 draws once. -/
theorem RunImpl_loop_batch_wise_first (draw : List F32 → Int → Nat → Int) (op : DiceRoll)
    (hbw : op.batch_wise_ = true) (n : Nat) (face : Int) (rng : Engine) (value : F32)
    (hv : DiceRoll.read op.values_ (draw op.dis_ rng.seed rng.calls) = some value) :
    DiceRoll.RunImpl_loop draw op (n + 1) 0 face rng =
      some (List.replicate (n + 1) value, { rng with calls := rng.calls + 1 }) := by
  simp only [DiceRoll.RunImpl_loop, hbw, Bool.not_true, Bool.false_or, beq_self_eq_true,
    if_true, DiceRoll.sample, hv]
  rw [RunImpl_loop_batch_wise draw op hbw n (0 + 1) _ _ (by omega) value hv]
  rfl

/-- One Run, when the faces drawn are indices into `values_` and the output tensor is not a
shared view: the Run returns, the engine has been sampled the claimed number of times and
nothing else of the operator has changed, and the values written are the values of the
claimed faces. -/
theorem RunImpl_closed_form (draw : List F32 → Int → Nat → Int) (op : DiceRoll)
    (hvalid : ∀ seed k, ∃ v, DiceRoll.read op.values_ (draw op.dis_ seed k) = some v)
    (output : Tensor) (fresh1 fresh2 : Int) (hout : output.shares_data_ = false) :
    ∃ out vals, op.RunImpl draw output fresh1 fresh2 =
        .returns (out, vals, { op with rng_ :=
          { op.rng_ with calls := op.rng_.calls + Claimed.draws_per_Run op } }) ∧
      out.shape_ = [op.batch_size_] ∧
      vals.map some =
        (Claimed.faces_of_Run draw op op.rng_.calls).map (DiceRoll.read op.values_) := by
  obtain ⟨out, hsh, _, hrun⟩ := RunImpl_unshared op draw output fresh1 fresh2 hout
  rw [hrun]
  unfold Claimed.draws_per_Run Claimed.faces_of_Run
  cases hn : op.batch_size_.toNat with
  | zero =>
    have h0 : op.batch_size_ ≤ 0 := by omega
    refine ⟨out, [], ?_, hsh, ?_⟩
    · simp only [DiceRoll.RunImpl_loop, if_pos h0]
      rfl
    · by_cases hb : op.batch_wise_ = true
      · rw [if_pos hb]; rfl
      · rw [if_neg hb]; rfl
  | succ n =>
    have h0 : ¬ op.batch_size_ ≤ 0 := by omega
    cases hb : op.batch_wise_ with
    | true =>
      obtain ⟨v, hv⟩ := hvalid op.rng_.seed op.rng_.calls
      refine ⟨out, List.replicate (n + 1) v, ?_, hsh, ?_⟩
      · rw [RunImpl_loop_batch_wise_first draw op hb n 0 op.rng_ v hv]
        simp only [if_neg h0, if_true]
      · simp only [if_true, List.map_replicate, hv]
    | false =>
      obtain ⟨vals, hl, hm⟩ := RunImpl_loop_per_sample draw op hb hvalid (n + 1) 0 0 op.rng_
      refine ⟨out, vals, ?_, hsh, ?_⟩
      · rw [hl]
        simp only [if_neg h0, Bool.false_eq_true, if_false]
      · rw [hm]
        simp only [Bool.false_eq_true, if_false, List.map_map]
        rfl

/-- A sequence of Runs, when the faces drawn are indices into `values_` and no output tensor
is a shared view: every Run returns; Run number `r` starts at draw number `calls + r * d` of
the engine, `d` the claimed number of draws of one Run, and writes the values of the claimed
faces; the operator afterwards differs in the number of draws only. -/
theorem Runs_closed_form (draw : List F32 → Int → Nat → Int) (op : DiceRoll)
    (hvalid : ∀ seed k, ∃ v, DiceRoll.read op.values_ (draw op.dis_ seed k) = some v)
    (ws : List (Tensor × Int × Int)) (hws : ∀ w ∈ ws, w.1.shares_data_ = false) :
    ∃ valss, DiceRoll.Runs draw op ws =
        .returns (valss, { op with rng_ :=
          { op.rng_ with calls := op.rng_.calls + ws.length * Claimed.draws_per_Run op } }) ∧
      valss.map (List.map some) = (List.range ws.length).map (fun r =>
        (Claimed.faces_of_Run draw op (op.rng_.calls + r * Claimed.draws_per_Run op)).map
          (DiceRoll.read op.values_)) := by
  induction ws generalizing op with
  | nil =>
    refine ⟨[], ?_, rfl⟩
    simp only [DiceRoll.Runs, List.length_nil, Nat.zero_mul, Nat.add_zero]
  | cons w rest ih =>
    obtain ⟨o, f, g⟩ := w
    have hu : o.shares_data_ = false := hws (o, f, g) (List.mem_cons_self _ _)
    obtain ⟨out, vals, hrun, _, hvals⟩ := RunImpl_closed_form draw op hvalid o f g hu
    obtain ⟨more, hmore, hm⟩ := ih
      { op with rng_ := { op.rng_ with calls := op.rng_.calls + Claimed.draws_per_Run op } }
      hvalid (fun w hw => hws w (List.mem_cons_of_mem _ hw))
    refine ⟨vals :: more, ?_, ?_⟩
    · simp only [DiceRoll.Runs, hrun, hmore]
      have hd : Claimed.draws_per_Run
          { op with rng_ := { op.rng_ with calls := op.rng_.calls + Claimed.draws_per_Run op } }
          = Claimed.draws_per_Run op := rfl
      rw [hd, List.length_cons]
      have hc : op.rng_.calls + Claimed.draws_per_Run op
            + rest.length * Claimed.draws_per_Run op
          = op.rng_.calls + (rest.length + 1) * Claimed.draws_per_Run op := by ring
      simp only [hc]
    · rw [List.map_cons, hm, hvals, List.length_cons, List.range_succ_eq_map, List.map_cons,
        List.map_map]
      simp only [Nat.zero_mul, Nat.add_zero, List.cons.injEq, true_and]
      apply List.map_congr_left
      intro r _
      simp only [Function.comp, Nat.succ_eq_add_one]
      have hd : Claimed.draws_per_Run
          { op with rng_ := { op.rng_ with calls := op.rng_.calls + Claimed.draws_per_Run op } }
          = Claimed.draws_per_Run op := rfl
      rw [hd]
      have hc : op.rng_.calls + Claimed.draws_per_Run op + r * Claimed.draws_per_Run op
          = op.rng_.calls + (r + 1) * Claimed.draws_per_Run op := by ring
      rw [hc]
      rfl

/-- C27, as stated, fails: operators built with the same seed 7, the same face values 1 and
2 and the same (absent) probabilities write different values in their first Run.  The draws
are the faces 0, 0, 1: with `batch_wise` a batch of 3 is 1, 1, 1, without it 1, 1, 2; and
without `batch_wise` a batch of 2 is 1, 1. -/
theorem DiceRoll_same_seed_different_outputs :
    (Sample.dice true 3).seed = (Sample.dice false 3).seed ∧
    (Sample.dice true 3).face_values = (Sample.dice false 3).face_values ∧
    (Sample.dice true 3).face_probs = (Sample.dice false 3).face_probs ∧
    (Sample.dice false 2).seed = (Sample.dice false 3).seed ∧
    (Sample.dice false 2).face_values = (Sample.dice false 3).face_values ∧
    (Sample.dice false 2).face_probs = (Sample.dice false 3).face_probs ∧
    (∃ op1, DiceRoll.Runs Sample.draws_of_seed_7 (DiceRoll.DiceRoll (Sample.dice true 3))
        [(Tensor.init, 4096, 8192)] = .returns ([[F32.fin 1, F32.fin 1, F32.fin 1]], op1)) ∧
    (∃ op2, DiceRoll.Runs Sample.draws_of_seed_7 (DiceRoll.DiceRoll (Sample.dice false 3))
        [(Tensor.init, 4096, 8192)] = .returns ([[F32.fin 1, F32.fin 1, F32.fin 2]], op2)) ∧
    (∃ op3, DiceRoll.Runs Sample.draws_of_seed_7 (DiceRoll.DiceRoll (Sample.dice false 2))
        [(Tensor.init, 4096, 8192)] = .returns ([[F32.fin 1, F32.fin 1]], op3)) ∧
    [[F32.fin 1, F32.fin 1, F32.fin 1]] ≠ [[F32.fin 1, F32.fin 1, F32.fin 2]] ∧
    [[F32.fin 1, F32.fin 1]] ≠ [[F32.fin 1, F32.fin 1, F32.fin 2]] :=
  ⟨rfl, rfl, rfl, rfl, rfl, rfl, ⟨_, rfl⟩, ⟨_, rfl⟩, ⟨_, rfl⟩, by decide, by decide⟩

/-- C27, amended: for operators with at least one face value and no more probabilities than
face values (and a distribution that returns indices of its weights), on output tensors that
are not shared views: from every state of the engine a Run returns; it samples the engine
exactly once when `batch_wise` is set and `batch_size >= 1`, exactly `batch_size` times when
`batch_wise` is not set, output `i` being the value of draw number `i` in order, and not at
all when `batch_size` is 0; and two operators built with the same seed, face values,
probabilities, `batch_wise` flag and batch size write identical values over any sequence of
Runs, those of the claimed faces. -/
theorem DiceRoll_draws_and_determinism (draw : List F32 → Int → Nat → Int)
    (spec1 spec2 : DiceRollSpec) (ws1 ws2 : List (Tensor × Int × Int))
    (hdraw : ∀ w seed k, 0 ≤ draw w seed k ∧ draw w seed k < max 1 w.length)
    (hvalues : spec1.face_values ≠ [])
    (hprobs : spec1.face_probs.length ≤ spec1.face_values.length)
    (hseed : spec1.seed = spec2.seed) (hfaces : spec1.face_values = spec2.face_values)
    (hweights : spec1.face_probs = spec2.face_probs)
    (hbw : spec1.batch_wise = spec2.batch_wise) (hbs : spec1.batch_size = spec2.batch_size)
    (hlen : ws1.length = ws2.length)
    (h1 : ∀ w ∈ ws1, w.1.shares_data_ = false) (h2 : ∀ w ∈ ws2, w.1.shares_data_ = false) :
    (Claimed.draws_per_Run (DiceRoll.DiceRoll spec1) =
      if spec1.batch_size ≤ 0 then 0 else if spec1.batch_wise = true then 1
      else spec1.batch_size.toNat) ∧
    (∀ (calls : Nat) (output : Tensor) (fresh1 fresh2 : Int), output.shares_data_ = false →
      ∃ out vals,
        DiceRoll.RunImpl
          { DiceRoll.DiceRoll spec1 with rng_ := { seed := spec1.seed, calls := calls } }
          draw output fresh1 fresh2 =
          .returns (out, vals,
            { DiceRoll.DiceRoll spec1 with rng_ :=
              { seed := spec1.seed,
                calls := calls + Claimed.draws_per_Run (DiceRoll.DiceRoll spec1) } }) ∧
        out.shape_ = [spec1.batch_size] ∧
        vals.map some = (Claimed.faces_of_Run draw (DiceRoll.DiceRoll spec1) calls).map
          (DiceRoll.read spec1.face_values)) ∧
    ∃ valss op1 op2,
      DiceRoll.Runs draw (DiceRoll.DiceRoll spec1) ws1 = .returns (valss, op1) ∧
      DiceRoll.Runs draw (DiceRoll.DiceRoll spec2) ws2 = .returns (valss, op2) ∧
      op1.rng_.calls = ws1.length * Claimed.draws_per_Run (DiceRoll.DiceRoll spec1) ∧
      op2.rng_.calls = ws1.length * Claimed.draws_per_Run (DiceRoll.DiceRoll spec1) ∧
      valss.map (List.map some) = (List.range ws1.length).map (fun r =>
        (Claimed.faces_of_Run draw (DiceRoll.DiceRoll spec1)
            (r * Claimed.draws_per_Run (DiceRoll.DiceRoll spec1))).map
          (DiceRoll.read spec1.face_values)) := by
  have hvalid : ∀ seed k, ∃ v, DiceRoll.read (DiceRoll.DiceRoll spec1).values_
      (draw (DiceRoll.DiceRoll spec1).dis_ seed k) = some v := by
    intro seed k
    have hr := DiceRoll_draws_in_range spec1 draw hdraw hvalues hprobs seed k
    obtain ⟨x, _, hx⟩ := read_valid _ _ hr.1 hr.2
    exact ⟨x, hx⟩
  refine ⟨rfl, ?_, ?_⟩
  · intro calls output fresh1 fresh2 hout
    exact RunImpl_closed_form draw
      { DiceRoll.DiceRoll spec1 with rng_ := { seed := spec1.seed, calls := calls } }
      hvalid output fresh1 fresh2 hout
  have heq : spec2 = spec1 := by
    cases spec1; cases spec2
    simp only at hseed hfaces hweights hbw hbs
    subst hseed hfaces hweights hbw hbs
    rfl
  obtain ⟨valss, hr1, hm1⟩ := Runs_closed_form draw (DiceRoll.DiceRoll spec1) hvalid ws1 h1
  obtain ⟨valss2, hr2, hm2⟩ := Runs_closed_form draw (DiceRoll.DiceRoll spec1) hvalid ws2 h2
  have hsame : valss2 = valss := by
    have hinj : Function.Injective (List.map (List.map (some : F32 → Option F32))) :=
      List.map_injective_iff.mpr (List.map_injective_iff.mpr (Option.some_injective F32))
    apply hinj
    rw [hm1, hm2, hlen]
  rw [hsame] at hr2
  rw [heq]
  refine ⟨valss, _, _, hr1, hr2, ?_, ?_, ?_⟩
  · show 0 + ws1.length * _ = _
    rw [Nat.zero_add]
  · show 0 + ws2.length * _ = _
    rw [Nat.zero_add, hlen]
  · simp only [hm1]
    apply List.map_congr_left
    intro r _
    show (Claimed.faces_of_Run draw (DiceRoll.DiceRoll spec1) (0 + _)).map _ = _
    rw [Nat.zero_add]
    rfl

/-- Witness for C27 (amended): two batches of 3 without `batch_wise` on fresh output tensors
sample the engine 6 times and write the values of the draws 0, 1, 2 and 3, 4, 5. -/
theorem DiceRoll_draws_and_determinism_witness :
    ∃ op1 op2,
      DiceRoll.Runs Sample.draws_of_seed_7 (DiceRoll.DiceRoll (Sample.dice false 3))
        [(Tensor.init, 4096, 8192), (Tensor.init, 4096, 8192)] =
        .returns ([[F32.fin 1, F32.fin 1, F32.fin 2], [F32.fin 1, F32.fin 1, F32.fin 1]], op1) ∧
      DiceRoll.Runs Sample.draws_of_seed_7 (DiceRoll.DiceRoll (Sample.dice false 3))
        [(Sample.owner23, 12288, 16384), (Tensor.init, 4096, 8192)] =
        .returns ([[F32.fin 1, F32.fin 1, F32.fin 2], [F32.fin 1, F32.fin 1, F32.fin 1]], op2) ∧
      op1.rng_.calls = 6 ∧ op2.rng_.calls = 6 := by
  obtain ⟨_, _, valss, op1, op2, hr1, hr2, hc1, hc2, hm⟩ :=
    DiceRoll_draws_and_determinism Sample.draws_of_seed_7 (Sample.dice false 3)
      (Sample.dice false 3) [(Tensor.init, 4096, 8192), (Tensor.init, 4096, 8192)]
      [(Sample.owner23, 12288, 16384), (Tensor.init, 4096, 8192)]
      (by
        intro w seed k
        unfold Sample.draws_of_seed_7
        by_cases h : k = 2 ∧ 2 ≤ w.length
        · rw [if_pos h]
          have := h.2
          omega
        · rw [if_neg h]
          omega)
      (by decide) (by decide) rfl rfl rfl rfl rfl rfl
      (by intro w hw; simp at hw; subst hw; rfl)
      (by intro w hw; simp at hw; rcases hw with rfl | rfl <;> rfl)
  have hv : valss = [[F32.fin 1, F32.fin 1, F32.fin 2], [F32.fin 1, F32.fin 1, F32.fin 1]] := by
    have hinj : Function.Injective (List.map (List.map (some : F32 → Option F32))) :=
      List.map_injective_iff.mpr (List.map_injective_iff.mpr (Option.some_injective F32))
    apply hinj
    rw [hm]
    rfl
  rw [hv] at hr1 hr2
  exact ⟨op1, op2, hr1, hr2, hc1, hc2⟩

end dali
